import Mathlib

/-!
# go-parallel: the request pipeline and the polling controller

A shallow embedding of `parallel/parallel.go` and `parallel/types.go`.

* Go `string` is `String`, `int`/`int64`/`time.Duration` are `Int`. Only the models of
  the JSON codec (the round trip of a `ParallelChatMessage`, the decoding of a response
  body by the `json` tags of `types.go`) look inside strings; there a string is the
  list of its bytes.
* A Go result pair `(*T, error)` is `Except GoError T`: `.ok v` is `(v, nil)` and
  `.error e` is `(nil, e)`; the handlers return no other combination.
* The standard library and the remote service are the environment `Env`: the JSON
  codec (`encoding/json`, to which the `json` tags of `types.go` belong), URL parsing
  inside `http.NewRequestWithContext`, and the HTTP round trip `c.client.Do`. The
  handlers are stated for every such environment; `UsesEncodingJSON` says of an
  environment that its decoders are those of `encoding/json`, modelled by `Decode`.
* A request carries the URL as the string the handler builds, and `URLPath` is the path
  that `url.Parse` gives that string; the escaping of a path on the wire is not
  modelled.
* Every request handed to `c.client.Do` is appended to `World.sent`, the log a test
  server keeps; the environment answers the `n`-th request of a run.
* The `select` of `PollUntilComplete` is driven by a schedule of `Instant`s, each
  giving the state of the two channels and the runtime's choice between ready cases.
-/

namespace Parallel

/-! ## Errors -/

/-- The two errors a standard `context.Context` reports. -/
inductive CtxErr where
  | Canceled
  | DeadlineExceeded
  deriving DecidableEq

/-- A Go `error` value: a context error, a plain message (`fmt.Errorf` without `%w`,
or an error made by a library), or a message wrapping another error (`%w`). -/
inductive GoError where
  | ctx (e : CtxErr)
  | errorString (msg : String)
  | wrapError (msg : String) (err : GoError)
  deriving DecidableEq

/-- The method `Error()`. -/
def GoError.Error : GoError → String
  | .ctx .Canceled => "context canceled"
  | .ctx .DeadlineExceeded => "context deadline exceeded"
  | .errorString msg => msg
  | .wrapError msg _ => msg

/-- The method `Unwrap()` of an error built with `%w`. -/
def GoError.Unwrap : GoError → Option GoError
  | .wrapError _ err => some err
  | _ => none

/-- The call `fmt.Errorf(pfx + "%w", err)`: the message is the prefix followed by the
message of `err`, and the result wraps `err`. -/
def Errorf_w (pfx : String) (err : GoError) : GoError :=
  .wrapError (pfx ++ err.Error) err

/-- The call `strings.HasPrefix(s, pfx)`. -/
def HasPrefix (s pfx : String) : Bool :=
  pfx.data.isPrefixOf s.data

/-! ## HTTP values -/

/-- The state of a `context.Context` when it is looked at: `err` is `ctx.Err()`, and
`ctx.Done()` is closed exactly when it is not `none`. -/
structure Context where
  err : Option CtxErr
  deriving DecidableEq

/-- The call `context.Background()`. -/
def Background : Context := ⟨none⟩

/-- The bytes allowed in a header field name (`validHeaderFieldByte`). -/
def validHeaderFieldByte (c : Char) : Bool :=
  c.isAlphanum || "!#$%&*+-.^_|~".data.contains c || c.toNat == 39 || c.toNat == 96

/-- The loop of `canonicalMIMEHeaderKey`: upper case at the start and after each dash,
lower case elsewhere. -/
def canonicalLoop : Bool → List Char → List Char
  | _, [] => []
  | upper, c :: cs =>
    let c1 :=
      if upper && c.isLower then Char.ofNat (c.toNat - 32)
      else if !upper && c.isUpper then Char.ofNat (c.toNat + 32)
      else c
    c1 :: canonicalLoop (c1 == '-') cs

/-- The function `textproto.CanonicalMIMEHeaderKey`: a key with a byte that is not a
header field byte is returned unchanged. -/
def CanonicalMIMEHeaderKey (s : String) : String :=
  if s.data.all validHeaderFieldByte then ⟨canonicalLoop true s.data⟩ else s

/-- The type `http.Header`, a map from canonical keys to value lists. -/
abbrev Header := List (String × List String)

/-- The method `Header.Set`: replaces whatever the key held by the single value. -/
def Header.Set (h : Header) (key value : String) : Header :=
  (CanonicalMIMEHeaderKey key, [value]) ::
    h.filter (fun p => p.1 != CanonicalMIMEHeaderKey key)

/-- The method `Header.Values`: all values of the key, none when it is absent. -/
def Header.Values (h : Header) (key : String) : List String :=
  (h.lookup (CanonicalMIMEHeaderKey key)).getD []

/-- The method `Header.Get`: the first value of the key, or the empty string. -/
def Header.Get (h : Header) (key : String) : String :=
  (Header.Values h key).headD ""

/-- The fields of `http.Request` the handlers set. `Body = none` is a nil body. `URL`
is the URL string given to `http.NewRequestWithContext`, which parses it: `URLPath`
gives the path of the parsed URL. -/
structure Request where
  ctx : Context
  Method : String
  URL : String
  Header : Header
  Body : Option String
  deriving DecidableEq

/-- A response body as a stream: the bytes that can be read and the error, if any,
that ends the reading. -/
structure Body where
  data : String
  err : Option GoError
  deriving DecidableEq

/-- The call `io.ReadAll(body)`: the data read so far and the read error. -/
def ReadAll (b : Body) : String × Option GoError := (b.data, b.err)

/-- The fields of `http.Response` the handlers read. -/
structure Response where
  Status : String
  StatusCode : Int
  Body : Body
  deriving DecidableEq

/-- The constant `http.StatusOK`. -/
def StatusOK : Int := 200
/-- The constant `http.MethodPost`. -/
def MethodPost : String := "POST"
/-- The constant `http.MethodGet`. -/
def MethodGet : String := "GET"
/-- The constant `time.Second`, in nanoseconds. -/
def Second : Int := 1000000000

/-! ## Data types (`types.go`) -/

structure ParallelSearchRequest where
  Objective : String
  SearchQueries : List String
  MaxResults : Int
  MaxCharsPerResult : Int
  deriving DecidableEq

structure ParallelResult where
  URL : String
  Title : String
  Excerpts : List String
  deriving DecidableEq

structure ParallelSearchResponse where
  SearchID : String
  Results : List ParallelResult
  deriving DecidableEq

structure ParallelExtractRequest where
  URLs : List String
  Objective : String
  Excerpts : Bool
  FullContent : Bool
  deriving DecidableEq

structure ParallelExtract where
  URL : String
  Title : String
  Excerpts : List String
  FullContent : String
  deriving DecidableEq

structure ParallelAPIError where
  Message : String
  deriving DecidableEq

structure ParallelExtractResponse where
  ExtractID : String
  Results : List ParallelExtract
  Errors : List ParallelAPIError
  deriving DecidableEq

structure ParallelTaskRequest where
  Input : String
  Processor : String
  deriving DecidableEq

structure MarketSizeAndForecast where
  CAGR : String
  MarketSegment : String
  CurrentValuation : String
  ForecastedValuation : String
  ForecastPeriod : String
  deriving DecidableEq

structure CompanyProfile where
  CompanyName : String
  StockTicker : String
  Revenue : String
  MarketCap : String
  MarketPosition : String
  RecentDevelopments : String
  deriving DecidableEq

structure RecentMergersAndAcquisitions where
  AcquiringCompany : String
  TargetCompany : String
  DealSummary : String
  Date : String
  deriving DecidableEq

structure MarketSegmentationAnalysis where
  DominantSegment : String
  DominantSegmentShare : String
  FastestGrowingSegment : String
  FastestGrowingSegmentCAGR : String
  deriving DecidableEq

structure PubliclyTradedCompany where
  CompanyName : String
  StockTicker : String
  deriving DecidableEq

structure ParallelTaskContent where
  MarketSizeAndForecast : MarketSizeAndForecast
  CompanyProfiles : List CompanyProfile
  RecentMergersAndAcquisitions : RecentMergersAndAcquisitions
  GrowthOpportunities : String
  MarketSegmentationAnalysis : MarketSegmentationAnalysis
  PubliclyTradedCompanies : List PubliclyTradedCompany
  deriving DecidableEq

structure ParallelBasisCitation where
  URL : String
  Excerpts : List String
  Title : String
  deriving DecidableEq

structure ParallelBasis where
  Field : String
  Reasoning : String
  Citations : List ParallelBasisCitation
  Confidence : String
  deriving DecidableEq

/-- The anonymous struct of `ParallelTaskResponse.Output`. `Any` is the type of a
decoded `any` value and `Time` is `time.Time`. -/
structure ParallelTaskOutput (Any Time : Type) where
  Content : ParallelTaskContent
  Basis : List ParallelBasis
  RunID : String
  Status : String
  CreatedAt : Time
  CompletedAt : Time
  Processor : String
  Warnings : Any
  Error : Any
  TaskGroup : Any
  deriving DecidableEq

structure ParallelTaskResponse (Any Time : Type) where
  Output : ParallelTaskOutput Any Time
  deriving DecidableEq

/-- What `GetTask` and `PollUntilComplete` return. -/
structure ParallelTaskResult (Any Time : Type) where
  RunID : String
  Status : String
  IsActive : Bool
  Processor : String
  Output : Any
  Error : Any
  Warnings : Any
  Metadata : Any
  TaskGroupID : String
  CreatedAt : Time
  ModifiedAt : Time
  deriving DecidableEq

structure ParallelChatMessage where
  Role : String
  Content : String
  deriving DecidableEq

structure ParallelResponseJSONSchemaSpec (Any : Type) where
  Name : String
  Schema : List (String × Any)
  deriving DecidableEq

structure ParallelResponseFormat (Any : Type) where
  Type_ : String
  JSONSchema : ParallelResponseJSONSchemaSpec Any
  deriving DecidableEq

structure ParallelChatRequest (Any : Type) where
  Model : String
  Messages : List ParallelChatMessage
  Stream : Bool
  ResponseFormat : Option (ParallelResponseFormat Any)
  deriving DecidableEq

structure ParallelChatChoice where
  Index : Int
  Message : ParallelChatMessage
  FinishReason : String
  deriving DecidableEq

structure ParallelChatResponse (Any : Type) where
  ID : String
  Object : String
  Model : String
  Created : Int
  Choices : List ParallelChatChoice
  Usage : List (String × Any)
  deriving DecidableEq

/-! ## The client, the environment and the log of requests -/

/-- The fields of `http.Client` the program sets. -/
structure HTTPClient where
  Timeout : Int
  deriving DecidableEq

/-- The core Parallel API client. -/
structure Client where
  baseURL : String
  apiKey : String
  client : HTTPClient
  betaTag : String
  deriving DecidableEq

/-- Creates a new Parallel API client with defaults. -/
def NewClient (apiKey : String) : Client :=
  { baseURL := "https://api.parallel.ai/v1beta"
    apiKey := apiKey
    client := { Timeout := 30 * Second }
    betaTag := "search-extract-2025-10-10" }

/-- The standard library and the remote service, as the handlers use them.
`marshal*` is `json.Marshal` at each request type, `decode*` is
`json.NewDecoder(res.Body).Decode(&out)` at each response type, `urlError` is the
failure, if any, of `http.NewRequestWithContext` on a URL string, and `roundTrip n r`
is what `c.client.Do(r)` returns when `n` requests were sent before. -/
structure Env (Any Time : Type) where
  marshalSearch : ParallelSearchRequest → Except GoError String
  marshalTask : ParallelTaskRequest → Except GoError String
  marshalChat : ParallelChatRequest Any → Except GoError String
  marshalExtract : ParallelExtractRequest → Except GoError String
  decodeSearch : Body → Except GoError ParallelSearchResponse
  decodeTaskResponse : Body → Except GoError (ParallelTaskResponse Any Time)
  decodeTaskResult : Body → Except GoError (ParallelTaskResult Any Time)
  decodeChat : Body → Except GoError (ParallelChatResponse Any)
  decodeExtract : Body → Except GoError ParallelExtractResponse
  urlError : String → Option GoError
  roundTrip : Nat → Request → Except GoError Response

/-- The requests handed to `c.client.Do` so far, oldest first. -/
structure World where
  sent : List Request
  deriving DecidableEq

/-- The call `http.NewRequestWithContext(ctx, method, url, body)` with a valid method
and a non-nil context: it fails exactly when the URL does not parse, and the new
request has an empty header. -/
def NewRequestWithContext {Any Time : Type} (env : Env Any Time) (ctx : Context)
    (method url : String) (body : Option String) : Except GoError Request :=
  match env.urlError url with
  | some err => .error err
  | none => .ok { ctx := ctx, Method := method, URL := url, Header := [], Body := body }

/-- The call `c.client.Do(req)`: the request is logged and the environment answers. -/
def Do {Any Time : Type} (env : Env Any Time) (req : Request) (w : World) :
    Except GoError Response × World :=
  (env.roundTrip w.sent.length req, { sent := w.sent ++ [req] })

/-! ## The operation handlers (`parallel.go`) -/

/-- Search performs a semantic search query using the Parallel API. -/
def Search {Any Time : Type} (env : Env Any Time) (c : Client) (ctx : Context)
    (req : ParallelSearchRequest) (w : World) :
    Except GoError ParallelSearchResponse × World :=
  let url := c.baseURL ++ "/search"
  match env.marshalSearch req with
  | .error err => (.error (Errorf_w "marshal request: " err), w)
  | .ok payload =>
    match NewRequestWithContext env ctx MethodPost url (some payload) with
    | .error err => (.error (Errorf_w "create request: " err), w)
    | .ok httpReq =>
      let httpReq := { httpReq with Header := httpReq.Header.Set "Content-Type" "application/json" }
      let httpReq := { httpReq with Header := httpReq.Header.Set "x-api-key" c.apiKey }
      let httpReq := { httpReq with Header := httpReq.Header.Set "parallel-beta" c.betaTag }
      match Do env httpReq w with
      | (.error err, w1) => (.error (Errorf_w "send request: " err), w1)
      | (.ok res, w1) =>
        if res.StatusCode ≠ StatusOK then
          let body := (ReadAll res.Body).1
          (.error (.errorString ("API error: " ++ res.Status ++ " — " ++ body)), w1)
        else
          match env.decodeSearch res.Body with
          | .error err => (.error (Errorf_w "decode response: " err), w1)
          | .ok out => (.ok out, w1)

/-- RunTask launches a processing task. -/
def RunTask {Any Time : Type} (env : Env Any Time) (c : Client) (ctx : Context)
    (req : ParallelTaskRequest) (w : World) :
    Except GoError (ParallelTaskResponse Any Time) × World :=
  let url := c.baseURL ++ "/tasks/runs"
  match env.marshalTask req with
  | .error err => (.error (Errorf_w "marshal request: " err), w)
  | .ok payload =>
    match NewRequestWithContext env ctx MethodPost url (some payload) with
    | .error err => (.error (Errorf_w "create request: " err), w)
    | .ok httpReq =>
      let httpReq := { httpReq with Header := httpReq.Header.Set "Content-Type" "application/json" }
      let httpReq := { httpReq with Header := httpReq.Header.Set "x-api-key" c.apiKey }
      let httpReq := { httpReq with Header := httpReq.Header.Set "parallel-beta" c.betaTag }
      match Do env httpReq w with
      | (.error err, w1) => (.error (Errorf_w "send request: " err), w1)
      | (.ok res, w1) =>
        if res.StatusCode ≠ StatusOK then
          let body := (ReadAll res.Body).1
          (.error (.errorString ("API error: " ++ res.Status ++ " — " ++ body)), w1)
        else
          match env.decodeTaskResponse res.Body with
          | .error err => (.error (Errorf_w "decode response: " err), w1)
          | .ok out => (.ok out, w1)

/-- GetTask retrieves the latest status or final output of a task run. -/
def GetTask {Any Time : Type} (env : Env Any Time) (c : Client) (ctx : Context)
    (runID : String) (w : World) :
    Except GoError (ParallelTaskResult Any Time) × World :=
  let url := c.baseURL ++ "/tasks/runs/" ++ runID
  match NewRequestWithContext env ctx MethodGet url none with
  | .error err => (.error (Errorf_w "create request: " err), w)
  | .ok req =>
    let req := { req with Header := req.Header.Set "x-api-key" c.apiKey }
    let req := { req with Header := req.Header.Set "parallel-beta" c.betaTag }
    match Do env req w with
    | (.error err, w1) => (.error (Errorf_w "send request: " err), w1)
    | (.ok res, w1) =>
      if res.StatusCode ≠ StatusOK then
        let b := (ReadAll res.Body).1
        (.error (.errorString ("API error: " ++ res.Status ++ " — " ++ b)), w1)
      else
        match env.decodeTaskResult res.Body with
        | .error err => (.error (Errorf_w "decode response: " err), w1)
        | .ok out => (.ok out, w1)

/-- Chat sends a chat completion request to the /chat/completions API. -/
def Chat {Any Time : Type} (env : Env Any Time) (c : Client) (ctx : Context)
    (req : ParallelChatRequest Any) (w : World) :
    Except GoError (ParallelChatResponse Any) × World :=
  let url := c.baseURL ++ "/chat/completions"
  match env.marshalChat req with
  | .error err => (.error (Errorf_w "marshal request: " err), w)
  | .ok body =>
    match NewRequestWithContext env ctx MethodPost url (some body) with
    | .error err => (.error (Errorf_w "create request: " err), w)
    | .ok httpReq =>
      let httpReq := { httpReq with Header := httpReq.Header.Set "Content-Type" "application/json" }
      let httpReq := { httpReq with Header := httpReq.Header.Set "Authorization" ("Bearer " ++ c.apiKey) }
      match Do env httpReq w with
      | (.error err, w1) => (.error (Errorf_w "send request: " err), w1)
      | (.ok res, w1) =>
        if res.StatusCode ≠ StatusOK then
          let b := (ReadAll res.Body).1
          (.error (.errorString ("API error: " ++ res.Status ++ " — " ++ b)), w1)
        else
          match env.decodeChat res.Body with
          | .error err => (.error (Errorf_w "decode response: " err), w1)
          | .ok out => (.ok out, w1)

/-- Extract performs an extraction request on given URLs. -/
def Extract {Any Time : Type} (env : Env Any Time) (c : Client) (ctx : Context)
    (req : ParallelExtractRequest) (w : World) :
    Except GoError ParallelExtractResponse × World :=
  let url := c.baseURL ++ "/extract"
  match env.marshalExtract req with
  | .error err => (.error (Errorf_w "marshal request: " err), w)
  | .ok payload =>
    match NewRequestWithContext env ctx MethodPost url (some payload) with
    | .error err => (.error (Errorf_w "create request: " err), w)
    | .ok httpReq =>
      let httpReq := { httpReq with Header := httpReq.Header.Set "Content-Type" "application/json" }
      let httpReq := { httpReq with Header := httpReq.Header.Set "x-api-key" c.apiKey }
      let httpReq := { httpReq with Header := httpReq.Header.Set "parallel-beta" c.betaTag }
      match Do env httpReq w with
      | (.error err, w1) => (.error (Errorf_w "send request: " err), w1)
      | (.ok res, w1) =>
        if res.StatusCode ≠ StatusOK then
          let body := (ReadAll res.Body).1
          (.error (.errorString ("API error: " ++ res.Status ++ " — " ++ body)), w1)
        else
          match env.decodeExtract res.Body with
          | .error err => (.error (Errorf_w "decode response: " err), w1)
          | .ok out => (.ok out, w1)

/-! ## The polling controller -/

/-- One scheduling point of the `select` in `PollUntilComplete`: `ctxErr` is `ctx.Err()`
at that moment (`ctx.Done()` is ready exactly when it is not `none`), `tick` says
whether a value is pending on `ticker.C`, and `pickTick` is the choice the runtime
makes when both cases are ready. -/
structure Instant where
  ctxErr : Option CtxErr
  tick : Bool
  pickTick : Bool
  deriving DecidableEq

/-- The case a `select` takes. -/
inductive Selected where
  | done (e : CtxErr)
  | tick
  | blocked
  deriving DecidableEq

/-- The `select` statement over `ctx.Done()` and `ticker.C`: a single ready case is
taken, one of two ready cases is chosen by the runtime, and with no ready case the
goroutine stays blocked. -/
def select (i : Instant) : Selected :=
  match i.ctxErr, i.tick with
  | some e, false => .done e
  | none, true => .tick
  | some e, true => if i.pickTick then .tick else .done e
  | none, false => .blocked

/-- How a call of `PollUntilComplete` stands at the end of a schedule: it panicked, it
returned, or it is still in its loop. -/
inductive PollOutcome (T : Type) where
  | panicked
  | returned (r : Except GoError T)
  | pending

/-- The `for { select { ... } }` loop of `PollUntilComplete`, over the scheduling
points that remain. -/
def pollLoop {Any Time : Type} (env : Env Any Time) (c : Client) (runID : String) :
    List Instant → World → PollOutcome (ParallelTaskResult Any Time) × World
  | [], w => (.pending, w)
  | i :: rest, w =>
    match select i with
    | .blocked => pollLoop env c runID rest w
    | .done e => (.returned (.error (.ctx e)), w)
    | .tick =>
      match GetTask env c ⟨i.ctxErr⟩ runID w with
      | (.error err, w1) => (.returned (.error err), w1)
      | (.ok task, w1) =>
        if task.Status = "completed" ∨ task.Status = "failed" then
          (.returned (.ok task), w1)
        else
          pollLoop env c runID rest w1

/-- PollUntilComplete continuously checks a task until its status is "completed" or
context is canceled. `time.NewTicker` panics on a non-positive interval. -/
def PollUntilComplete {Any Time : Type} (env : Env Any Time) (c : Client)
    (runID : String) (interval : Int) (sched : List Instant) (w : World) :
    PollOutcome (ParallelTaskResult Any Time) × World :=
  if interval ≤ 0 then (.panicked, w)
  else pollLoop env c runID sched w

/-! ## The JSON codec at `ParallelChatMessage` (`encoding/json`, `unicode/utf8`)

Everywhere else a Go string is only copied, joined or compared and is a `String`. The
JSON codec looks at the bytes of a string, so here a Go string is the list of its bytes,
each a number below 256, and need not be valid UTF-8. On bytes, `& mask` is `% 2^k`,
`<< k` is `* 2^k`, and `|` of disjoint bit ranges is `+`. -/

/-- A Go string or byte slice: its bytes. -/
abbrev Bytes := List Nat

/-- The bytes of an ASCII literal. -/
def ascii (s : String) : Bytes := s.data.map Char.toNat

/-- `ParallelChatMessage` with each Go string given by its bytes. -/
structure ChatMessageBytes where
  Role : Bytes
  Content : Bytes
  deriving DecidableEq

/-- The constant `utf8.RuneError`, U+FFFD. -/
def RuneError : Nat := 0xFFFD

/-- A continuation byte, 0x80..0xBF. -/
def isCont (b : Nat) : Bool := 0x80 ≤ b && b ≤ 0xBF

/-- The lowest second byte the first byte `b0` accepts (table `acceptRanges`). -/
def acceptLo (b0 : Nat) : Nat :=
  if b0 = 0xE0 then 0xA0 else if b0 = 0xF0 then 0x90 else 0x80

/-- The highest second byte the first byte `b0` accepts (table `acceptRanges`). -/
def acceptHi (b0 : Nat) : Nat :=
  if b0 = 0xED then 0x9F else if b0 = 0xF4 then 0x8F else 0xBF

/-- The function `utf8.DecodeRune`: the first rune of the bytes and its width; an
empty input gives `(RuneError, 0)` and an invalid encoding `(RuneError, 1)`. -/
def DecodeRune : Bytes → Nat × Nat
  | [] => (RuneError, 0)
  | b0 :: rest =>
    if b0 < 0x80 then (b0, 1)
    else if 0xC2 ≤ b0 ∧ b0 ≤ 0xDF then
      match rest with
      | b1 :: _ =>
        if isCont b1 then (b0 % 32 * 64 + b1 % 64, 2) else (RuneError, 1)
      | _ => (RuneError, 1)
    else if 0xE0 ≤ b0 ∧ b0 ≤ 0xEF then
      match rest with
      | b1 :: b2 :: _ =>
        if acceptLo b0 ≤ b1 ∧ b1 ≤ acceptHi b0 ∧ isCont b2 then
          (b0 % 16 * 4096 + b1 % 64 * 64 + b2 % 64, 3)
        else (RuneError, 1)
      | _ => (RuneError, 1)
    else if 0xF0 ≤ b0 ∧ b0 ≤ 0xF4 then
      match rest with
      | b1 :: b2 :: b3 :: _ =>
        if acceptLo b0 ≤ b1 ∧ b1 ≤ acceptHi b0 ∧ isCont b2 ∧ isCont b3 then
          (b0 % 8 * 262144 + b1 % 64 * 4096 + b2 % 64 * 64 + b3 % 64, 4)
        else (RuneError, 1)
      | _ => (RuneError, 1)
    else (RuneError, 1)

/-- The function `utf8.AppendRune` on an empty slice: the UTF-8 encoding of a rune, a
surrogate or a rune above U+10FFFF being encoded as U+FFFD. -/
def AppendRune (r : Nat) : Bytes :=
  if r ≤ 0x7F then [r]
  else if r ≤ 0x7FF then [0xC0 + r / 64, 0x80 + r % 64]
  else if 0x10FFFF < r ∨ (0xD800 ≤ r ∧ r ≤ 0xDFFF) then [0xEF, 0xBF, 0xBD]
  else if r ≤ 0xFFFF then [0xE0 + r / 4096, 0x80 + r / 64 % 64, 0x80 + r % 64]
  else [0xF0 + r / 262144, 0x80 + r / 4096 % 64, 0x80 + r / 64 % 64, 0x80 + r % 64]

/-- The loop of `utf8.ValidString`, with the input length as fuel. -/
def validLoop : Nat → Bytes → Bool
  | 0, s => s.isEmpty
  | _ + 1, [] => true
  | fuel + 1, b :: rest =>
    if b < 0x80 then validLoop fuel rest
    else
      match DecodeRune (b :: rest) with
      | (c, size) =>
        if c = RuneError ∧ size = 1 then false
        else validLoop fuel ((b :: rest).drop size)

/-- The function `utf8.ValidString`. -/
def ValidString (s : Bytes) : Bool := validLoop s.length s

/-- The table `htmlSafeSet`: the ASCII bytes written as they are, which are all from
0x20 on but the double quote, `&`, `<`, `>` and the backslash. -/
def htmlSafe (b : Nat) : Bool :=
  0x20 ≤ b && b < 0x80 && b != 34 && b != 38 && b != 60 && b != 62 && b != 92

/-- The digit `"0123456789abcdef"[n]`. -/
def hexDigit (n : Nat) : Nat := if n < 10 then 48 + n else 87 + n

/-- The escape of an ASCII byte that is not in `htmlSafeSet`: a backslash before the
backslash and the double quote, the short forms of backspace, form feed, line feed,
carriage return and tab, and `\u00XX` for the rest. (Older releases of Go write
`\u0008` and `\u000c` for backspace and form feed, which read back the same.) -/
def escapeByte (b : Nat) : Bytes :=
  if b = 92 ∨ b = 34 then [92, b]
  else if b = 8 then [92, 98]
  else if b = 12 then [92, 102]
  else if b = 10 then [92, 110]
  else if b = 13 then [92, 114]
  else if b = 9 then [92, 116]
  else [92, 117, 48, 48, hexDigit (b / 16), hexDigit (b % 16)]

/-- The loop of `appendString` with `escapeHTML` set, as `json.Marshal` runs it, with
the input length as fuel: safe ASCII bytes and valid multi-byte runes are copied, an
invalid byte becomes `\ufffd`, U+2028 and U+2029 become `\u2028` and `\u2029`. -/
def appendStringLoop : Nat → Bytes → Bytes
  | 0, _ => []
  | _ + 1, [] => []
  | fuel + 1, b :: rest =>
    if b < 0x80 then
      (if htmlSafe b then [b] else escapeByte b) ++ appendStringLoop fuel rest
    else
      match DecodeRune (b :: rest) with
      | (c, size) =>
        if c = RuneError ∧ size = 1 then
          [92, 117, 102, 102, 102, 100] ++ appendStringLoop fuel rest
        else if c = 0x2028 ∨ c = 0x2029 then
          [92, 117, 50, 48, 50, hexDigit (c % 16)] ++
            appendStringLoop fuel ((b :: rest).drop size)
        else
          (b :: rest).take size ++ appendStringLoop fuel ((b :: rest).drop size)

/-- The function `appendString`: a JSON string literal for the bytes `src`. -/
def appendString (src : Bytes) : Bytes :=
  [34] ++ appendStringLoop src.length src ++ [34]

/-- The call `json.Marshal` at `ParallelChatMessage`: an object with the members
`role` and `content` (the `json` tags of `types.go`) in field order. It cannot fail. -/
def marshalChatMessage (m : ChatMessageBytes) : Bytes :=
  [123, 34] ++ ascii "role" ++ [34, 58] ++ appendString m.Role ++
    [44, 34] ++ ascii "content" ++ [34, 58] ++ appendString m.Content ++ [125]

/-- The insignificant white space of JSON: space, tab, carriage return, line feed. -/
def isSpace (b : Nat) : Bool := b = 32 || b = 9 || b = 13 || b = 10

/-- The input without its leading white space. -/
def skipSpace : Bytes → Bytes
  | [] => []
  | b :: rest => if isSpace b then skipSpace rest else b :: rest

/-- The value of a hexadecimal digit. -/
def hexValue (b : Nat) : Option Nat :=
  if 48 ≤ b ∧ b ≤ 57 then some (b - 48)
  else if 97 ≤ b ∧ b ≤ 102 then some (b - 87)
  else if 65 ≤ b ∧ b ≤ 70 then some (b - 55)
  else none

/-- The function `getu4`: the number written by a `\uXXXX` at the head of the input. -/
def getu4 : Bytes → Option Nat
  | b0 :: b1 :: h3 :: h2 :: h1 :: h0 :: _ =>
    if b0 = 92 ∧ b1 = 117 then
      match hexValue h3, hexValue h2, hexValue h1, hexValue h0 with
      | some d3, some d2, some d1, some d0 => some (d3 * 4096 + d2 * 256 + d1 * 16 + d0)
      | _, _, _, _ => none
    else none
  | _ => none

/-- The scan and `unquote` of a JSON string literal in one pass, from the byte after
the opening quote: the bytes the literal spells and the input after the closing quote.
Escapes are resolved (a surrogate pair gives its rune, a lone surrogate U+FFFD), a raw
control byte or an unknown escape is a syntax error (`none`), and bytes from 0x80 on are
decoded and encoded again, which coerces invalid UTF-8 to U+FFFD. -/
def readString : Nat → Bytes → Option (Bytes × Bytes)
  | 0, _ => none
  | _ + 1, [] => none
  | fuel + 1, b :: rest =>
    if b = 34 then some ([], rest)
    else if b = 92 then
      match rest with
      | [] => none
      | e :: rest1 =>
        if e = 34 ∨ e = 92 ∨ e = 47 then
          (readString fuel rest1).map (fun p => (e :: p.1, p.2))
        else if e = 98 then (readString fuel rest1).map (fun p => (8 :: p.1, p.2))
        else if e = 102 then (readString fuel rest1).map (fun p => (12 :: p.1, p.2))
        else if e = 110 then (readString fuel rest1).map (fun p => (10 :: p.1, p.2))
        else if e = 114 then (readString fuel rest1).map (fun p => (13 :: p.1, p.2))
        else if e = 116 then (readString fuel rest1).map (fun p => (9 :: p.1, p.2))
        else if e = 117 then
          match getu4 (b :: rest) with
          | none => none
          | some rr =>
            if 0xD800 ≤ rr ∧ rr < 0xE000 then
              match getu4 (rest.drop 5) with
              | some rr1 =>
                if rr < 0xDC00 ∧ 0xDC00 ≤ rr1 ∧ rr1 < 0xE000 then
                  (readString fuel (rest.drop 11)).map (fun p =>
                    (AppendRune ((rr - 0xD800) * 1024 + (rr1 - 0xDC00) + 0x10000) ++ p.1,
                      p.2))
                else
                  (readString fuel (rest.drop 5)).map (fun p =>
                    (AppendRune RuneError ++ p.1, p.2))
              | none =>
                (readString fuel (rest.drop 5)).map (fun p =>
                  (AppendRune RuneError ++ p.1, p.2))
            else
              (readString fuel (rest.drop 5)).map (fun p => (AppendRune rr ++ p.1, p.2))
        else none
    else if b < 0x20 then none
    else if b < 0x80 then (readString fuel rest).map (fun p => (b :: p.1, p.2))
    else
      match DecodeRune (b :: rest) with
      | (rr, size) =>
        (readString fuel ((b :: rest).drop size)).map (fun p => (AppendRune rr ++ p.1, p.2))

/-- The key with its ASCII capitals in lower case. The field names `role` and
`content` have no other case variants (no `k`, no `s`), so this is the folding by
which the decoder matches a key that is not the exact name. -/
def foldASCII (key : Bytes) : Bytes :=
  key.map (fun b => if 65 ≤ b ∧ b ≤ 90 then b + 32 else b)

/-- The assignment of a string value to the field a key names; a key that names no
field is ignored. -/
def setField (key value : Bytes) (m : ChatMessageBytes) : ChatMessageBytes :=
  if foldASCII key = ascii "role" then { m with Role := value }
  else if foldASCII key = ascii "content" then { m with Content := value }
  else m

/-- The members of an object whose values are all strings, from the first key on, up
to the closing brace; `none` on anything else. -/
def readMembers : Nat → Bytes → ChatMessageBytes → Option ChatMessageBytes
  | 0, _, _ => none
  | fuel + 1, input, m =>
    match skipSpace input with
    | 34 :: r1 =>
      match readString r1.length r1 with
      | some (key, r2) =>
        match skipSpace r2 with
        | 58 :: r3 =>
          match skipSpace r3 with
          | 34 :: r4 =>
            match readString r4.length r4 with
            | some (value, r5) =>
              match skipSpace r5 with
              | 44 :: r6 => readMembers fuel r6 (setField key value m)
              | 125 :: _ => some (setField key value m)
              | _ => none
            | none => none
          | _ => none
        | _ => none
      | none => none
    | _ => none

/-- The call `json.NewDecoder(r).Decode(&out)` at a zero `ParallelChatMessage`, on the
texts this model covers: one JSON object, with or without white space, whose members
all have string values; what follows the object stays unread. On such a text `Decode`
returns a nil error and leaves in `out` the message given here, the last of several
members for one field winning. `none` says that the text is malformed or is not of
this form; the model does not say what `Decode` does then. -/
def decodeChatMessage (input : Bytes) : Option ChatMessageBytes :=
  match skipSpace input with
  | 123 :: r =>
    match skipSpace r with
    | 125 :: _ => some { Role := [], Content := [] }
    | _ => readMembers r.length r { Role := [], Content := [] }
  | _ => none

/-- The UTF-8 bytes of a text. -/
def utf8 (s : String) : Bytes := s.data.flatMap (fun c => AppendRune c.toNat)

/-- The bytes of a message of the text model. -/
def ParallelChatMessage.bytes (m : ParallelChatMessage) : ChatMessageBytes :=
  { Role := utf8 m.Role, Content := utf8 m.Content }

/-! ## The path of a request URL (`net/url`)

`http.NewRequestWithContext` parses the URL string with `url.Parse`; the path of the
request is the field `Path` of the parsed URL, which the repository's test server
reads as `r.URL.Path`. -/

/-- The part of `s` before the first `c`, all of `s` when it holds none (the first
result of `strings.Cut`). -/
def cutBefore (c : Char) (s : List Char) : List Char :=
  s.takeWhile (fun x => x != c)

/-- The loop of `getScheme`, from index `i`: the index of the colon that ends the
scheme, `some none` when the string has no scheme, and `none` for the error "missing
protocol scheme" of a colon at index 0. -/
def schemeEnd : Nat → List Char → Option (Option Nat)
  | _, [] => some none
  | i, ch :: rest =>
    if ch.isAlpha then schemeEnd (i + 1) rest
    else if ch.isDigit || ch == '+' || ch == '-' || ch == '.' then
      if i = 0 then some none else schemeEnd (i + 1) rest
    else if ch == ':' then
      if i = 0 then none else some (some i)
    else some none

/-- The field `Path` that `url.Parse` gives a URL string it accepts and that holds no
percent escape: the fragment is cut at the first `#`, the scheme at its colon, the
query at the first `?`; a rest that does not start with a slash after a scheme is
opaque and leaves the path empty; an authority after `//` ends at the next slash.
`none` stands for the error of a missing scheme and for a string with a `%`, which
this model does not cover; the other reasons `url.Parse` has to reject a string are
left to `Env.urlError`. -/
def URLPath (rawURL : String) : Option String :=
  if rawURL.data.contains '%' then none
  else
    let u := cutBefore '#' rawURL.data
    if u = ['*'] then some "*"
    else
      match schemeEnd 0 u with
      | none => none
      | some colon =>
        let scheme := match colon with
          | some i => u.take i
          | none => []
        let rest := match colon with
          | some i => u.drop (i + 1)
          | none => u
        let rest := cutBefore '?' rest
        if rest.head? != some '/' && scheme != [] then some ""
        else if (scheme != [] || !("///".data.isPrefixOf rest)) &&
            "//".data.isPrefixOf rest then
          some ⟨(rest.drop 2).dropWhile (fun x => x != '/')⟩
        else some ⟨rest⟩

/-- A scheme as `getScheme` accepts it: a letter, then letters, digits, `+`, `-`, `.`. -/
def validScheme : List Char → Bool
  | [] => false
  | ch :: rest =>
    ch.isAlpha && rest.all (fun x => x.isAlpha || x.isDigit || x == '+' || x == '-' || x == '.')

/-- A character that is neither `?`, `#` nor `%`: it neither ends the path nor starts
an escape. -/
def plainChar (ch : Char) : Bool := ch != '?' && ch != '#' && ch != '%'

/-- The unreserved characters of a URL (RFC 3986): letters, digits, `-`, `_`, `.` and
`~`. `url.Parse` reads them as they are and the escaping of a path leaves them
unchanged. -/
def unreservedChar (ch : Char) : Bool :=
  ch.isAlphanum || ch == '-' || ch == '_' || ch == '.' || ch == '~'

/-! ## The decoding of a response body (`encoding/json` at the types of `types.go`)

`json.NewDecoder(res.Body).Decode(&out)` reads one JSON value from the body, checks
its syntax to the end of the value, and then stores it in the zero value `out`, field
by field, each member of an object going to the field whose tag it names. The model
reads the value into a tree and then decodes the tree at the response type. It is a
sound partial model: `none` stands for a text that is malformed and for a text the
model does not cover. -/

/-- A JSON value as the decoder reads it. A string carries the bytes it spells and
the bytes of its literal, quotes included; a number carries its literal. -/
inductive JSON where
  | null
  | bool (b : Bool)
  | number (lit : Bytes)
  | string (s raw : Bytes)
  | array (elems : List JSON)
  | object (members : List (Bytes × JSON))

/-- The parts of the standard library that the decoding of a response reaches and the
model leaves open: the nil value of `any`, the zero `time.Time`, the value that
`Unmarshal` stores in an empty interface, the map it builds from the members of an
object, and `time.Time.UnmarshalJSON` on the literal of a string. -/
structure Library (Any Time : Type) where
  nilAny : Any
  zeroTime : Time
  anyOf : JSON → Option Any
  mapOf : List (Bytes × JSON) → Option (List (String × Any))
  timeOf : Bytes → Option Time

/-- A decimal digit. -/
def isDigit (b : Nat) : Bool := 48 ≤ b && b ≤ 57

/-- The integer part of a number literal: `0`, or a digit from 1 to 9 and the digits
after it. -/
def readInt (input : Bytes) : Option (Bytes × Bytes) :=
  match input with
  | [] => none
  | b :: rest =>
    if b = 48 then some ([48], rest)
    else if 49 ≤ b ∧ b ≤ 57 then
      some (b :: rest.takeWhile isDigit, rest.dropWhile isDigit)
    else none

/-- The fraction of a number literal, if it has one: a point and at least one digit. -/
def readFrac (input : Bytes) : Option (Bytes × Bytes) :=
  match input with
  | [] => some ([], [])
  | b :: rest =>
    if b = 46 then
      if rest.takeWhile isDigit = [] then none
      else some (46 :: rest.takeWhile isDigit, rest.dropWhile isDigit)
    else some ([], b :: rest)

/-- The digits of an exponent, after `e` or `E` and the sign: at least one. -/
def readExpDigits (e : Nat) (sign rest : Bytes) : Option (Bytes × Bytes) :=
  if rest.takeWhile isDigit = [] then none
  else some (e :: (sign ++ rest.takeWhile isDigit), rest.dropWhile isDigit)

/-- The exponent of a number literal, if it has one. -/
def readExp (input : Bytes) : Option (Bytes × Bytes) :=
  match input with
  | [] => some ([], [])
  | e :: rest =>
    if e = 101 ∨ e = 69 then
      match rest with
      | [] => none
      | s :: rest1 =>
        if s = 43 ∨ s = 45 then readExpDigits e [s] rest1
        else readExpDigits e [] (s :: rest1)
    else some ([], e :: rest)

/-- The number literal at the head of the input, after its sign, and the input after
it. -/
def readUnsigned (input : Bytes) : Option (Bytes × Bytes) :=
  match readInt input with
  | none => none
  | some (i, r1) =>
    match readFrac r1 with
    | none => none
    | some (f, r2) =>
      match readExp r2 with
      | none => none
      | some (e, r3) => some (i ++ (f ++ e), r3)

/-- The elements of an array from the first one on, up to the closing bracket, each
read by `pv`. -/
def parseElems (pv : Bytes → Option (JSON × Bytes)) :
    Nat → Bytes → Option (List JSON × Bytes)
  | 0, _ => none
  | fuel + 1, input =>
    match pv input with
    | none => none
    | some (v, r) =>
      match skipSpace r with
      | 44 :: r1 => (parseElems pv fuel r1).map (fun p => (v :: p.1, p.2))
      | 93 :: r1 => some ([v], r1)
      | _ => none

/-- The members of an object from the first key on, up to the closing brace, each
value read by `pv`. -/
def parseMembers (pv : Bytes → Option (JSON × Bytes)) :
    Nat → Bytes → Option (List (Bytes × JSON) × Bytes)
  | 0, _ => none
  | fuel + 1, input =>
    match skipSpace input with
    | 34 :: r1 =>
      match readString r1.length r1 with
      | none => none
      | some (key, r2) =>
        match skipSpace r2 with
        | 58 :: r3 =>
          match pv r3 with
          | none => none
          | some (v, r4) =>
            match skipSpace r4 with
            | 44 :: r5 => (parseMembers pv fuel r5).map (fun p => ((key, v) :: p.1, p.2))
            | 125 :: r5 => some ([(key, v)], r5)
            | _ => none
        | _ => none
    | _ => none

/-- The JSON value at the head of the input, after white space, and the input after
it; `depth` bounds the nesting of arrays and objects. -/
def parseValue : Nat → Bytes → Option (JSON × Bytes)
  | 0, _ => none
  | depth + 1, input =>
    match skipSpace input with
    | [] => none
    | b :: r =>
      if b = 123 then
        match skipSpace r with
        | 125 :: r1 => some (.object [], r1)
        | _ => (parseMembers (parseValue depth) r.length r).map (fun p => (.object p.1, p.2))
      else if b = 91 then
        match skipSpace r with
        | 93 :: r1 => some (.array [], r1)
        | _ => (parseElems (parseValue depth) r.length r).map (fun p => (.array p.1, p.2))
      else if b = 34 then
        (readString r.length r).map (fun p =>
          (.string p.1 (34 :: r.take (r.length - p.2.length)), p.2))
      else if b = 116 then
        match r with
        | 114 :: 117 :: 101 :: r1 => some (.bool true, r1)
        | _ => none
      else if b = 102 then
        match r with
        | 97 :: 108 :: 115 :: 101 :: r1 => some (.bool false, r1)
        | _ => none
      else if b = 110 then
        match r with
        | 117 :: 108 :: 108 :: r1 => some (.null, r1)
        | _ => none
      else if b = 45 then (readUnsigned r).map (fun p => (.number (45 :: p.1), p.2))
      else (readUnsigned (b :: r)).map (fun p => (.number p.1, p.2))

/-- The value that `Decode` reads from a body: the first JSON value of the text; what
follows it stays unread. The scanner of `encoding/json` refuses a nesting deeper than
10000, and so does the bound given here. -/
def topValue (body : Bytes) : Option JSON :=
  (parseValue 10000 body).map (fun p => p.1)

/-- The loop of `foldName`, up to the choice of case: ASCII letters in one case, the
long s (U+017F, bytes C5 BF) as `S` and the Kelvin sign (U+212A, bytes E2 84 AA) as
`K`, the only runes outside ASCII that fold to an ASCII letter. -/
def foldLoop : Nat → Bytes → Bytes
  | 0, _ => []
  | _ + 1, [] => []
  | fuel + 1, b :: rest =>
    if b = 0xC5 ∧ rest.take 1 = [0xBF] then 83 :: foldLoop fuel (rest.drop 1)
    else if b = 0xE2 ∧ rest.take 2 = [0x84, 0xAA] then 75 :: foldLoop fuel (rest.drop 2)
    else if 97 ≤ b ∧ b ≤ 122 then (b - 32) :: foldLoop fuel rest
    else b :: foldLoop fuel rest

/-- The fold of a key by which the decoder finds the field of a member: a key and an
ASCII tag have equal folds here exactly when `foldName` gives them equal folds. -/
def foldName (key : Bytes) : Bytes := foldLoop key.length key

/-- The value of the one member of an object that goes to the field tagged `name`:
the member whose key is the name or folds to the same text. An object without such
a member gives `null`, which every field type of `types.go` treats as the absent
member: the field keeps its zero value. An object with two such members is not
covered (`none`). -/
def member (name : String) (ms : List (Bytes × JSON)) : Option JSON :=
  match ms.filter (fun m => foldName m.1 == foldName (ascii name)) with
  | [] => some .null
  | [m] => some m.2
  | _ => none

/-- The runes of a UTF-8 text, an invalid byte giving U+FFFD. -/
def runesOf : Nat → Bytes → List Char
  | 0, _ => []
  | _ + 1, [] => []
  | fuel + 1, b :: rest =>
    Char.ofNat (DecodeRune (b :: rest)).1 ::
      runesOf fuel ((b :: rest).drop (DecodeRune (b :: rest)).2)

/-- The text that the bytes of a Go string spell. -/
def textOf (s : Bytes) : String := ⟨runesOf s.length s⟩

/-- The number that the digits spell. -/
def natOfDigits (ds : Bytes) : Nat := ds.foldl (fun n d => 10 * n + (d - 48)) 0

/-- The call `strconv.ParseInt(lit, 10, 64)` on a number literal: the literal must be
an integer, without fraction and exponent, and fit in 64 bits. -/
def intOf (lit : Bytes) : Option Int :=
  match lit with
  | [] => none
  | b :: rest =>
    if b = 45 then
      if rest ≠ [] ∧ rest.all isDigit ∧ natOfDigits rest ≤ 2 ^ 63 then
        some (-(natOfDigits rest : Int))
      else none
    else
      if lit.all isDigit ∧ natOfDigits lit < 2 ^ 63 then some (natOfDigits lit : Int)
      else none

/-- A value stored in a field of type `string`: a string is stored, `null` leaves the
zero value, anything else is a type error. -/
def stringOf : JSON → Option String
  | .string s _ => some (textOf s)
  | .null => some ""
  | _ => none

/-- A value stored in a field of type `bool`. -/
def boolOf : JSON → Option Bool
  | .bool b => some b
  | .null => some false
  | _ => none

/-- A value stored in a field of type `int` or `int64` (both of 64 bits). -/
def integerOf : JSON → Option Int
  | .number lit => intOf lit
  | .null => some 0
  | _ => none

/-- A value stored in a field of type `any`. -/
def anyValue {Any Time : Type} (lib : Library Any Time) : JSON → Option Any
  | .null => some lib.nilAny
  | v => lib.anyOf v

/-- A value stored in a field of type `time.Time`, which decodes itself from the
literal; `null` leaves the zero value and a value that is no string is an error. -/
def timeValue {Any Time : Type} (lib : Library Any Time) : JSON → Option Time
  | .string _ raw => lib.timeOf raw
  | .null => some lib.zeroTime
  | _ => none

/-- A value stored in a field of type `map[string]any`. -/
def mapValue {Any Time : Type} (lib : Library Any Time) :
    JSON → Option (List (String × Any))
  | .object ms => lib.mapOf ms
  | .null => some []
  | _ => none

/-- The elements of an array, each decoded by `elem` into a zero value. -/
def decodeAll {E : Type} (elem : JSON → Option E) : List JSON → Option (List E)
  | [] => some []
  | x :: xs =>
    match elem x with
    | none => none
    | some e => (decodeAll elem xs).map (fun es => e :: es)

/-- A value stored in a field of slice type, empty before: an array is decoded element
by element, `null` gives the nil slice, anything else is a type error. -/
def sliceOf {E : Type} (elem : JSON → Option E) : JSON → Option (List E)
  | .array xs => decodeAll elem xs
  | .null => some []
  | _ => none

/-- A value stored in a zero struct whose fields are filled by `fields` from the
members of an object; `null` leaves the zero struct, which is also what an object
without members gives; anything else is a type error. -/
def structOf {T : Type} (fields : List (Bytes × JSON) → Option T) : JSON → Option T
  | .object ms => fields ms
  | .null => fields []
  | _ => none

/-- The fields of `ParallelResult` by their tags. -/
def decodeResult (ms : List (Bytes × JSON)) : Option ParallelResult := do
  let url ← (member "url" ms).bind stringOf
  let title ← (member "title" ms).bind stringOf
  let excerpts ← (member "excerpts" ms).bind (sliceOf stringOf)
  pure { URL := url, Title := title, Excerpts := excerpts }

/-- The fields of `ParallelSearchResponse` by their tags. -/
def decodeSearchResponse (ms : List (Bytes × JSON)) : Option ParallelSearchResponse := do
  let searchID ← (member "search_id" ms).bind stringOf
  let results ← (member "results" ms).bind (sliceOf (structOf decodeResult))
  pure { SearchID := searchID, Results := results }

/-- The fields of `ParallelExtract` by their tags. -/
def decodeExtract (ms : List (Bytes × JSON)) : Option ParallelExtract := do
  let url ← (member "url" ms).bind stringOf
  let title ← (member "title" ms).bind stringOf
  let excerpts ← (member "excerpts" ms).bind (sliceOf stringOf)
  let fullContent ← (member "full_content" ms).bind stringOf
  pure { URL := url, Title := title, Excerpts := excerpts, FullContent := fullContent }

/-- The fields of `ParallelAPIError` by their tags. -/
def decodeAPIError (ms : List (Bytes × JSON)) : Option ParallelAPIError := do
  let message ← (member "message" ms).bind stringOf
  pure { Message := message }

/-- The fields of `ParallelExtractResponse` by their tags. -/
def decodeExtractResponse (ms : List (Bytes × JSON)) : Option ParallelExtractResponse := do
  let extractID ← (member "extract_id" ms).bind stringOf
  let results ← (member "results" ms).bind (sliceOf (structOf decodeExtract))
  let errors ← (member "errors" ms).bind (sliceOf (structOf decodeAPIError))
  pure { ExtractID := extractID, Results := results, Errors := errors }

/-- The fields of `ParallelTaskContent.MarketSizeAndForecast` by their tags. -/
def decodeMarketSizeAndForecast (ms : List (Bytes × JSON)) :
    Option MarketSizeAndForecast := do
  let cagr ← (member "cagr" ms).bind stringOf
  let marketSegment ← (member "market_segment" ms).bind stringOf
  let currentValuation ← (member "current_valuation" ms).bind stringOf
  let forecastedValuation ← (member "forecasted_valuation" ms).bind stringOf
  let forecastPeriod ← (member "forecast_period" ms).bind stringOf
  pure { CAGR := cagr, MarketSegment := marketSegment, CurrentValuation := currentValuation,
         ForecastedValuation := forecastedValuation, ForecastPeriod := forecastPeriod }

/-- The fields of an element of `ParallelTaskContent.CompanyProfiles` by their tags. -/
def decodeCompanyProfile (ms : List (Bytes × JSON)) : Option CompanyProfile := do
  let companyName ← (member "company_name" ms).bind stringOf
  let stockTicker ← (member "stock_ticker" ms).bind stringOf
  let revenue ← (member "revenue" ms).bind stringOf
  let marketCap ← (member "market_capitalization" ms).bind stringOf
  let marketPosition ← (member "market_position" ms).bind stringOf
  let recentDevelopments ← (member "recent_developments" ms).bind stringOf
  pure { CompanyName := companyName, StockTicker := stockTicker, Revenue := revenue,
         MarketCap := marketCap, MarketPosition := marketPosition,
         RecentDevelopments := recentDevelopments }

/-- The fields of `ParallelTaskContent.RecentMergersAndAcquisitions` by their tags. -/
def decodeRecentMergersAndAcquisitions (ms : List (Bytes × JSON)) :
    Option RecentMergersAndAcquisitions := do
  let acquiringCompany ← (member "acquiring_company" ms).bind stringOf
  let targetCompany ← (member "target_company" ms).bind stringOf
  let dealSummary ← (member "deal_summary" ms).bind stringOf
  let date ← (member "date" ms).bind stringOf
  pure { AcquiringCompany := acquiringCompany, TargetCompany := targetCompany,
         DealSummary := dealSummary, Date := date }

/-- The fields of `ParallelTaskContent.MarketSegmentationAnalysis` by their tags. -/
def decodeMarketSegmentationAnalysis (ms : List (Bytes × JSON)) :
    Option MarketSegmentationAnalysis := do
  let dominantSegment ← (member "dominant_segment" ms).bind stringOf
  let dominantSegmentShare ← (member "dominant_segment_share" ms).bind stringOf
  let fastestGrowingSegment ← (member "fastest_growing_segment" ms).bind stringOf
  let fastestGrowingSegmentCAGR ←
    (member "fastest_growing_segment_cagr" ms).bind stringOf
  pure { DominantSegment := dominantSegment, DominantSegmentShare := dominantSegmentShare,
         FastestGrowingSegment := fastestGrowingSegment,
         FastestGrowingSegmentCAGR := fastestGrowingSegmentCAGR }

/-- The fields of an element of `ParallelTaskContent.PubliclyTradedCompanies` by their
tags. -/
def decodePubliclyTradedCompany (ms : List (Bytes × JSON)) :
    Option PubliclyTradedCompany := do
  let companyName ← (member "company_name" ms).bind stringOf
  let stockTicker ← (member "stock_ticker" ms).bind stringOf
  pure { CompanyName := companyName, StockTicker := stockTicker }

/-- The fields of `ParallelTaskContent` by their tags. -/
def decodeTaskContent (ms : List (Bytes × JSON)) : Option ParallelTaskContent := do
  let marketSizeAndForecast ←
    (member "market_size_and_forecast" ms).bind (structOf decodeMarketSizeAndForecast)
  let companyProfiles ←
    (member "company_profiles" ms).bind (sliceOf (structOf decodeCompanyProfile))
  let recentMergersAndAcquisitions ←
    (member "recent_mergers_and_acquisitions" ms).bind
      (structOf decodeRecentMergersAndAcquisitions)
  let growthOpportunities ← (member "growth_opportunities" ms).bind stringOf
  let marketSegmentationAnalysis ←
    (member "market_segmentation_analysis" ms).bind
      (structOf decodeMarketSegmentationAnalysis)
  let publiclyTradedCompanies ←
    (member "publicly_traded_hvac_companies" ms).bind
      (sliceOf (structOf decodePubliclyTradedCompany))
  pure { MarketSizeAndForecast := marketSizeAndForecast, CompanyProfiles := companyProfiles,
         RecentMergersAndAcquisitions := recentMergersAndAcquisitions,
         GrowthOpportunities := growthOpportunities,
         MarketSegmentationAnalysis := marketSegmentationAnalysis,
         PubliclyTradedCompanies := publiclyTradedCompanies }

/-- The fields of `ParallelBasisCitation` by their tags. -/
def decodeBasisCitation (ms : List (Bytes × JSON)) : Option ParallelBasisCitation := do
  let url ← (member "url" ms).bind stringOf
  let excerpts ← (member "excerpts" ms).bind (sliceOf stringOf)
  let title ← (member "title" ms).bind stringOf
  pure { URL := url, Excerpts := excerpts, Title := title }

/-- The fields of `ParallelBasis` by their tags. -/
def decodeBasis (ms : List (Bytes × JSON)) : Option ParallelBasis := do
  let field ← (member "field" ms).bind stringOf
  let reasoning ← (member "reasoning" ms).bind stringOf
  let citations ← (member "citations" ms).bind (sliceOf (structOf decodeBasisCitation))
  let confidence ← (member "confidence" ms).bind stringOf
  pure { Field := field, Reasoning := reasoning, Citations := citations,
         Confidence := confidence }

/-- The fields of `ParallelTaskResponse.Output` by their tags. -/
def decodeTaskOutput {Any Time : Type} (lib : Library Any Time)
    (ms : List (Bytes × JSON)) : Option (ParallelTaskOutput Any Time) := do
  let content ← (member "content" ms).bind (structOf decodeTaskContent)
  let basis ← (member "basis" ms).bind (sliceOf (structOf decodeBasis))
  let runID ← (member "run_id" ms).bind stringOf
  let status ← (member "status" ms).bind stringOf
  let createdAt ← (member "created_at" ms).bind (timeValue lib)
  let completedAt ← (member "completed_at" ms).bind (timeValue lib)
  let processor ← (member "processor" ms).bind stringOf
  let warnings ← (member "warnings" ms).bind (anyValue lib)
  let error ← (member "error" ms).bind (anyValue lib)
  let taskGroup ← (member "taskgroup_id" ms).bind (anyValue lib)
  pure { Content := content, Basis := basis, RunID := runID, Status := status,
         CreatedAt := createdAt, CompletedAt := completedAt, Processor := processor,
         Warnings := warnings, Error := error, TaskGroup := taskGroup }

/-- The fields of `ParallelTaskResponse` by their tags. -/
def decodeTaskResponse {Any Time : Type} (lib : Library Any Time)
    (ms : List (Bytes × JSON)) : Option (ParallelTaskResponse Any Time) := do
  let output ← (member "output" ms).bind (structOf (decodeTaskOutput lib))
  pure { Output := output }

/-- The fields of `ParallelTaskResult` by their tags. -/
def decodeTaskResult {Any Time : Type} (lib : Library Any Time)
    (ms : List (Bytes × JSON)) : Option (ParallelTaskResult Any Time) := do
  let runID ← (member "run_id" ms).bind stringOf
  let status ← (member "status" ms).bind stringOf
  let isActive ← (member "is_active" ms).bind boolOf
  let processor ← (member "processor" ms).bind stringOf
  let output ← (member "output" ms).bind (anyValue lib)
  let error ← (member "error" ms).bind (anyValue lib)
  let warnings ← (member "warnings" ms).bind (anyValue lib)
  let metadata ← (member "metadata" ms).bind (anyValue lib)
  let taskGroupID ← (member "taskgroup_id" ms).bind stringOf
  let createdAt ← (member "created_at" ms).bind (timeValue lib)
  let modifiedAt ← (member "modified_at" ms).bind (timeValue lib)
  pure { RunID := runID, Status := status, IsActive := isActive, Processor := processor,
         Output := output, Error := error, Warnings := warnings, Metadata := metadata,
         TaskGroupID := taskGroupID, CreatedAt := createdAt, ModifiedAt := modifiedAt }

/-- The fields of `ParallelChatMessage` by their tags. -/
def decodeChatMessageFields (ms : List (Bytes × JSON)) : Option ParallelChatMessage := do
  let role ← (member "role" ms).bind stringOf
  let content ← (member "content" ms).bind stringOf
  pure { Role := role, Content := content }

/-- The fields of `ParallelChatChoice` by their tags. -/
def decodeChatChoice (ms : List (Bytes × JSON)) : Option ParallelChatChoice := do
  let index ← (member "index" ms).bind integerOf
  let message ← (member "message" ms).bind (structOf decodeChatMessageFields)
  let finishReason ← (member "finish_reason" ms).bind stringOf
  pure { Index := index, Message := message, FinishReason := finishReason }

/-- The fields of `ParallelChatResponse` by their tags. -/
def decodeChatResponse {Any Time : Type} (lib : Library Any Time)
    (ms : List (Bytes × JSON)) : Option (ParallelChatResponse Any) := do
  let id ← (member "id" ms).bind stringOf
  let object ← (member "object" ms).bind stringOf
  let model ← (member "model" ms).bind stringOf
  let created ← (member "created" ms).bind integerOf
  let choices ← (member "choices" ms).bind (sliceOf (structOf decodeChatChoice))
  let usage ← (member "usage" ms).bind (mapValue lib)
  pure { ID := id, Object := object, Model := model, Created := created,
         Choices := choices, Usage := usage }

/-- The call `json.NewDecoder(body).Decode(&out)` at a zero value whose fields are
filled by `fields`, on the texts the model covers: when this is `some v`, `Decode`
returns a nil error and leaves `v` in `out`. -/
def Decode {T : Type} (fields : List (Bytes × JSON) → Option T) (body : Bytes) : Option T :=
  (topValue body).bind (structOf fields)

/-- The value found by going down from a value through the members that go to the
fields tagged with the given names, one after the other. -/
def descend : List String → JSON → Option JSON
  | [], v => some v
  | n :: ns, .object ms => (member n ms).bind (descend ns)
  | _ :: _, _ => none

/-- The bytes a string value spells. -/
def spelled : JSON → Option Bytes
  | .string s _ => some s
  | _ => none

/-- The string that a body carries for a field: the bytes spelled by the string value
found in the object of the body under the given tags. -/
def carried (names : List String) (body : Bytes) : Option Bytes :=
  ((topValue body).bind (descend names)).bind spelled

/-- The environment decodes as `encoding/json` does: on a body that is read to its
end and that the model covers, each decoder of the environment returns the value of
the model and a nil error. -/
def UsesEncodingJSON {Any Time : Type} (lib : Library Any Time) (env : Env Any Time) :
    Prop :=
  (∀ b v, b.err = none → Decode decodeSearchResponse (utf8 b.data) = some v →
    env.decodeSearch b = .ok v) ∧
  (∀ b v, b.err = none → Decode decodeExtractResponse (utf8 b.data) = some v →
    env.decodeExtract b = .ok v) ∧
  (∀ b v, b.err = none → Decode (decodeTaskResponse lib) (utf8 b.data) = some v →
    env.decodeTaskResponse b = .ok v) ∧
  (∀ b v, b.err = none → Decode (decodeTaskResult lib) (utf8 b.data) = some v →
    env.decodeTaskResult b = .ok v) ∧
  (∀ b v, b.err = none → Decode (decodeChatResponse lib) (utf8 b.data) = some v →
    env.decodeChat b = .ok v)
/-! ## Definitions used to state and prove the properties -/

/-- The part the five handlers share once the request is built: send it, check the
status code, decode the body. Used to reason about the handlers, which spell it out. -/
def exchange {Any Time T : Type} (env : Env Any Time) (decode : Body → Except GoError T)
    (httpReq : Request) (w : World) : Except GoError T × World :=
  (match env.roundTrip w.sent.length httpReq with
    | .error err => .error (Errorf_w "send request: " err)
    | .ok res =>
      if res.StatusCode ≠ StatusOK then
        .error (.errorString ("API error: " ++ res.Status ++ " — " ++ res.Body.data))
      else
        match decode res.Body with
        | .error err => .error (Errorf_w "decode response: " err)
        | .ok out => .ok out,
   { sent := w.sent ++ [httpReq] })

/-- The request `Search`, `RunTask` and `Extract` build for a URL and a payload. -/
def keyedPost (c : Client) (ctx : Context) (url payload : String) : Request :=
  { ctx := ctx, Method := MethodPost, URL := url,
    Header := ((Header.Set [] "Content-Type" "application/json").Set "x-api-key"
      c.apiKey).Set "parallel-beta" c.betaTag,
    Body := some payload }

/-- The request `GetTask` builds. -/
def getTaskRequest (c : Client) (ctx : Context) (runID : String) : Request :=
  { ctx := ctx, Method := MethodGet, URL := c.baseURL ++ "/tasks/runs/" ++ runID,
    Header := (Header.Set [] "x-api-key" c.apiKey).Set "parallel-beta" c.betaTag,
    Body := none }

/-- The request `Chat` builds for a payload. -/
def chatRequest (c : Client) (ctx : Context) (payload : String) : Request :=
  { ctx := ctx, Method := MethodPost, URL := c.baseURL ++ "/chat/completions",
    Header := (Header.Set [] "Content-Type" "application/json").Set "Authorization"
      ("Bearer " ++ c.apiKey),
    Body := some payload }

/-- A transport failure, told by its message (`"send request: …"`). -/
def IsTransportFailure (e : GoError) : Bool := HasPrefix e.Error "send request: "

/-- An API error, told by its message (`"API error: …"`). -/
def IsAPIError (e : GoError) : Bool := HasPrefix e.Error "API error: "

/-- A decode failure, told by its message (`"decode response: …"`). -/
def IsDecodeFailure (e : GoError) : Bool := HasPrefix e.Error "decode response: "

/-- The three failure kinds of a handler that sent `r` from the world `w` and returned
`out`: no response, a response whose status code is not 200, and a 200 response whose
body the decoder rejects. -/
def SurfacesFailureKinds {Any Time T : Type} (env : Env Any Time)
    (decode : Body → Except GoError T) (w : World) (r : Request)
    (out : Except GoError T) : Prop :=
  (∀ e, env.roundTrip w.sent.length r = .error e →
    out = .error (Errorf_w "send request: " e)) ∧
  (∀ res, env.roundTrip w.sent.length r = .ok res → res.StatusCode ≠ 200 →
    out = .error (.errorString ("API error: " ++ res.Status ++ " — " ++ res.Body.data))) ∧
  (∀ res e, env.roundTrip w.sent.length r = .ok res → res.StatusCode = 200 →
    decode res.Body = .error e → out = .error (Errorf_w "decode response: " e))

/-! ### Worked examples -/

/-- The zero value of `ParallelTaskContent`. -/
def zeroContent : ParallelTaskContent :=
  { MarketSizeAndForecast := ⟨"", "", "", "", ""⟩
    CompanyProfiles := []
    RecentMergersAndAcquisitions := ⟨"", "", "", ""⟩
    GrowthOpportunities := ""
    MarketSegmentationAnalysis := ⟨"", "", "", ""⟩
    PubliclyTradedCompanies := [] }

/-- A task result with the given run identifier and status and zero values elsewhere. -/
def taskWith (runID status : String) : ParallelTaskResult Unit Unit :=
  { RunID := runID, Status := status, IsActive := false, Processor := "", Output := (),
    Error := (), Warnings := (), Metadata := (), TaskGroupID := "", CreatedAt := (),
    ModifiedAt := () }

/-- A task response with the given run identifier and zero values elsewhere. -/
def taskResponseWith (runID : String) : ParallelTaskResponse Unit Unit :=
  { Output :=
      { Content := zeroContent, Basis := [], RunID := runID, Status := "", CreatedAt := (),
        CompletedAt := (), Processor := "", Warnings := (), Error := (), TaskGroup := () } }

/-- The JSON text of an object whose only member is the string `value` under `key`;
`value` is meant to need no escaping. -/
def jsonField (key value : String) : String :=
  "\x7b\"" ++ key ++ "\":\"" ++ value ++ "\"\x7d"

/-- The text `body` without the prefix `pfx` and the suffix `sfx`, when it has both. -/
def stripAround (pfx sfx body : String) : Option String :=
  let d := body.data.drop pfx.data.length
  if pfx.data.isPrefixOf body.data && sfx.data.isSuffixOf d then
    some ⟨d.take (d.length - sfx.data.length)⟩
  else none

/-- The value of the member `key` when `body` is the text `jsonField key value` and the
value holds neither a double quote nor a backslash. -/
def fieldOf (key body : String) : Option String :=
  match stripAround ("\x7b\"" ++ key ++ "\":\"") "\"\x7d" body with
  | some v => if v.data.all (fun ch => ch.toNat != 34 && ch.toNat != 92) then some v else none
  | none => none

/-- A decoder for worked examples, standing for `json.NewDecoder(body).Decode`: it
fails with the read error of a body that cannot be read to its end, it accepts the
texts `jsonField key value`, building the result from the value by `mk`, and it
rejects every other text as malformed. -/
def exampleDecode {T : Type} (key : String) (mk : String → T) (b : Body) :
    Except GoError T :=
  match b.err with
  | some e => .error e
  | none =>
    match fieldOf key b.data with
    | some v => .ok (mk v)
    | none => .error (.errorString "invalid character")

/-- The decoder of `exampleEnv` for task responses, whose run identifier sits in the
member `output`. -/
def exampleDecodeTaskResponse (b : Body) : Except GoError (ParallelTaskResponse Unit Unit) :=
  match stripAround "\x7b\"output\":" "\x7d" b.data with
  | some inner => exampleDecode "run_id" taskResponseWith { b with data := inner }
  | none =>
    match b.err with
    | some e => .error e
    | none => .error (.errorString "invalid character")

/-- An environment for worked examples: marshalling gives a fixed payload, every URL
parses, the decoders are `exampleDecode` at the identifying field of each response
type (the status for a task result), and the HTTP client answers by `answer`. -/
def exampleEnv (answer : Nat → Request → Except GoError Response) : Env Unit Unit :=
  { marshalSearch := fun _ => .ok "search-payload"
    marshalTask := fun _ => .ok "task-payload"
    marshalChat := fun _ => .ok "chat-payload"
    marshalExtract := fun _ => .ok "extract-payload"
    decodeSearch := exampleDecode "search_id" (fun s => { SearchID := s, Results := [] })
    decodeTaskResponse := exampleDecodeTaskResponse
    decodeTaskResult := exampleDecode "status" (taskWith "")
    decodeChat := exampleDecode "id" (fun s =>
      { ID := s, Object := "", Model := "", Created := 0, Choices := [], Usage := [] })
    decodeExtract := exampleDecode "extract_id"
      (fun s => { ExtractID := s, Results := [], Errors := [] })
    urlError := fun _ => none
    roundTrip := answer }

/-- The client of the tests. -/
def testClient : Client := NewClient "test-api-key"

/-- The world before any request. -/
def emptyWorld : World := { sent := [] }

/-- A response with the given status line, status code and complete body text. -/
def respond (status : String) (code : Int) (body : String) : Response :=
  { Status := status, StatusCode := code, Body := { data := body, err := none } }

/-- The search request of the API-error test. -/
def zeroSearchRequest : ParallelSearchRequest :=
  { Objective := "", SearchQueries := [], MaxResults := 0, MaxCharsPerResult := 0 }

/-- A scheduling point where only the ticker is ready. -/
def tickOnly : Instant := { ctxErr := none, tick := true, pickTick := false }

/-- A scheduling point where the context is cancelled, a tick is pending too, and the
runtime picks the ticker case. -/
def cancelledTickPicked : Instant :=
  { ctxErr := some .Canceled, tick := true, pickTick := true }

/-- A scheduling point where the context is cancelled, a tick is pending too, and the
runtime picks the `ctx.Done()` case. -/
def cancelledDonePicked : Instant :=
  { ctxErr := some .Canceled, tick := true, pickTick := false }

/-- An endpoint that answers 200 with a task of status `first` to the first `n` requests
and of status `last` afterwards. -/
def answerAfter (n : Nat) (first last : String) : Nat → Request → Except GoError Response :=
  fun k _ => .ok (respond "200 OK" 200 (jsonField "status" (if k < n then first else last)))

/-- An HTTP client that, like `net/http`, fails a request whose context is already
done with an error wrapping the context error, and otherwise answers "running". -/
def cancelAware : Nat → Request → Except GoError Response :=
  fun _ r =>
    match r.ctx.err with
    | some e => .error (Errorf_w ("Get " ++ r.URL ++ ": ") (.ctx e))
    | none => .ok (respond "200 OK" 200 (jsonField "status" "running"))

/-- An endpoint that answers "running" once and then fails at the transport. -/
def failSecond : Nat → Request → Except GoError Response :=
  fun k _ =>
    if k = 0 then .ok (respond "200 OK" 200 (jsonField "status" "running"))
    else .error (.errorString "connection refused")

/-- An endpoint that answers every request with the given status and body. -/
def always (status : String) (code : Int) (body : String) :
    Nat → Request → Except GoError Response :=
  fun _ _ => .ok (respond status code body)

/-- The chat request of the tests. -/
def testChatRequest : ParallelChatRequest Unit :=
  { Model := "test-model", Messages := [{ Role := "user", Content := "Hi" }],
    Stream := false, ResponseFormat := none }

/-- The extract request of the tests. -/
def testExtractRequest : ParallelExtractRequest :=
  { URLs := ["https://example.com"], Objective := "", Excerpts := false,
    FullContent := false }

/-- The task request of the tests. -/
def testTaskRequest : ParallelTaskRequest := { Input := "test input", Processor := "" }


/-- A library for worked examples in which `any` and `time.Time` carry no data: every
value is accepted. -/
def unitLibrary : Library Unit Unit :=
  { nilAny := (), zeroTime := (), anyOf := fun _ => some (), mapOf := fun _ => some [],
    timeOf := fun _ => some () }

/-- A decoder for worked examples that follows the model of `encoding/json`: it fails
with the read error of a body that cannot be read to its end, it returns what `Decode`
gives, and it reports every text outside the model as malformed. -/
def modelDecode {T : Type} (fields : List (Bytes × JSON) → Option T) (b : Body) :
    Except GoError T :=
  match b.err with
  | some e => .error e
  | none =>
    match Decode fields (utf8 b.data) with
    | some v => .ok v
    | none => .error (.errorString "invalid character")

/-- The environment `exampleEnv` with the decoders of the model. -/
def jsonEnv (answer : Nat → Request → Except GoError Response) : Env Unit Unit :=
  { exampleEnv answer with
    decodeSearch := modelDecode decodeSearchResponse
    decodeTaskResponse := modelDecode (decodeTaskResponse unitLibrary)
    decodeTaskResult := modelDecode (decodeTaskResult unitLibrary)
    decodeChat := modelDecode (decodeChatResponse unitLibrary)
    decodeExtract := modelDecode decodeExtractResponse }

/-- The body that the mock server of `TestSearch` writes. -/
def searchBody : String :=
  "\x7b\"search_id\":\"test-search-id\",\"results\":[\x7b\"url\":\"https://example.com\"," ++
    "\"title\":\"Test Title\",\"excerpts\":null\x7d]\x7d\n"

/-- The body that the mock server of `TestExtract` writes. -/
def extractBody : String :=
  "\x7b\"extract_id\":\"test-extract-id\",\"results\":[\x7b\"url\":\"https://example.com\"," ++
    "\"title\":\"Test Extract Title\",\"excerpts\":null,\"full_content\":\"\"\x7d],\"errors\":" ++
    "null\x7d\n"

/-- A body for `RunTask` with the run identifier of `TestRunTask`, white space between
its members and a member that names no field. -/
def runTaskBody : String :=
  "\x7b \"output\": \x7b\"run_id\": \"test-run-id\", \"status\": \"queued\", \"basis\":" ++
    " [],\n \"created_at\": \"2025-01-01T00:00:00Z\", \"warnings\": null, \"note\": [1," ++
    " 2.5e3, true]\x7d \x7d\n"

/-- The body that the mock server of `TestGetTask` writes. -/
def getTaskBody : String :=
  "\x7b\"run_id\":\"test-run-id\",\"status\":\"completed\",\"is_active\":false,\"processor\":" ++
    "\"\",\"output\":null,\"error\":null,\"warnings\":null,\"metadata\":null,\"taskgroup_id\":" ++
    "\"\",\"created_at\":\"0001-01-01T00:00:00Z\",\"modified_at\":\"0001-01-01T00:00:" ++
    "00Z\"\x7d\n"

/-- The body that the mock server of `TestChat` writes. -/
def chatBody : String :=
  "\x7b\"id\":\"test-chat-id\",\"object\":\"\",\"model\":\"\",\"created\":0,\"choices\":" ++
    "[\x7b\"index\":0,\"message\":\x7b\"role\":\"assistant\",\"content\":\"Hello!\"\x7d," ++
    "\"finish_reason\":\"\"\x7d]\x7d\n"

/-! ## Shared lemmas -/

theorem Search_eq {Any Time : Type} (env : Env Any Time) (c : Client) (ctx : Context)
    (req : ParallelSearchRequest) (w : World) :
    Search env c ctx req w =
      match env.marshalSearch req with
      | .error err => (.error (Errorf_w "marshal request: " err), w)
      | .ok payload =>
        match env.urlError (c.baseURL ++ "/search") with
        | some err => (.error (Errorf_w "create request: " err), w)
        | none => exchange env env.decodeSearch (keyedPost c ctx (c.baseURL ++ "/search") payload) w := by
  simp only [Search, NewRequestWithContext, Do, exchange, keyedPost, ReadAll]
  cases env.marshalSearch req with
  | error e => rfl
  | ok payload =>
    simp only []
    cases env.urlError (c.baseURL ++ "/search") with
    | some e => rfl
    | none =>
      simp only []
      cases env.roundTrip w.sent.length _ with
      | error e => rfl
      | ok res =>
        simp only []
        by_cases hc : res.StatusCode = StatusOK
        · simp only [hc, ne_eq, not_true_eq_false, if_false]
          cases env.decodeSearch res.Body <;> rfl
        · simp only [hc, ne_eq, not_false_eq_true, if_true]

theorem RunTask_eq {Any Time : Type} (env : Env Any Time) (c : Client) (ctx : Context)
    (req : ParallelTaskRequest) (w : World) :
    RunTask env c ctx req w =
      match env.marshalTask req with
      | .error err => (.error (Errorf_w "marshal request: " err), w)
      | .ok payload =>
        match env.urlError (c.baseURL ++ "/tasks/runs") with
        | some err => (.error (Errorf_w "create request: " err), w)
        | none => exchange env env.decodeTaskResponse (keyedPost c ctx (c.baseURL ++ "/tasks/runs") payload) w := by
  simp only [RunTask, NewRequestWithContext, Do, exchange, keyedPost, ReadAll]
  cases env.marshalTask req with
  | error e => rfl
  | ok payload =>
    simp only []
    cases env.urlError (c.baseURL ++ "/tasks/runs") with
    | some e => rfl
    | none =>
      simp only []
      cases env.roundTrip w.sent.length _ with
      | error e => rfl
      | ok res =>
        simp only []
        by_cases hc : res.StatusCode = StatusOK
        · simp only [hc, ne_eq, not_true_eq_false, if_false]
          cases env.decodeTaskResponse res.Body <;> rfl
        · simp only [hc, ne_eq, not_false_eq_true, if_true]

theorem Chat_eq {Any Time : Type} (env : Env Any Time) (c : Client) (ctx : Context)
    (req : ParallelChatRequest Any) (w : World) :
    Chat env c ctx req w =
      match env.marshalChat req with
      | .error err => (.error (Errorf_w "marshal request: " err), w)
      | .ok payload =>
        match env.urlError (c.baseURL ++ "/chat/completions") with
        | some err => (.error (Errorf_w "create request: " err), w)
        | none => exchange env env.decodeChat (chatRequest c ctx payload) w := by
  simp only [Chat, NewRequestWithContext, Do, exchange, chatRequest, ReadAll]
  cases env.marshalChat req with
  | error e => rfl
  | ok payload =>
    simp only []
    cases env.urlError (c.baseURL ++ "/chat/completions") with
    | some e => rfl
    | none =>
      simp only []
      cases env.roundTrip w.sent.length _ with
      | error e => rfl
      | ok res =>
        simp only []
        by_cases hc : res.StatusCode = StatusOK
        · simp only [hc, ne_eq, not_true_eq_false, if_false]
          cases env.decodeChat res.Body <;> rfl
        · simp only [hc, ne_eq, not_false_eq_true, if_true]

theorem Extract_eq {Any Time : Type} (env : Env Any Time) (c : Client) (ctx : Context)
    (req : ParallelExtractRequest) (w : World) :
    Extract env c ctx req w =
      match env.marshalExtract req with
      | .error err => (.error (Errorf_w "marshal request: " err), w)
      | .ok payload =>
        match env.urlError (c.baseURL ++ "/extract") with
        | some err => (.error (Errorf_w "create request: " err), w)
        | none => exchange env env.decodeExtract (keyedPost c ctx (c.baseURL ++ "/extract") payload) w := by
  simp only [Extract, NewRequestWithContext, Do, exchange, keyedPost, ReadAll]
  cases env.marshalExtract req with
  | error e => rfl
  | ok payload =>
    simp only []
    cases env.urlError (c.baseURL ++ "/extract") with
    | some e => rfl
    | none =>
      simp only []
      cases env.roundTrip w.sent.length _ with
      | error e => rfl
      | ok res =>
        simp only []
        by_cases hc : res.StatusCode = StatusOK
        · simp only [hc, ne_eq, not_true_eq_false, if_false]
          cases env.decodeExtract res.Body <;> rfl
        · simp only [hc, ne_eq, not_false_eq_true, if_true]

theorem GetTask_eq {Any Time : Type} (env : Env Any Time) (c : Client) (ctx : Context)
    (runID : String) (w : World) :
    GetTask env c ctx runID w =
      match env.urlError (c.baseURL ++ "/tasks/runs/" ++ runID) with
      | some err => (.error (Errorf_w "create request: " err), w)
      | none => exchange env env.decodeTaskResult (getTaskRequest c ctx runID) w := by
  simp only [GetTask, NewRequestWithContext, Do, exchange, getTaskRequest, ReadAll]
  cases env.urlError (c.baseURL ++ "/tasks/runs/" ++ runID) with
  | some e => rfl
  | none =>
    simp only []
    cases env.roundTrip w.sent.length _ with
    | error e => rfl
    | ok res =>
      simp only []
      by_cases hc : res.StatusCode = StatusOK
      · simp only [hc, ne_eq, not_true_eq_false, if_false]
        cases env.decodeTaskResult res.Body <;> rfl
      · simp only [hc, ne_eq, not_false_eq_true, if_true]

theorem exchange_api_error {Any Time T : Type} (env : Env Any Time)
    (decode : Body → Except GoError T) (r : Request) (w : World) (res : Response)
    (hres : env.roundTrip w.sent.length r = .ok res) (hne : res.StatusCode ≠ StatusOK) :
    (exchange env decode r w).1 =
      .error (.errorString ("API error: " ++ res.Status ++ " — " ++ res.Body.data)) := by
  simp [exchange, hres, hne]

theorem exchange_ok {Any Time T : Type} (env : Env Any Time)
    (decode : Body → Except GoError T) (r : Request) (w : World) (res : Response) (v : T)
    (hres : env.roundTrip w.sent.length r = .ok res) (hok : res.StatusCode = StatusOK)
    (hdec : decode res.Body = .ok v) :
    (exchange env decode r w).1 = .ok v := by
  simp [exchange, hres, hok, hdec]

theorem exchange_decode_error {Any Time T : Type} (env : Env Any Time)
    (decode : Body → Except GoError T) (r : Request) (w : World) (res : Response)
    (e : GoError)
    (hres : env.roundTrip w.sent.length r = .ok res) (hok : res.StatusCode = StatusOK)
    (hdec : decode res.Body = .error e) :
    (exchange env decode r w).1 = .error (Errorf_w "decode response: " e) := by
  simp [exchange, hres, hok, hdec]

theorem exchange_send_error {Any Time T : Type} (env : Env Any Time)
    (decode : Body → Except GoError T) (r : Request) (w : World) (e : GoError)
    (hres : env.roundTrip w.sent.length r = .error e) :
    (exchange env decode r w).1 = .error (Errorf_w "send request: " e) := by
  simp [exchange, hres]

/-! ### The polling loop -/

theorem pollLoop_append {Any Time : Type} (env : Env Any Time) (c : Client) (runID : String)
    (pre rest : List Instant) (w w1 : World)
    (hpre : pollLoop env c runID pre w = (.pending, w1)) :
    pollLoop env c runID (pre ++ rest) w = pollLoop env c runID rest w1 := by
  induction pre generalizing w with
  | nil =>
    simp only [pollLoop, Prod.mk.injEq, true_and] at hpre
    subst hpre
    rfl
  | cons i pre ih =>
    simp only [List.cons_append, pollLoop] at hpre ⊢
    cases hs : select i with
    | blocked =>
      rw [hs] at hpre
      exact ih w hpre
    | done e =>
      rw [hs] at hpre
      simp at hpre
    | tick =>
      rw [hs] at hpre
      simp only [] at hpre ⊢
      rcases hg : GetTask env c ⟨i.ctxErr⟩ runID w with ⟨r, w2⟩
      rw [hg] at hpre
      cases r with
      | error err => simp at hpre
      | ok task =>
        simp only [] at hpre ⊢
        by_cases ht : task.Status = "completed" ∨ task.Status = "failed"
        · rw [if_pos ht] at hpre
          simp at hpre
        · rw [if_neg ht] at hpre ⊢
          exact ih w2 hpre

theorem pollLoop_tick {Any Time : Type} (env : Env Any Time) (c : Client) (runID : String)
    (i : Instant) (rest : List Instant) (w : World) (hsel : select i = .tick) :
    pollLoop env c runID (i :: rest) w =
      match GetTask env c ⟨i.ctxErr⟩ runID w with
      | (.error err, w1) => (.returned (.error err), w1)
      | (.ok task, w1) =>
        if task.Status = "completed" ∨ task.Status = "failed" then
          (.returned (.ok task), w1)
        else
          pollLoop env c runID rest w1 := by
  simp only [pollLoop, hsel]

/-- What "still pending after a scheduling point" means: either nothing was ready, or
the ticker case ran a poll that succeeded with a status that is not terminal. No
`ctx.Done()` case was taken and no poll failed. -/
theorem pollLoop_pending_cons_iff {Any Time : Type} (env : Env Any Time) (c : Client)
    (runID : String) (i : Instant) (rest : List Instant) (w w1 : World) :
    pollLoop env c runID (i :: rest) w = (.pending, w1) ↔
      (select i = .blocked ∧ pollLoop env c runID rest w = (.pending, w1)) ∨
      (select i = .tick ∧ ∃ task w2, GetTask env c ⟨i.ctxErr⟩ runID w = (.ok task, w2) ∧
        task.Status ≠ "completed" ∧ task.Status ≠ "failed" ∧
        pollLoop env c runID rest w2 = (.pending, w1)) := by
  cases hs : select i with
  | blocked => simp [pollLoop, hs]
  | done e => simp [pollLoop, hs]
  | tick =>
    rw [pollLoop_tick env c runID i rest w hs]
    rcases hg : GetTask env c ⟨i.ctxErr⟩ runID w with ⟨r, w2⟩
    cases r with
    | error err => simp
    | ok task =>
      by_cases ht : task.Status = "completed" ∨ task.Status = "failed"
      · simp only [if_pos ht]
        rcases ht with ht | ht <;> simp [ht]
      · simp only [if_neg ht]
        have h1 : task.Status ≠ "completed" := fun h => ht (Or.inl h)
        have h2 : task.Status ≠ "failed" := fun h => ht (Or.inr h)
        constructor
        · intro h
          exact Or.inr ⟨trivial, task, w2, rfl, h1, h2, h⟩
        · rintro (⟨h, _⟩ | ⟨_, t, w3, heq, _, _, h⟩)
          · exact absurd h (by simp)
          · cases heq
            exact h

theorem PollUntilComplete_pos {Any Time : Type} (env : Env Any Time) (c : Client)
    (runID : String) (interval : Int) (sched : List Instant) (w : World)
    (hpos : 0 < interval) :
    PollUntilComplete env c runID interval sched w = pollLoop env c runID sched w := by
  simp [PollUntilComplete, not_le.mpr hpos]

theorem GetTask_sent_prefix {Any Time : Type} (env : Env Any Time) (c : Client)
    (ctx : Context) (runID : String) (w : World) :
    w.sent <+: (GetTask env c ctx runID w).2.sent := by
  rw [GetTask_eq]
  cases env.urlError (c.baseURL ++ "/tasks/runs/" ++ runID) with
  | some e => exact List.prefix_refl _
  | none => exact List.prefix_append _ _

theorem pollLoop_sent_prefix {Any Time : Type} (env : Env Any Time) (c : Client)
    (runID : String) (sched : List Instant) (w : World) :
    w.sent <+: (pollLoop env c runID sched w).2.sent := by
  induction sched generalizing w with
  | nil => exact List.prefix_refl _
  | cons i rest ih =>
    cases hs : select i with
    | blocked =>
      simp only [pollLoop, hs]
      exact ih w
    | done e =>
      simp only [pollLoop, hs]
      exact List.prefix_refl _
    | tick =>
      rw [pollLoop_tick env c runID i rest w hs]
      have hg := GetTask_sent_prefix env c ⟨i.ctxErr⟩ runID w
      rcases hgt : GetTask env c ⟨i.ctxErr⟩ runID w with ⟨r, w2⟩
      rw [hgt] at hg
      cases r with
      | error err => exact hg
      | ok task =>
        simp only []
        by_cases ht : task.Status = "completed" ∨ task.Status = "failed"
        · rw [if_pos ht]
          exact hg
        · rw [if_neg ht]
          exact hg.trans (ih w2)

theorem GetTask_ok {Any Time : Type} (env : Env Any Time) (c : Client) (ctx : Context)
    (runID : String) (w : World) (res : Response) (t : ParallelTaskResult Any Time)
    (hurl : env.urlError (c.baseURL ++ "/tasks/runs/" ++ runID) = none)
    (hres : env.roundTrip w.sent.length (getTaskRequest c ctx runID) = .ok res)
    (hok : res.StatusCode = StatusOK) (hdec : env.decodeTaskResult res.Body = .ok t) :
    GetTask env c ctx runID w =
      (.ok t, { sent := w.sent ++ [getTaskRequest c ctx runID] }) := by
  rw [GetTask_eq, hurl]
  simp [exchange, hres, hok, hdec]

theorem pollLoop_running_then_completed {Any Time : Type} (env : Env Any Time) (c : Client)
    (runID : String) (sched : List Instant)
    (hurl : env.urlError (c.baseURL ++ "/tasks/runs/" ++ runID) = none)
    (hctx : ∀ i ∈ sched, i.ctxErr = none) :
    ∀ (N : Nat) (w : World) (res : Nat → Response) (t : Nat → ParallelTaskResult Any Time),
      N + 1 ≤ sched.countP (fun i => i.tick) →
      (∀ k, k ≤ N →
        env.roundTrip (w.sent.length + k) (getTaskRequest c ⟨none⟩ runID) = .ok (res k) ∧
        (res k).StatusCode = StatusOK ∧ env.decodeTaskResult (res k).Body = .ok (t k)) →
      (∀ k, k < N → (t k).Status = "running") →
      (t N).Status = "completed" →
      pollLoop env c runID sched w =
        (.returned (.ok (t N)),
          { sent := w.sent ++ List.replicate (N + 1) (getTaskRequest c ⟨none⟩ runID) }) := by
  induction sched with
  | nil =>
    intro N w res t hticks
    simp at hticks
  | cons i rest ih =>
    intro N w res t hticks hres hrun hdone
    have hi : i.ctxErr = none := hctx i (List.mem_cons_self _ _)
    have hrest : ∀ j ∈ rest, j.ctxErr = none := fun j hj => hctx j (List.mem_cons_of_mem _ hj)
    cases htick : i.tick with
    | false =>
      have hs : select i = .blocked := by simp [select, hi, htick]
      have hcount : N + 1 ≤ rest.countP (fun i => i.tick) := by
        simpa [List.countP_cons, htick] using hticks
      simp only [pollLoop, hs]
      exact ih hrest N w res t hcount hres hrun hdone
    | true =>
      have hs : select i = .tick := by simp [select, hi, htick]
      obtain ⟨h0, hok0, hdec0⟩ := hres 0 (Nat.zero_le _)
      have hget := GetTask_ok env c ⟨none⟩ runID w (res 0) (t 0) hurl
        (by simpa using h0) hok0 hdec0
      rw [pollLoop_tick env c runID i rest w hs, hi, hget]
      cases N with
      | zero =>
        simp [hdone]
      | succ n =>
        have hr : (t 0).Status = "running" := hrun 0 (Nat.succ_pos _)
        have hnt : ¬ ((t 0).Status = "completed" ∨ (t 0).Status = "failed") := by
          rw [hr]
          decide
        simp only [if_neg hnt]
        have hcount : n + 1 ≤ rest.countP (fun i => i.tick) := by
          simpa [List.countP_cons, htick] using hticks
        have := ih hrest n { sent := w.sent ++ [getTaskRequest c ⟨none⟩ runID] }
          (fun k => res (k + 1)) (fun k => t (k + 1)) hcount
          (fun k hk => by
            have h := hres (k + 1) (Nat.succ_le_succ hk)
            simpa [Nat.add_assoc, Nat.add_comm 1 k] using h)
          (fun k hk => hrun (k + 1) (Nat.succ_lt_succ hk)) hdone
        rw [this]
        simp [List.replicate_succ]

/-! ### Headers -/

theorem canonical_content_type : CanonicalMIMEHeaderKey "Content-Type" = "Content-Type" := by
  decide

theorem canonical_api_key : CanonicalMIMEHeaderKey "x-api-key" = "X-Api-Key" := by
  decide

theorem canonical_beta : CanonicalMIMEHeaderKey "parallel-beta" = "Parallel-Beta" := by
  decide

theorem canonical_authorization :
    CanonicalMIMEHeaderKey "Authorization" = "Authorization" := by
  decide

theorem keyedPost_headers (c : Client) (ctx : Context) (url payload : String) :
    (keyedPost c ctx url payload).Header.Values "x-api-key" = [c.apiKey] ∧
    (keyedPost c ctx url payload).Header.Values "parallel-beta" = [c.betaTag] ∧
    (keyedPost c ctx url payload).Header.Values "Authorization" = [] ∧
    (keyedPost c ctx url payload).Header.Values "Content-Type" = ["application/json"] := by
  simp [keyedPost, Header.Set, Header.Values, canonical_content_type, canonical_api_key,
    canonical_beta, canonical_authorization, List.lookup, List.filter]

theorem getTaskRequest_headers (c : Client) (ctx : Context) (runID : String) :
    (getTaskRequest c ctx runID).Header.Values "x-api-key" = [c.apiKey] ∧
    (getTaskRequest c ctx runID).Header.Values "parallel-beta" = [c.betaTag] ∧
    (getTaskRequest c ctx runID).Header.Values "Authorization" = [] ∧
    (getTaskRequest c ctx runID).Header.Values "Content-Type" = [] := by
  simp [getTaskRequest, Header.Set, Header.Values, canonical_content_type,
    canonical_api_key, canonical_beta, canonical_authorization, List.lookup, List.filter]

theorem chatRequest_headers (c : Client) (ctx : Context) (payload : String) :
    (chatRequest c ctx payload).Header.Values "Authorization" = ["Bearer " ++ c.apiKey] ∧
    (chatRequest c ctx payload).Header.Values "x-api-key" = [] ∧
    (chatRequest c ctx payload).Header.Values "parallel-beta" = [] ∧
    (chatRequest c ctx payload).Header.Values "Content-Type" = ["application/json"] := by
  simp [chatRequest, Header.Set, Header.Values, canonical_content_type,
    canonical_api_key, canonical_beta, canonical_authorization, List.lookup, List.filter]

/-! ### Error kinds -/

theorem HasPrefix_append (pfx s : String) : HasPrefix (pfx ++ s) pfx = true := by
  simp [HasPrefix, String.data_append]

theorem HasPrefix_head (s pfx : String) (a : Char) (l : List Char)
    (hp : pfx.data = a :: l) (h : HasPrefix s pfx = true) : s.data.head? = some a := by
  unfold HasPrefix at h
  rw [hp] at h
  cases hs : s.data with
  | nil => simp [hs, List.isPrefixOf] at h
  | cons b m =>
    rw [hs] at h
    simp only [List.isPrefixOf, Bool.and_eq_true, beq_iff_eq] at h
    simp [h.1]

theorem exchange_surfaces {Any Time T : Type} (env : Env Any Time)
    (decode : Body → Except GoError T) (r : Request) (w : World) :
    SurfacesFailureKinds env decode w r (exchange env decode r w).1 :=
  ⟨fun e h => exchange_send_error env decode r w e h,
   fun res h hne => exchange_api_error env decode r w res h hne,
   fun res e h hok hdec => exchange_decode_error env decode r w res e h hok hdec⟩

/-! ### UTF-8 -/

/-- What a valid decoding of a multi-byte rune looks like: the width is 2, 3 or 4, the
input has that many bytes, and the bytes are within the ranges of the encoding. -/
theorem DecodeRune_valid_cases (b c size : Nat) (rest : Bytes) (hb : ¬ b < 0x80)
    (hdec : DecodeRune (b :: rest) = (c, size))
    (hvalid : ¬ (c = RuneError ∧ size = 1)) :
    (∃ b1 r, rest = b1 :: r ∧ size = 2 ∧ 0xC2 ≤ b ∧ b ≤ 0xDF ∧ 0x80 ≤ b1 ∧ b1 ≤ 0xBF ∧
      c = b % 32 * 64 + b1 % 64) ∨
    (∃ b1 b2 r, rest = b1 :: b2 :: r ∧ size = 3 ∧ 0xE0 ≤ b ∧ b ≤ 0xEF ∧
      acceptLo b ≤ b1 ∧ b1 ≤ acceptHi b ∧ 0x80 ≤ b2 ∧ b2 ≤ 0xBF ∧
      c = b % 16 * 4096 + b1 % 64 * 64 + b2 % 64) ∨
    (∃ b1 b2 b3 r, rest = b1 :: b2 :: b3 :: r ∧ size = 4 ∧ 0xF0 ≤ b ∧ b ≤ 0xF4 ∧
      acceptLo b ≤ b1 ∧ b1 ≤ acceptHi b ∧ 0x80 ≤ b2 ∧ b2 ≤ 0xBF ∧ 0x80 ≤ b3 ∧ b3 ≤ 0xBF ∧
      c = b % 8 * 262144 + b1 % 64 * 4096 + b2 % 64 * 64 + b3 % 64) := by
  have bad : (RuneError, 1) = (c, size) → False := by
    intro h
    simp only [Prod.mk.injEq] at h
    exact hvalid ⟨h.1.symm, h.2.symm⟩
  simp only [DecodeRune] at hdec
  rw [if_neg hb] at hdec
  by_cases h2 : 0xC2 ≤ b ∧ b ≤ 0xDF
  · rw [if_pos h2] at hdec
    cases rest with
    | nil => exact absurd hdec bad
    | cons b1 r =>
      simp only [] at hdec
      by_cases hc : isCont b1 = true
      · rw [if_pos hc] at hdec
        simp only [Prod.mk.injEq] at hdec
        simp only [isCont, Bool.and_eq_true, decide_eq_true_eq] at hc
        exact Or.inl ⟨b1, r, rfl, hdec.2.symm, h2.1, h2.2, hc.1, hc.2, hdec.1.symm⟩
      · rw [if_neg hc] at hdec
        exact absurd hdec bad
  · rw [if_neg h2] at hdec
    by_cases h3 : 0xE0 ≤ b ∧ b ≤ 0xEF
    · rw [if_pos h3] at hdec
      rcases rest with _ | ⟨b1, _ | ⟨b2, r⟩⟩
      · exact absurd hdec bad
      · exact absurd hdec bad
      · simp only [] at hdec
        by_cases hc : acceptLo b ≤ b1 ∧ b1 ≤ acceptHi b ∧ isCont b2 = true
        · rw [if_pos hc] at hdec
          simp only [Prod.mk.injEq] at hdec
          obtain ⟨hlo, hhi, hc2⟩ := hc
          simp only [isCont, Bool.and_eq_true, decide_eq_true_eq] at hc2
          exact Or.inr (Or.inl ⟨b1, b2, r, rfl, hdec.2.symm, h3.1, h3.2, hlo, hhi, hc2.1,
            hc2.2, hdec.1.symm⟩)
        · rw [if_neg hc] at hdec
          exact absurd hdec bad
    · rw [if_neg h3] at hdec
      by_cases h4 : 0xF0 ≤ b ∧ b ≤ 0xF4
      · rw [if_pos h4] at hdec
        rcases rest with _ | ⟨b1, _ | ⟨b2, _ | ⟨b3, r⟩⟩⟩
        · exact absurd hdec bad
        · exact absurd hdec bad
        · exact absurd hdec bad
        · simp only [] at hdec
          by_cases hc : acceptLo b ≤ b1 ∧ b1 ≤ acceptHi b ∧ isCont b2 = true ∧
              isCont b3 = true
          · rw [if_pos hc] at hdec
            simp only [Prod.mk.injEq] at hdec
            obtain ⟨hlo, hhi, hc2, hc3⟩ := hc
            simp only [isCont, Bool.and_eq_true, decide_eq_true_eq] at hc2 hc3
            exact Or.inr (Or.inr ⟨b1, b2, b3, r, rfl, hdec.2.symm, h4.1, h4.2, hlo, hhi,
              hc2.1, hc2.2, hc3.1, hc3.2, hdec.1.symm⟩)
          · rw [if_neg hc] at hdec
            exact absurd hdec bad
      · rw [if_neg h4] at hdec
        exact absurd hdec bad

theorem acceptLo_bounds (b : Nat) :
    0x80 ≤ acceptLo b ∧ (b = 0xE0 → acceptLo b = 0xA0) ∧ (b = 0xF0 → acceptLo b = 0x90) := by
  unfold acceptLo
  split_ifs <;> omega

theorem acceptHi_bounds (b : Nat) :
    acceptHi b ≤ 0xBF ∧ (b = 0xED → acceptHi b = 0x9F) ∧ (b = 0xF4 → acceptHi b = 0x8F) := by
  unfold acceptHi
  split_ifs <;> omega

/-- Encoding the rune of a valid multi-byte decoding gives back the bytes decoded. -/
theorem AppendRune_DecodeRune (b c size : Nat) (rest : Bytes) (hb : ¬ b < 0x80)
    (hdec : DecodeRune (b :: rest) = (c, size))
    (hvalid : ¬ (c = RuneError ∧ size = 1)) :
    AppendRune c = (b :: rest).take size := by
  have hlo := acceptLo_bounds b
  have hhi := acceptHi_bounds b
  rcases DecodeRune_valid_cases b c size rest hb hdec hvalid with
    ⟨b1, r, hr, hs, h1, h2, h3, h4, hc⟩ |
    ⟨b1, b2, r, hr, hs, h1, h2, h3, h4, h5, h6, hc⟩ |
    ⟨b1, b2, b3, r, hr, hs, h1, h2, h3, h4, h5, h6, h7, h8, hc⟩
  · subst hr hs
    have e1 : ¬ c ≤ 0x7F := by omega
    have e2 : c ≤ 0x7FF := by omega
    have e3 : 0xC0 + c / 64 = b := by omega
    have e4 : 0x80 + c % 64 = b1 := by omega
    simp only [AppendRune, if_neg e1, if_pos e2, e3, e4, List.take_succ_cons, List.take_zero]
  · subst hr hs
    have e1 : ¬ c ≤ 0x7F := by omega
    have e2 : ¬ c ≤ 0x7FF := by omega
    have e3 : ¬ (0x10FFFF < c ∨ (0xD800 ≤ c ∧ c ≤ 0xDFFF)) := by omega
    have e4 : c ≤ 0xFFFF := by omega
    have e5 : 0xE0 + c / 4096 = b := by omega
    have e6 : 0x80 + c / 64 % 64 = b1 := by omega
    have e7 : 0x80 + c % 64 = b2 := by omega
    simp only [AppendRune, if_neg e1, if_neg e2, if_neg e3, if_pos e4, e5, e6, e7,
      List.take_succ_cons, List.take_zero]
  · subst hr hs
    have e1 : ¬ c ≤ 0x7F := by omega
    have e2 : ¬ c ≤ 0x7FF := by omega
    have e3 : ¬ (0x10FFFF < c ∨ (0xD800 ≤ c ∧ c ≤ 0xDFFF)) := by omega
    have e4 : ¬ c ≤ 0xFFFF := by omega
    have e5 : 0xF0 + c / 262144 = b := by omega
    have e6 : 0x80 + c / 4096 % 64 = b1 := by omega
    have e7 : 0x80 + c / 64 % 64 = b2 := by omega
    have e8 : 0x80 + c % 64 = b3 := by omega
    simp only [AppendRune, if_neg e1, if_neg e2, if_neg e3, if_neg e4, e5, e6, e7, e8,
      List.take_succ_cons, List.take_zero]

/-- A valid multi-byte decoding looks at the bytes of the rune only. -/
theorem DecodeRune_take_append (b c size : Nat) (rest : Bytes) (hb : ¬ b < 0x80)
    (hdec : DecodeRune (b :: rest) = (c, size))
    (hvalid : ¬ (c = RuneError ∧ size = 1)) (more : Bytes) :
    DecodeRune ((b :: rest).take size ++ more) = (c, size) := by
  rcases DecodeRune_valid_cases b c size rest hb hdec hvalid with
    ⟨b1, r, hr, hs, h1, h2, h3, h4, hc⟩ |
    ⟨b1, b2, r, hr, hs, h1, h2, h3, h4, h5, h6, hc⟩ |
    ⟨b1, b2, b3, r, hr, hs, h1, h2, h3, h4, h5, h6, h7, h8, hc⟩
  · subst hr hs
    have k2 : 0xC2 ≤ b ∧ b ≤ 0xDF := ⟨h1, h2⟩
    have k3 : isCont b1 = true := by simp [isCont, h3, h4]
    simp only [List.take_succ_cons, List.take_zero, List.cons_append, List.nil_append,
      DecodeRune, if_neg hb, if_pos k2, if_pos k3, hc]
  · subst hr hs
    have k2 : ¬ (0xC2 ≤ b ∧ b ≤ 0xDF) := by omega
    have k3 : 0xE0 ≤ b ∧ b ≤ 0xEF := ⟨h1, h2⟩
    have k4 : acceptLo b ≤ b1 ∧ b1 ≤ acceptHi b ∧ isCont b2 = true :=
      ⟨h3, h4, by simp [isCont, h5, h6]⟩
    simp only [List.take_succ_cons, List.take_zero, List.cons_append, List.nil_append,
      DecodeRune, if_neg hb, if_neg k2, if_pos k3, if_pos k4, hc]
  · subst hr hs
    have k2 : ¬ (0xC2 ≤ b ∧ b ≤ 0xDF) := by omega
    have k3 : ¬ (0xE0 ≤ b ∧ b ≤ 0xEF) := by omega
    have k4 : 0xF0 ≤ b ∧ b ≤ 0xF4 := ⟨h1, h2⟩
    have k5 : acceptLo b ≤ b1 ∧ b1 ≤ acceptHi b ∧ isCont b2 = true ∧ isCont b3 = true :=
      ⟨h3, h4, by simp [isCont, h5, h6], by simp [isCont, h7, h8]⟩
    simp only [List.take_succ_cons, List.take_zero, List.cons_append, List.nil_append,
      DecodeRune, if_neg hb, if_neg k2, if_neg k3, if_pos k4, if_pos k5, hc]

/-- The width of a valid multi-byte decoding is at least 2 and within the input. -/
theorem DecodeRune_size (b c size : Nat) (rest : Bytes) (hb : ¬ b < 0x80)
    (hdec : DecodeRune (b :: rest) = (c, size))
    (hvalid : ¬ (c = RuneError ∧ size = 1)) :
    2 ≤ size ∧ size ≤ rest.length + 1 := by
  rcases DecodeRune_valid_cases b c size rest hb hdec hvalid with
    ⟨b1, r, hr, hs, _⟩ | ⟨b1, b2, r, hr, hs, _⟩ | ⟨b1, b2, b3, r, hr, hs, _⟩ <;>
  · subst hr hs
    simp only [List.length_cons]
    omega

/-! ### Reading back what `appendString` writes -/

theorem hexValue_hexDigit (n : Nat) (h : n < 16) : hexValue (hexDigit n) = some n := by
  unfold hexDigit hexValue
  by_cases h10 : n < 10
  · have k : 48 ≤ 48 + n ∧ 48 + n ≤ 57 := by omega
    simp only [if_pos h10, if_pos k]
    congr 1
    omega
  · have k1 : ¬ (48 ≤ 87 + n ∧ 87 + n ≤ 57) := by omega
    have k2 : 97 ≤ 87 + n ∧ 87 + n ≤ 102 := by omega
    simp only [if_neg h10, if_neg k1, if_pos k2]
    congr 1
    omega

theorem getu4_escape (d3 d2 d1 d0 : Nat) (h3 : d3 < 16) (h2 : d2 < 16) (h1 : d1 < 16)
    (h0 : d0 < 16) (more : Bytes) :
    getu4 (92 :: 117 :: hexDigit d3 :: hexDigit d2 :: hexDigit d1 :: hexDigit d0 :: more) =
      some (d3 * 4096 + d2 * 256 + d1 * 16 + d0) := by
  simp [getu4, hexValue_hexDigit, h3, h2, h1, h0]

theorem hexDigit_zero : hexDigit 0 = 48 := rfl

theorem hexDigit_two : hexDigit 2 = 50 := rfl

/-- One step of `readString` over the bytes `appendString` writes for an ASCII byte. -/
theorem readString_ascii (b f : Nat) (hb : b < 0x80) (more : Bytes) :
    readString (f + 1) ((if htmlSafe b then [b] else escapeByte b) ++ more) =
      (readString f more).map (fun p => (b :: p.1, p.2)) := by
  by_cases hs : htmlSafe b = true
  · rw [if_pos hs]
    simp only [htmlSafe, Bool.and_eq_true, decide_eq_true_eq, bne_iff_ne, ne_eq] at hs
    obtain ⟨⟨⟨⟨⟨⟨h20, _⟩, h34⟩, _⟩, _⟩, _⟩, h92⟩ := hs
    have k : ¬ b < 0x20 := by omega
    show readString (f + 1) (b :: more) = _
    simp only [readString, if_neg h34, if_neg h92, if_neg k, if_pos hb]
  · rw [if_neg hs]
    unfold escapeByte
    by_cases h1 : b = 92 ∨ b = 34
    · rw [if_pos h1]
      have e : b = 34 ∨ b = 92 ∨ b = 47 := by omega
      simp [readString, e]
    · rw [if_neg h1]
      by_cases h8 : b = 8
      · subst h8
        simp [readString]
      · rw [if_neg h8]
        by_cases h12 : b = 12
        · subst h12
          simp [readString]
        · rw [if_neg h12]
          by_cases h10 : b = 10
          · subst h10
            simp [readString]
          · rw [if_neg h10]
            by_cases h13 : b = 13
            · subst h13
              simp [readString]
            · rw [if_neg h13]
              by_cases h9 : b = 9
              · subst h9
                simp [readString]
              · rw [if_neg h9]
                have g := getu4_escape 0 0 (b / 16) (b % 16) (by omega) (by omega)
                  (by omega) (by omega) more
                rw [hexDigit_zero] at g
                have hval : 0 * 4096 + 0 * 256 + b / 16 * 16 + b % 16 = b := by omega
                rw [hval] at g
                have hsur : ¬ (0xD800 ≤ b ∧ b < 0xE000) := by omega
                have hone : b ≤ 0x7F := by omega
                simp [readString, g, hsur, AppendRune, hone]

/-- One step of `readString` over a valid multi-byte rune copied as it is. -/
theorem readString_raw (b c size f : Nat) (rest : Bytes) (hb : ¬ b < 0x80)
    (hdec : DecodeRune (b :: rest) = (c, size))
    (hvalid : ¬ (c = RuneError ∧ size = 1)) (more : Bytes) :
    readString (f + 1) ((b :: rest).take size ++ more) =
      (readString f more).map (fun p => ((b :: rest).take size ++ p.1, p.2)) := by
  have hsize := DecodeRune_size b c size rest hb hdec hvalid
  have htake := DecodeRune_take_append b c size rest hb hdec hvalid more
  have henc := AppendRune_DecodeRune b c size rest hb hdec hvalid
  have hlen : ((b :: rest).take size).length = size := by
    simp only [List.length_take, List.length_cons]
    omega
  have hdrop : ((b :: rest).take size ++ more).drop size = more := by
    rw [List.drop_append_eq_append_drop, hlen, List.drop_of_length_le (by omega)]
    simp
  obtain ⟨n, hn⟩ : ∃ n, size = n + 1 := ⟨size - 1, by omega⟩
  have hshape : (b :: rest).take size ++ more = b :: (rest.take n ++ more) := by
    rw [hn]
    rfl
  rw [hshape] at htake hdrop ⊢
  have h34 : ¬ b = 34 := by omega
  have h92 : ¬ b = 92 := by omega
  have h20 : ¬ b < 0x20 := by omega
  simp only [readString, if_neg h34, if_neg h92, if_neg h20, if_neg hb, htake, hdrop, henc]

/-- One step of `readString` over the escape written for U+2028 or U+2029. -/
theorem readString_line_separator (c f : Nat) (hc : c = 0x2028 ∨ c = 0x2029)
    (more : Bytes) :
    readString (f + 1) ([92, 117, 50, 48, 50, hexDigit (c % 16)] ++ more) =
      (readString f more).map (fun p => (AppendRune c ++ p.1, p.2)) := by
  have g := getu4_escape 2 0 2 (c % 16) (by omega) (by omega) (by omega) (by omega) more
  rw [hexDigit_zero, hexDigit_two] at g
  have hval : 2 * 4096 + 0 * 256 + 2 * 16 + c % 16 = c := by omega
  rw [hval] at g
  have hsur : ¬ (0xD800 ≤ c ∧ c < 0xE000) := by omega
  simp [readString, g, hsur]

theorem escapeByte_length_pos (b : Nat) : 0 < (escapeByte b).length := by
  unfold escapeByte
  split_ifs <;> simp

/-- The string round trip: `readString` gives back every valid UTF-8 string from what
`appendString` writes for it, and stops after the closing quote. -/
theorem readString_appendStringLoop :
    ∀ (fuel : Nat) (src : Bytes), src.length ≤ fuel → validLoop fuel src = true →
    ∀ (tail : Bytes) (f : Nat), (appendStringLoop fuel src).length < f →
      readString f (appendStringLoop fuel src ++ 34 :: tail) = some (src, tail) := by
  intro fuel
  induction fuel with
  | zero =>
    intro src hlen _ tail f hf
    have hsrc : src = [] := List.length_eq_zero.mp (Nat.le_zero.mp hlen)
    subst hsrc
    obtain ⟨n, rfl⟩ : ∃ n, f = n + 1 := ⟨f - 1, by omega⟩
    simp [appendStringLoop, readString]
  | succ fuel ih =>
    intro src hlen hvalid tail f hf
    obtain ⟨n, rfl⟩ : ∃ n, f = n + 1 := ⟨f - 1, by omega⟩
    cases src with
    | nil => simp [appendStringLoop, readString]
    | cons b rest =>
      have hrest : rest.length ≤ fuel := by
        simp only [List.length_cons] at hlen
        omega
      by_cases hb : b < 0x80
      · simp only [validLoop, if_pos hb] at hvalid
        simp only [appendStringLoop, if_pos hb] at hf ⊢
        rw [List.append_assoc, readString_ascii b n hb]
        have hpos : 0 < (if htmlSafe b then [b] else escapeByte b).length := by
          split_ifs
          · simp
          · exact escapeByte_length_pos b
        rw [List.length_append] at hf
        rw [ih rest hrest hvalid tail n (by omega)]
        rfl
      · rcases hdec : DecodeRune (b :: rest) with ⟨c, size⟩
        simp only [validLoop, if_neg hb, hdec] at hvalid
        by_cases herr : c = RuneError ∧ size = 1
        · simp [herr] at hvalid
        · rw [if_neg herr] at hvalid
          have hsize := DecodeRune_size b c size rest hb hdec herr
          have hdroplen : ((b :: rest).drop size).length ≤ fuel := by
            simp only [List.length_drop, List.length_cons]
            omega
          simp only [appendStringLoop, if_neg hb, hdec, if_neg herr] at hf ⊢
          by_cases hsep : c = 0x2028 ∨ c = 0x2029
          · rw [if_pos hsep] at hf ⊢
            rw [List.append_assoc, readString_line_separator c n hsep]
            rw [List.length_append] at hf
            rw [ih _ hdroplen hvalid tail n (by simp only [List.length_cons] at hf; omega)]
            simp only [Option.map_some', AppendRune_DecodeRune b c size rest hb hdec herr,
              List.take_append_drop]
          · rw [if_neg hsep] at hf ⊢
            rw [List.append_assoc, readString_raw b c size n rest hb hdec herr]
            rw [List.length_append] at hf
            have htl : ((b :: rest).take size).length = size := by
              simp only [List.length_take, List.length_cons]
              omega
            rw [ih _ hdroplen hvalid tail n (by omega)]
            simp only [Option.map_some', List.take_append_drop]

/-! ### Reading back what `marshalChatMessage` writes -/

theorem skipSpace_cons (b : Nat) (rest : Bytes) (hb : isSpace b = false) :
    skipSpace (b :: rest) = b :: rest := by
  simp [skipSpace, hb]

/-- One member written by the encoder, read by `readMembers`. -/
theorem readMembers_member (fuel : Nat) (key value tail : Bytes) (m : ChatMessageBytes)
    (hfuel : 0 < fuel)
    (hkey : ValidString key = true) (hvalue : ValidString value = true) :
    readMembers fuel
        (34 :: (appendStringLoop key.length key ++ 34 :: 58 :: 34 ::
          (appendStringLoop value.length value ++ 34 :: tail))) m =
      match skipSpace tail with
      | 44 :: r6 => readMembers (fuel - 1) r6 (setField key value m)
      | 125 :: _ => some (setField key value m)
      | _ => none := by
  obtain ⟨n, rfl⟩ : ∃ n, fuel = n + 1 := ⟨fuel - 1, by omega⟩
  have hk := readString_appendStringLoop key.length key (Nat.le_refl _) hkey
    (58 :: 34 :: (appendStringLoop value.length value ++ 34 :: tail))
    (appendStringLoop key.length key ++ 34 :: 58 :: 34 ::
      (appendStringLoop value.length value ++ 34 :: tail)).length
    (by simp)
  have hv := readString_appendStringLoop value.length value (Nat.le_refl _) hvalue tail
    (appendStringLoop value.length value ++ 34 :: tail).length (by simp)
  rw [readMembers, skipSpace_cons 34 _ rfl]
  simp only [hk, skipSpace_cons 58 _ rfl, skipSpace_cons 34 _ rfl, hv, Nat.add_sub_cancel]

theorem ascii_role_written : appendStringLoop (ascii "role").length (ascii "role") =
    ascii "role" := by
  decide

theorem ascii_content_written :
    appendStringLoop (ascii "content").length (ascii "content") = ascii "content" := by
  decide

theorem marshalChatMessage_eq (m : ChatMessageBytes) :
    marshalChatMessage m =
      123 :: 34 :: (appendStringLoop (ascii "role").length (ascii "role") ++
        34 :: 58 :: 34 :: (appendStringLoop m.Role.length m.Role ++ 34 :: 44 :: 34 ::
          (appendStringLoop (ascii "content").length (ascii "content") ++
            34 :: 58 :: 34 :: (appendStringLoop m.Content.length m.Content ++ [34, 125])))) := by
  rw [ascii_role_written, ascii_content_written]
  simp [marshalChatMessage, appendString, List.append_assoc]

/-- The message round trip on bytes: decoding what `json.Marshal` writes for a message
whose two strings are valid UTF-8 gives the message back. -/
theorem decodeChatMessage_marshalChatMessage (m : ChatMessageBytes)
    (hrole : ValidString m.Role = true) (hcontent : ValidString m.Content = true) :
    decodeChatMessage (marshalChatMessage m) = some m := by
  rw [marshalChatMessage_eq, decodeChatMessage, skipSpace_cons 123 _ rfl]
  simp only [skipSpace_cons 34 _ rfl]
  rw [readMembers_member _ (ascii "role") m.Role _ _ (by simp) (by decide) hrole,
    skipSpace_cons 44 _ rfl]
  simp only []
  rw [readMembers_member _ (ascii "content") m.Content _ _
    (by simp only [List.length_cons, List.length_append]; omega) (by decide) hcontent]
  simp [skipSpace, isSpace, setField, foldASCII, ascii]

/-! ### Texts are valid UTF-8 -/

/-- The encoding of a scalar value from 0x80 on is a multi-byte sequence that decodes
to that value with its full width. -/
theorem DecodeRune_AppendRune (n : Nat) (hn : ¬ n < 0x80)
    (hscalar : n < 0xD800 ∨ (0xDFFF < n ∧ n < 0x110000)) (more : Bytes) :
    ∃ b bs, AppendRune n = b :: bs ∧ ¬ b < 0x80 ∧ 1 ≤ bs.length ∧
      DecodeRune (b :: (bs ++ more)) = (n, bs.length + 1) := by
  have e1 : ¬ n ≤ 0x7F := by omega
  by_cases h2 : n ≤ 0x7FF
  · refine ⟨0xC0 + n / 64, [0x80 + n % 64], by simp [AppendRune, e1, h2], by omega,
      by simp, ?_⟩
    have k1 : ¬ 0xC0 + n / 64 < 0x80 := by omega
    have k2 : 0xC2 ≤ 0xC0 + n / 64 ∧ 0xC0 + n / 64 ≤ 0xDF := by omega
    have k3 : isCont (0x80 + n % 64) = true := by
      simp only [isCont, Bool.and_eq_true, decide_eq_true_eq]
      omega
    simp only [List.cons_append, List.nil_append, DecodeRune, if_neg k1, if_pos k2,
      if_pos k3, List.length_cons, List.length_nil, Prod.mk.injEq, and_true]
    omega
  · have e3 : ¬ (0x10FFFF < n ∨ (0xD800 ≤ n ∧ n ≤ 0xDFFF)) := by omega
    by_cases h3 : n ≤ 0xFFFF
    · refine ⟨0xE0 + n / 4096, [0x80 + n / 64 % 64, 0x80 + n % 64],
        by simp [AppendRune, e1, h2, e3, h3], by omega, by simp, ?_⟩
      have k1 : ¬ 0xE0 + n / 4096 < 0x80 := by omega
      have k2 : ¬ (0xC2 ≤ 0xE0 + n / 4096 ∧ 0xE0 + n / 4096 ≤ 0xDF) := by omega
      have k3 : 0xE0 ≤ 0xE0 + n / 4096 ∧ 0xE0 + n / 4096 ≤ 0xEF := by omega
      have k4 : acceptLo (0xE0 + n / 4096) ≤ 0x80 + n / 64 % 64 ∧
          0x80 + n / 64 % 64 ≤ acceptHi (0xE0 + n / 4096) ∧
          isCont (0x80 + n % 64) = true := by
        refine ⟨?_, ?_, ?_⟩
        · unfold acceptLo
          split_ifs <;> omega
        · unfold acceptHi
          split_ifs <;> omega
        · simp only [isCont, Bool.and_eq_true, decide_eq_true_eq]
          omega
      simp only [List.cons_append, List.nil_append, DecodeRune, if_neg k1, if_neg k2,
        if_pos k3, if_pos k4, List.length_cons, List.length_nil, Prod.mk.injEq, and_true]
      omega
    · refine ⟨0xF0 + n / 262144,
        [0x80 + n / 4096 % 64, 0x80 + n / 64 % 64, 0x80 + n % 64],
        by simp [AppendRune, e1, h2, e3, h3], by omega, by simp, ?_⟩
      have k1 : ¬ 0xF0 + n / 262144 < 0x80 := by omega
      have k2 : ¬ (0xC2 ≤ 0xF0 + n / 262144 ∧ 0xF0 + n / 262144 ≤ 0xDF) := by omega
      have k3 : ¬ (0xE0 ≤ 0xF0 + n / 262144 ∧ 0xF0 + n / 262144 ≤ 0xEF) := by omega
      have k4 : 0xF0 ≤ 0xF0 + n / 262144 ∧ 0xF0 + n / 262144 ≤ 0xF4 := by omega
      have k5 : acceptLo (0xF0 + n / 262144) ≤ 0x80 + n / 4096 % 64 ∧
          0x80 + n / 4096 % 64 ≤ acceptHi (0xF0 + n / 262144) ∧
          isCont (0x80 + n / 64 % 64) = true ∧ isCont (0x80 + n % 64) = true := by
        refine ⟨?_, ?_, ?_, ?_⟩
        · unfold acceptLo
          split_ifs <;> omega
        · unfold acceptHi
          split_ifs <;> omega
        · simp only [isCont, Bool.and_eq_true, decide_eq_true_eq]
          omega
        · simp only [isCont, Bool.and_eq_true, decide_eq_true_eq]
          omega
      simp only [List.cons_append, List.nil_append, DecodeRune, if_neg k1, if_neg k2,
        if_neg k3, if_pos k4, if_pos k5, List.length_cons, List.length_nil, Prod.mk.injEq,
        and_true]
      omega

theorem Char_scalar (c : Char) : c.toNat < 0xD800 ∨ (0xDFFF < c.toNat ∧ c.toNat < 0x110000) :=
  c.valid

theorem validLoop_utf8 (l : List Char) :
    ∀ fuel, (l.flatMap (fun c => AppendRune c.toNat)).length ≤ fuel →
      validLoop fuel (l.flatMap (fun c => AppendRune c.toNat)) = true := by
  induction l with
  | nil =>
    intro fuel _
    cases fuel <;> simp [validLoop]
  | cons c cs ih =>
    intro fuel hfuel
    simp only [List.flatMap_cons] at hfuel ⊢
    by_cases hc : c.toNat < 0x80
    · have happ : AppendRune c.toNat = [c.toNat] := by
        simp [AppendRune, show c.toNat ≤ 0x7F by omega]
      rw [happ] at hfuel ⊢
      simp only [List.cons_append, List.nil_append, List.length_cons] at hfuel ⊢
      obtain ⟨n, rfl⟩ : ∃ n, fuel = n + 1 := ⟨fuel - 1, by omega⟩
      simp only [validLoop, if_pos hc]
      exact ih n (by omega)
    · obtain ⟨b, bs, happ, hb, hlen, hdec⟩ :=
        DecodeRune_AppendRune c.toNat hc (Char_scalar c)
          (cs.flatMap (fun c => AppendRune c.toNat))
      rw [happ] at hfuel ⊢
      simp only [List.cons_append, List.length_cons, List.length_append] at hfuel ⊢
      obtain ⟨n, rfl⟩ : ∃ n, fuel = n + 1 := ⟨fuel - 1, by omega⟩
      have herr : ¬ (c.toNat = RuneError ∧ bs.length + 1 = 1) := by omega
      have hdrop : (b :: (bs ++ cs.flatMap (fun c => AppendRune c.toNat))).drop
          (bs.length + 1) = cs.flatMap (fun c => AppendRune c.toNat) := by
        simp
      simp only [validLoop, if_neg hb, hdec, if_neg herr, hdrop]
      exact ih n (by omega)

/-- The bytes of every text are valid UTF-8. -/
theorem ValidString_utf8 (s : String) : ValidString (utf8 s) = true :=
  validLoop_utf8 s.data _ (Nat.le_refl _)

/-! ### What the loop can return -/

theorem pollLoop_ok_status {Any Time : Type} (env : Env Any Time) (c : Client)
    (runID : String) (sched : List Instant) (w w1 : World)
    (task : ParallelTaskResult Any Time)
    (hret : pollLoop env c runID sched w = (.returned (.ok task), w1)) :
    task.Status = "completed" ∨ task.Status = "failed" := by
  induction sched generalizing w with
  | nil => simp [pollLoop] at hret
  | cons i rest ih =>
    cases hs : select i with
    | blocked =>
      simp only [pollLoop, hs] at hret
      exact ih w hret
    | done e =>
      simp [pollLoop, hs] at hret
    | tick =>
      rw [pollLoop_tick env c runID i rest w hs] at hret
      rcases hg : GetTask env c ⟨i.ctxErr⟩ runID w with ⟨r, w2⟩
      rw [hg] at hret
      cases r with
      | error err => simp at hret
      | ok t =>
        simp only [] at hret
        by_cases ht : t.Status = "completed" ∨ t.Status = "failed"
        · rw [if_pos ht] at hret
          simp only [Prod.mk.injEq, PollOutcome.returned.injEq, Except.ok.injEq] at hret
          rw [← hret.1]
          exact ht
        · rw [if_neg ht] at hret
          exact ih w2 hret

theorem pollLoop_not_panicked {Any Time : Type} (env : Env Any Time) (c : Client)
    (runID : String) (sched : List Instant) (w : World) :
    (pollLoop env c runID sched w).1 ≠ .panicked := by
  induction sched generalizing w with
  | nil => simp [pollLoop]
  | cons i rest ih =>
    cases hs : select i with
    | blocked =>
      simp only [pollLoop, hs]
      exact ih w
    | done e => simp [pollLoop, hs]
    | tick =>
      rw [pollLoop_tick env c runID i rest w hs]
      rcases hg : GetTask env c ⟨i.ctxErr⟩ runID w with ⟨r, w2⟩
      cases r with
      | error err => simp
      | ok t =>
        simp only []
        by_cases ht : t.Status = "completed" ∨ t.Status = "failed"
        · rw [if_pos ht]
          simp
        · rw [if_neg ht]
          exact ih w2

/-! ### The handlers once the request is built -/

theorem Search_built {Any Time : Type} (env : Env Any Time) (c : Client) (ctx : Context)
    (req : ParallelSearchRequest) (w : World) (payload : String)
    (hm : env.marshalSearch req = .ok payload)
    (hu : env.urlError (c.baseURL ++ "/search") = none) :
    Search env c ctx req w =
      exchange env env.decodeSearch (keyedPost c ctx (c.baseURL ++ "/search") payload) w := by
  rw [Search_eq, hm, hu]

theorem Extract_built {Any Time : Type} (env : Env Any Time) (c : Client) (ctx : Context)
    (req : ParallelExtractRequest) (w : World) (payload : String)
    (hm : env.marshalExtract req = .ok payload)
    (hu : env.urlError (c.baseURL ++ "/extract") = none) :
    Extract env c ctx req w =
      exchange env env.decodeExtract (keyedPost c ctx (c.baseURL ++ "/extract") payload) w := by
  rw [Extract_eq, hm, hu]

theorem RunTask_built {Any Time : Type} (env : Env Any Time) (c : Client) (ctx : Context)
    (req : ParallelTaskRequest) (w : World) (payload : String)
    (hm : env.marshalTask req = .ok payload)
    (hu : env.urlError (c.baseURL ++ "/tasks/runs") = none) :
    RunTask env c ctx req w =
      exchange env env.decodeTaskResponse
        (keyedPost c ctx (c.baseURL ++ "/tasks/runs") payload) w := by
  rw [RunTask_eq, hm, hu]

theorem GetTask_built {Any Time : Type} (env : Env Any Time) (c : Client) (ctx : Context)
    (runID : String) (w : World)
    (hu : env.urlError (c.baseURL ++ "/tasks/runs/" ++ runID) = none) :
    GetTask env c ctx runID w =
      exchange env env.decodeTaskResult (getTaskRequest c ctx runID) w := by
  rw [GetTask_eq, hu]

theorem Chat_built {Any Time : Type} (env : Env Any Time) (c : Client) (ctx : Context)
    (req : ParallelChatRequest Any) (w : World) (payload : String)
    (hm : env.marshalChat req = .ok payload)
    (hu : env.urlError (c.baseURL ++ "/chat/completions") = none) :
    Chat env c ctx req w = exchange env env.decodeChat (chatRequest c ctx payload) w := by
  rw [Chat_eq, hm, hu]

/-! ### The path of a plain URL -/

theorem cutBefore_of_not_mem (c : Char) (s : List Char) (h : ∀ x ∈ s, x ≠ c) :
    cutBefore c s = s := by
  unfold cutBefore
  rw [List.takeWhile_eq_self_iff]
  intro x hx
  simpa using h x hx

theorem schemeEnd_colon (l more : List Char) :
    ∀ i, 0 < i →
      (∀ x ∈ l, (x.isAlpha || x.isDigit || x == '+' || x == '-' || x == '.') = true) →
      schemeEnd i (l ++ ':' :: more) = some (some (i + l.length)) := by
  induction l with
  | nil =>
    intro i hi _
    have h0 : ¬ i = 0 := by omega
    have h1 : (':' : Char).isAlpha = false := by decide
    have h2 : ((':' : Char).isDigit || ':' == '+' || ':' == '-' || ':' == '.') = false := by
      decide
    simp [schemeEnd, h0, h1, h2]
  | cons x l ih =>
    intro i hi hl
    have hx := hl x (List.mem_cons_self _ _)
    have hrest := ih (i + 1) (by omega) (fun y hy => hl y (List.mem_cons_of_mem _ hy))
    have h0 : ¬ i = 0 := by omega
    have harith : i + 1 + l.length = i + (l.length + 1) := by omega
    rw [harith] at hrest
    rw [List.cons_append, schemeEnd, List.length_cons]
    by_cases ha : x.isAlpha = true
    · rw [if_pos ha, hrest]
    · rw [if_neg ha]
      have hd : (x.isDigit || x == '+' || x == '-' || x == '.') = true := by
        simp only [Bool.not_eq_true] at ha
        simpa [ha] using hx
      rw [if_pos hd, if_neg h0, hrest]

theorem schemeEnd_validScheme (scheme more : List Char) (h : validScheme scheme = true) :
    schemeEnd 0 (scheme ++ ':' :: more) = some (some scheme.length) := by
  cases scheme with
  | nil => simp [validScheme] at h
  | cons x l =>
    simp only [validScheme, Bool.and_eq_true, List.all_eq_true] at h
    have hrest := schemeEnd_colon l more 1 (by omega) h.2
    rw [Nat.add_comm] at hrest
    rw [List.cons_append, schemeEnd, if_pos h.1, hrest, List.length_cons]

theorem validScheme_plain (scheme : List Char) (h : validScheme scheme = true) :
    ∀ x ∈ scheme, x ≠ '#' ∧ x ≠ '?' ∧ x ≠ '%' ∧ x ≠ '*' := by
  have key : ∀ x : Char,
      (x.isAlpha || x.isDigit || x == '+' || x == '-' || x == '.') = true →
      x ≠ '#' ∧ x ≠ '?' ∧ x ≠ '%' ∧ x ≠ '*' := by
    intro x hx
    refine ⟨?_, ?_, ?_, ?_⟩ <;>
    · rintro rfl
      revert hx
      decide
  cases scheme with
  | nil => simp [validScheme] at h
  | cons y l =>
    simp only [validScheme, Bool.and_eq_true, List.all_eq_true] at h
    intro x hx
    rcases List.mem_cons.mp hx with rfl | hx
    · exact key _ (by simp [h.1])
    · exact key _ (h.2 x hx)

theorem dropWhile_authority (auth path : List Char) (hauth : ∀ x ∈ auth, x ≠ '/')
    (hpath : path.head? = some '/') :
    (auth ++ path).dropWhile (fun x => x != '/') = path := by
  induction auth with
  | nil =>
    cases path with
    | nil => simp at hpath
    | cons p ps =>
      simp only [List.head?_cons, Option.some.injEq] at hpath
      subst hpath
      simp [List.dropWhile]
  | cons a auth ih =>
    have ha := hauth a (List.mem_cons_self _ _)
    simp only [List.cons_append, List.dropWhile]
    have : (a != '/') = true := by simpa using ha
    rw [this]
    exact ih (fun x hx => hauth x (List.mem_cons_of_mem _ hx))

/-- The path of a URL made of a scheme, `://`, an authority and a path that starts with
a slash, none of which holds `?`, `#` or `%`, is that path. -/
theorem URLPath_plain (scheme auth path : List Char) (hscheme : validScheme scheme = true)
    (hauth : ∀ x ∈ auth, plainChar x = true ∧ x ≠ '/')
    (hpath : ∀ x ∈ path, plainChar x = true) (hslash : path.head? = some '/') :
    URLPath ⟨scheme ++ ':' :: '/' :: '/' :: (auth ++ path)⟩ = some ⟨path⟩ := by
  have hs := validScheme_plain scheme hscheme
  have plain : ∀ x : Char, plainChar x = true → x ≠ '#' ∧ x ≠ '?' ∧ x ≠ '%' := by
    intro x hx
    simp only [plainChar, Bool.and_eq_true, bne_iff_ne, ne_eq] at hx
    exact ⟨hx.1.2, hx.1.1, hx.2⟩
  have hall : ∀ x ∈ scheme ++ ':' :: '/' :: '/' :: (auth ++ path),
      x ≠ '#' ∧ x ≠ '?' ∧ x ≠ '%' := by
    intro x hx
    simp only [List.mem_append, List.mem_cons] at hx
    rcases hx with hx | rfl | rfl | rfl | hx | hx
    · exact ⟨(hs x hx).1, (hs x hx).2.1, (hs x hx).2.2.1⟩
    · decide
    · decide
    · decide
    · exact plain x (hauth x hx).1
    · exact plain x (hpath x hx)
  have hpct : (scheme ++ ':' :: '/' :: '/' :: (auth ++ path)).contains '%' = false := by
    rw [Bool.eq_false_iff]
    intro hc
    have hm : '%' ∈ scheme ++ ':' :: '/' :: '/' :: (auth ++ path) := by
      simpa using hc
    exact (hall _ hm).2.2 rfl
  have hfrag : cutBefore '#' (scheme ++ ':' :: '/' :: '/' :: (auth ++ path)) =
      scheme ++ ':' :: '/' :: '/' :: (auth ++ path) :=
    cutBefore_of_not_mem _ _ (fun x hx => (hall x hx).1)
  have hstar : scheme ++ ':' :: '/' :: '/' :: (auth ++ path) ≠ ['*'] := by
    intro h
    have := congrArg List.length h
    simp at this
    omega
  have hne : scheme ≠ [] := by
    rintro rfl
    simp [validScheme] at hscheme
  have hquery : cutBefore '?' ('/' :: '/' :: (auth ++ path)) = '/' :: '/' :: (auth ++ path) :=
    cutBefore_of_not_mem _ _ (fun x hx =>
      (hall x (List.mem_append_right _ (List.mem_cons_of_mem _ hx))).2.1)
  unfold URLPath
  simp only [hpct, hfrag, if_neg hstar, schemeEnd_validScheme scheme _ hscheme,
    List.take_left', List.drop_left', Bool.false_eq_true, if_false]
  have htake : (scheme ++ ':' :: '/' :: '/' :: (auth ++ path)).take scheme.length = scheme :=
    List.take_left' rfl
  have hdrop : (scheme ++ ':' :: '/' :: '/' :: (auth ++ path)).drop (scheme.length + 1) =
      '/' :: '/' :: (auth ++ path) := by
    rw [← List.drop_drop, List.drop_left' rfl]
    rfl
  simp only [htake, hdrop, hquery, List.head?_cons]
  have h1 : ((some '/' != some '/') && scheme != []) = false := by simp
  have h2 : ((scheme != [] || !("///".data.isPrefixOf ('/' :: '/' :: (auth ++ path)))) &&
      "//".data.isPrefixOf ('/' :: '/' :: (auth ++ path))) = true := by
    have : (scheme != []) = true := by simpa using hne
    simp [this, List.isPrefixOf]
  rw [h1, h2]
  simp only [Bool.false_eq_true, if_false, if_true, List.drop_succ_cons, List.drop_zero]
  rw [dropWhile_authority auth path (fun x hx => (hauth x hx).2) hslash]

theorem plainChar_of_unreserved (x : Char) (h : unreservedChar x = true) :
    plainChar x = true := by
  by_contra hp
  have hx : x = '?' ∨ x = '#' ∨ x = '%' := by
    simp only [plainChar, Bool.and_eq_true, bne_iff_ne, ne_eq, not_and, Classical.not_not,
      Classical.not_imp] at hp
    by_cases h1 : x = '?'
    · exact Or.inl h1
    · by_cases h2 : x = '#'
      · exact Or.inr (Or.inl h2)
      · exact Or.inr (Or.inr (hp ⟨h1, h2⟩))
  rcases hx with rfl | rfl | rfl <;> exact absurd h (by decide)

/-! ## Lemmas on the decoding of a response body -/

theorem carried_object {n : String} {ns : List String} {body x : Bytes}
    (h : carried (n :: ns) body = some x) :
    ∃ ms j, topValue body = some (.object ms) ∧ member n ms = some j ∧
      (descend ns j).bind spelled = some x := by
  unfold carried at h
  cases ht : topValue body with
  | none => simp [ht] at h
  | some t =>
    rw [ht] at h
    cases t with
    | object ms =>
      simp only [Option.some_bind, descend] at h
      cases hj : member n ms with
      | none => simp [hj] at h
      | some j =>
        rw [hj] at h
        exact ⟨ms, j, rfl, hj, h⟩
    | _ => simp [descend] at h

theorem descend_object {n : String} {ns : List String} {j : JSON} {x : Bytes}
    (h : (descend (n :: ns) j).bind spelled = some x) :
    ∃ ms k, j = .object ms ∧ member n ms = some k ∧
      (descend ns k).bind spelled = some x := by
  cases j with
  | object ms =>
    simp only [descend] at h
    cases hk : member n ms with
    | none => simp [hk] at h
    | some k =>
      rw [hk] at h
      exact ⟨ms, k, rfl, hk, h⟩
  | _ => simp [descend] at h

theorem descend_string {j : JSON} {x : Bytes}
    (h : (descend [] j).bind spelled = some x) : ∃ raw, j = .string x raw := by
  cases j with
  | string s raw =>
    simp only [descend, Option.some_bind, spelled, Option.some.injEq] at h
    exact ⟨raw, by rw [h]⟩
  | _ => simp [descend, spelled] at h

theorem Decode_object {T : Type} {fields : List (Bytes × JSON) → Option T} {body : Bytes}
    {ms : List (Bytes × JSON)} {v : T} (ht : topValue body = some (.object ms))
    (h : Decode fields body = some v) : fields ms = some v := by
  simpa [Decode, ht, structOf] using h

theorem decodeSearchResponse_id {ms : List (Bytes × JSON)} {v : ParallelSearchResponse}
    {x raw : Bytes} (h : decodeSearchResponse ms = some v)
    (hm : member "search_id" ms = some (.string x raw)) : v.SearchID = textOf x := by
  simp only [decodeSearchResponse, hm, Option.bind_eq_bind, Option.pure_def,
    Option.bind_eq_some, stringOf, Option.some_bind, Option.some.injEq] at h
  repeat (obtain ⟨_, _, h⟩ := h)
  rfl

theorem decodeExtractResponse_id {ms : List (Bytes × JSON)} {v : ParallelExtractResponse}
    {x raw : Bytes} (h : decodeExtractResponse ms = some v)
    (hm : member "extract_id" ms = some (.string x raw)) : v.ExtractID = textOf x := by
  simp only [decodeExtractResponse, hm, Option.bind_eq_bind, Option.pure_def,
    Option.bind_eq_some, stringOf, Option.some_bind, Option.some.injEq] at h
  repeat (obtain ⟨_, _, h⟩ := h)
  rfl

theorem decodeTaskOutput_id {Any Time : Type} {lib : Library Any Time}
    {ms : List (Bytes × JSON)} {v : ParallelTaskOutput Any Time} {x raw : Bytes}
    (h : decodeTaskOutput lib ms = some v)
    (hm : member "run_id" ms = some (.string x raw)) : v.RunID = textOf x := by
  simp only [decodeTaskOutput, hm, Option.bind_eq_bind, Option.pure_def,
    Option.bind_eq_some, stringOf, Option.some_bind, Option.some.injEq] at h
  repeat (obtain ⟨_, _, h⟩ := h)
  rfl

theorem decodeTaskResponse_id {Any Time : Type} {lib : Library Any Time}
    {ms oms : List (Bytes × JSON)} {v : ParallelTaskResponse Any Time} {x raw : Bytes}
    (h : decodeTaskResponse lib ms = some v)
    (ho : member "output" ms = some (.object oms))
    (hm : member "run_id" oms = some (.string x raw)) : v.Output.RunID = textOf x := by
  simp only [decodeTaskResponse, ho, Option.bind_eq_bind, Option.pure_def,
    Option.bind_eq_some, structOf, Option.some_bind, Option.some.injEq] at h
  obtain ⟨out, hout, h⟩ := h
  rw [← h]
  exact decodeTaskOutput_id hout hm

theorem decodeTaskResult_id {Any Time : Type} {lib : Library Any Time}
    {ms : List (Bytes × JSON)} {v : ParallelTaskResult Any Time} {x raw : Bytes}
    (h : decodeTaskResult lib ms = some v)
    (hm : member "run_id" ms = some (.string x raw)) : v.RunID = textOf x := by
  simp only [decodeTaskResult, hm, Option.bind_eq_bind, Option.pure_def,
    Option.bind_eq_some, stringOf, Option.some_bind, Option.some.injEq] at h
  repeat (obtain ⟨_, _, h⟩ := h)
  rfl

theorem decodeChatResponse_id {Any Time : Type} {lib : Library Any Time}
    {ms : List (Bytes × JSON)} {v : ParallelChatResponse Any} {x raw : Bytes}
    (h : decodeChatResponse lib ms = some v)
    (hm : member "id" ms = some (.string x raw)) : v.ID = textOf x := by
  simp only [decodeChatResponse, hm, Option.bind_eq_bind, Option.pure_def,
    Option.bind_eq_some, stringOf, Option.some_bind, Option.some.injEq] at h
  repeat (obtain ⟨_, _, h⟩ := h)
  rfl

/-- What a body carries under one tag is what the decoded value holds in the field
read by `get`, when the decoder of the fields stores the string of that tag there. -/
theorem Decode_carried {T : Type} {fields : List (Bytes × JSON) → Option T}
    {body : Bytes} {v : T} {n : String} {x : Bytes} (get : T → String)
    (hfield : ∀ ms raw, fields ms = some v → member n ms = some (.string x raw) →
      get v = textOf x)
    (hd : Decode fields body = some v) (hc : carried [n] body = some x) :
    get v = textOf x := by
  obtain ⟨ms, j, ht, hj, hs⟩ := carried_object hc
  obtain ⟨raw, rfl⟩ := descend_string hs
  exact hfield ms raw (Decode_object ht hd) hj

theorem Decode_carried_output {Any Time : Type} {lib : Library Any Time} {body : Bytes}
    {v : ParallelTaskResponse Any Time} {x : Bytes}
    (hd : Decode (decodeTaskResponse lib) body = some v)
    (hc : carried ["output", "run_id"] body = some x) : v.Output.RunID = textOf x := by
  obtain ⟨ms, j, ht, hj, hs⟩ := carried_object hc
  obtain ⟨oms, k, rfl, hk, hs2⟩ := descend_object hs
  obtain ⟨raw, rfl⟩ := descend_string hs2
  exact decodeTaskResponse_id (Decode_object ht hd) hj hk

theorem jsonEnv_uses (answer : Nat → Request → Except GoError Response) :
    UsesEncodingJSON unitLibrary (jsonEnv answer) := by
  refine ⟨?_, ?_, ?_, ?_, ?_⟩ <;> intro b v he hd <;>
    simp [jsonEnv, modelDecode, he, hd]
/-! ## The properties -/

/-- C1. When the loop is still pending after the scheduling points `pre` (no earlier
poll failed or was terminal, no cancellation was taken) and the next point takes the
ticker case with a GetTask that succeeds with status "completed" or "failed",
PollUntilComplete returns that task result unchanged with a nil error. -/
theorem PollUntilComplete_returns_terminal {Any Time : Type} (env : Env Any Time)
    (c : Client) (runID : String) (interval : Int) (pre : List Instant) (i : Instant)
    (rest : List Instant) (w w1 w2 : World) (task : ParallelTaskResult Any Time)
    (hpos : 0 < interval)
    (hpre : pollLoop env c runID pre w = (.pending, w1))
    (hsel : select i = .tick)
    (hget : GetTask env c ⟨i.ctxErr⟩ runID w1 = (.ok task, w2))
    (hterm : task.Status = "completed" ∨ task.Status = "failed") :
    PollUntilComplete env c runID interval (pre ++ i :: rest) w =
      (.returned (.ok task), w2) := by
  rw [PollUntilComplete_pos env c runID interval _ w hpos,
    pollLoop_append env c runID pre (i :: rest) w w1 hpre,
    pollLoop_tick env c runID i rest w1 hsel, hget]
  simp only [if_pos hterm]

/-- C1, worked example: after two "running" answers, a third poll answered "completed"
is returned as it is with a nil error, and so is one answered "failed". -/
theorem PollUntilComplete_returns_terminal_witness :
    PollUntilComplete (exampleEnv (answerAfter 2 "running" "completed")) testClient
        "test-run-id" 10000000 ([tickOnly, tickOnly] ++ tickOnly :: [tickOnly]) emptyWorld =
      (.returned (.ok (taskWith "" "completed")),
        { sent := List.replicate 3 (getTaskRequest testClient ⟨none⟩ "test-run-id") }) ∧
    PollUntilComplete (exampleEnv (answerAfter 2 "running" "failed")) testClient
        "test-run-id" 10000000 ([tickOnly, tickOnly] ++ tickOnly :: [tickOnly]) emptyWorld =
      (.returned (.ok (taskWith "" "failed")),
        { sent := List.replicate 3 (getTaskRequest testClient ⟨none⟩ "test-run-id") }) :=
  ⟨PollUntilComplete_returns_terminal (exampleEnv (answerAfter 2 "running" "completed"))
      testClient "test-run-id" 10000000 [tickOnly, tickOnly] tickOnly [tickOnly] emptyWorld
      { sent := List.replicate 2 (getTaskRequest testClient ⟨none⟩ "test-run-id") }
      { sent := List.replicate 3 (getTaskRequest testClient ⟨none⟩ "test-run-id") }
      (taskWith "" "completed") (by decide) rfl rfl rfl (Or.inl rfl),
   PollUntilComplete_returns_terminal (exampleEnv (answerAfter 2 "running" "failed"))
      testClient "test-run-id" 10000000 [tickOnly, tickOnly] tickOnly [tickOnly] emptyWorld
      { sent := List.replicate 2 (getTaskRequest testClient ⟨none⟩ "test-run-id") }
      { sent := List.replicate 3 (getTaskRequest testClient ⟨none⟩ "test-run-id") }
      (taskWith "" "failed") (by decide) rfl rfl rfl (Or.inr rfl)⟩

/-- C2. If the endpoint answers GetTask with status "running" for the first N calls and
"completed" at the next one, the context is never cancelled and the ticker fires at
least N+1 times, PollUntilComplete returns the completed result with a nil error and
has sent exactly N+1 GetTask requests, whatever the rest of the schedule holds. -/
theorem PollUntilComplete_running_then_completed {Any Time : Type} (env : Env Any Time)
    (c : Client) (runID : String) (interval : Int) (N : Nat) (sched : List Instant)
    (w : World) (res : Nat → Response) (t : Nat → ParallelTaskResult Any Time)
    (hpos : 0 < interval)
    (hctx : ∀ i ∈ sched, i.ctxErr = none)
    (hticks : N + 1 ≤ sched.countP (fun i => i.tick))
    (hurl : env.urlError (c.baseURL ++ "/tasks/runs/" ++ runID) = none)
    (hres : ∀ k, k ≤ N →
      env.roundTrip (w.sent.length + k) (getTaskRequest c ⟨none⟩ runID) = .ok (res k) ∧
      (res k).StatusCode = StatusOK ∧ env.decodeTaskResult (res k).Body = .ok (t k))
    (hrun : ∀ k, k < N → (t k).Status = "running")
    (hdone : (t N).Status = "completed") :
    PollUntilComplete env c runID interval sched w =
      (.returned (.ok (t N)),
        { sent := w.sent ++ List.replicate (N + 1) (getTaskRequest c ⟨none⟩ runID) }) := by
  rw [PollUntilComplete_pos env c runID interval _ w hpos]
  exact pollLoop_running_then_completed env c runID sched hurl hctx N w res t hticks hres
    hrun hdone

/-- C2, worked example (the repository's test): two "running" answers, then
"completed"; three requests are sent although the ticker fires five times. -/
theorem PollUntilComplete_running_then_completed_witness :
    PollUntilComplete (exampleEnv (answerAfter 2 "running" "completed")) testClient
        "test-run-id" 10000000 [tickOnly, tickOnly, tickOnly, tickOnly, tickOnly] emptyWorld =
      (.returned (.ok (taskWith "" "completed")),
        { sent := List.replicate 3 (getTaskRequest testClient ⟨none⟩ "test-run-id") }) :=
  PollUntilComplete_running_then_completed (exampleEnv (answerAfter 2 "running" "completed"))
    testClient "test-run-id" 10000000 2 [tickOnly, tickOnly, tickOnly, tickOnly, tickOnly]
    emptyWorld
    (fun k => respond "200 OK" 200 (jsonField "status" (if k < 2 then "running" else "completed")))
    (fun k => taskWith "" (if k < 2 then "running" else "completed"))
    (by decide) (by decide) (by decide) rfl
    (fun k hk => ⟨by simp [exampleEnv, answerAfter, emptyWorld], rfl, by
      interval_cases k <;> rfl⟩)
    (fun k hk => by interval_cases k <;> rfl) rfl

/-- C3, counterexample. The context is already cancelled at the first scheduling point,
a tick is pending at that same moment and the runtime picks the ticker case: the
operation does not stop there but calls GetTask with the cancelled context, a request
reaches the HTTP client, and the error returned is the "send request" error of that
call, not `ctx.Err()`. -/
theorem PollUntilComplete_cancel_with_pending_tick :
    select cancelledTickPicked = .tick ∧
    PollUntilComplete (exampleEnv cancelAware) testClient "test-run-id" 10000000
        [cancelledTickPicked] emptyWorld =
      (.returned (.error (Errorf_w "send request: "
          (Errorf_w "Get https://api.parallel.ai/v1beta/tasks/runs/test-run-id: "
            (.ctx .Canceled)))),
        { sent := [getTaskRequest testClient ⟨some .Canceled⟩ "test-run-id"] }) ∧
    (PollUntilComplete (exampleEnv cancelAware) testClient "test-run-id" 10000000
        [cancelledTickPicked] emptyWorld).1 ≠ .returned (.error (.ctx .Canceled)) ∧
    (PollUntilComplete (exampleEnv cancelAware) testClient "test-run-id" 10000000
        [cancelledTickPicked] emptyWorld).2.sent.length = emptyWorld.sent.length + 1 :=
  ⟨rfl, rfl, (fun h => by cases h), rfl⟩

/-- C3, amended. When the loop is still pending after the scheduling points `pre` and
the context is cancelled (or past its deadline) at the next point: if no tick is
pending at that moment, or the runtime's choice between the two ready cases falls on
`ctx.Done()`, PollUntilComplete returns a nil result with `ctx.Err()` and the log of
requests is what it was before that point, so no GetTask call follows; if a tick is
pending and the runtime picks the ticker case, GetTask is called with the cancelled
context and the loop goes on by the result of that call. -/
theorem PollUntilComplete_cancelled {Any Time : Type} (env : Env Any Time)
    (c : Client) (runID : String) (interval : Int) (pre : List Instant) (i : Instant)
    (rest : List Instant) (w w1 : World) (e : CtxErr)
    (hpos : 0 < interval)
    (hpre : pollLoop env c runID pre w = (.pending, w1))
    (hctx : i.ctxErr = some e) :
    (i.tick = false ∨ i.pickTick = false →
      PollUntilComplete env c runID interval (pre ++ i :: rest) w =
        (.returned (.error (.ctx e)), w1)) ∧
    (i.tick = true ∧ i.pickTick = true →
      PollUntilComplete env c runID interval (pre ++ i :: rest) w =
        match GetTask env c ⟨some e⟩ runID w1 with
        | (.error err, w2) => (.returned (.error err), w2)
        | (.ok task, w2) =>
          if task.Status = "completed" ∨ task.Status = "failed" then
            (.returned (.ok task), w2)
          else
            pollLoop env c runID rest w2) := by
  rw [PollUntilComplete_pos env c runID interval _ w hpos,
    pollLoop_append env c runID pre (i :: rest) w w1 hpre]
  constructor
  · intro hdone
    have hsel : select i = .done e := by
      rcases hdone with h | h
      · simp [select, hctx, h]
      · cases ht : i.tick <;> simp [select, hctx, h, ht]
    simp only [pollLoop, hsel]
  · rintro ⟨ht, hp⟩
    have hsel : select i = .tick := by simp [select, hctx, ht, hp]
    rw [pollLoop_tick env c runID i rest w1 hsel, hctx]

/-- C3 amended, worked example: after one "running" poll the context is cancelled while
a tick is pending and the runtime picks `ctx.Done()`; the call returns
`context.Canceled` and the log still holds the single earlier request. -/
theorem PollUntilComplete_cancelled_witness :
    PollUntilComplete (exampleEnv cancelAware) testClient "test-run-id" 10000000
        ([tickOnly] ++ cancelledDonePicked :: [tickOnly]) emptyWorld =
      (.returned (.error (.ctx .Canceled)),
        { sent := [getTaskRequest testClient ⟨none⟩ "test-run-id"] }) :=
  (PollUntilComplete_cancelled (exampleEnv cancelAware) testClient "test-run-id" 10000000
    [tickOnly] cancelledDonePicked [tickOnly] emptyWorld
    { sent := [getTaskRequest testClient ⟨none⟩ "test-run-id"] } .Canceled
    (by decide) rfl rfl).1 (Or.inr rfl)

/-- C4. When the loop is still pending after the scheduling points `pre` and the GetTask
call made at the next tick fails, PollUntilComplete returns a nil result with that same
error, and the log of requests is the one that failed call left, whatever ticks the
rest of the schedule holds: the failed poll is not retried. -/
theorem PollUntilComplete_poll_error {Any Time : Type} (env : Env Any Time)
    (c : Client) (runID : String) (interval : Int) (pre : List Instant) (i : Instant)
    (rest : List Instant) (w w1 w2 : World) (err : GoError)
    (hpos : 0 < interval)
    (hpre : pollLoop env c runID pre w = (.pending, w1))
    (hsel : select i = .tick)
    (hget : (GetTask env c ⟨i.ctxErr⟩ runID w1 :
      Except GoError (ParallelTaskResult Any Time) × World) = (.error err, w2)) :
    PollUntilComplete env c runID interval (pre ++ i :: rest) w =
      (.returned (.error err), w2) := by
  rw [PollUntilComplete_pos env c runID interval _ w hpos,
    pollLoop_append env c runID pre (i :: rest) w w1 hpre,
    pollLoop_tick env c runID i rest w1 hsel, hget]

/-- C4, worked example: the second poll fails at the transport; its error comes back
as GetTask made it, and two requests were sent although three more ticks follow. The
same holds for a first poll answered 500 and for one answered 200 with a malformed
body: one request, the API error or the decode failure returned. -/
theorem PollUntilComplete_poll_error_witness :
    PollUntilComplete (exampleEnv failSecond) testClient "test-run-id" 10000000
        ([tickOnly] ++ tickOnly :: [tickOnly, tickOnly, tickOnly]) emptyWorld =
      (.returned (.error (Errorf_w "send request: " (.errorString "connection refused"))),
        { sent := List.replicate 2 (getTaskRequest testClient ⟨none⟩ "test-run-id") }) ∧
    PollUntilComplete (exampleEnv (always "500 Internal Server Error" 500 "oops")) testClient
        "test-run-id" 10000000 ([] ++ tickOnly :: [tickOnly]) emptyWorld =
      (.returned (.error (.errorString "API error: 500 Internal Server Error — oops")),
        { sent := [getTaskRequest testClient ⟨none⟩ "test-run-id"] }) ∧
    PollUntilComplete (exampleEnv (always "200 OK" 200 "not json")) testClient
        "test-run-id" 10000000 ([] ++ tickOnly :: [tickOnly]) emptyWorld =
      (.returned (.error (Errorf_w "decode response: " (.errorString "invalid character"))),
        { sent := [getTaskRequest testClient ⟨none⟩ "test-run-id"] }) :=
  ⟨PollUntilComplete_poll_error (exampleEnv failSecond) testClient "test-run-id" 10000000
      [tickOnly] tickOnly [tickOnly, tickOnly, tickOnly] emptyWorld
      { sent := List.replicate 1 (getTaskRequest testClient ⟨none⟩ "test-run-id") }
      { sent := List.replicate 2 (getTaskRequest testClient ⟨none⟩ "test-run-id") }
      (Errorf_w "send request: " (.errorString "connection refused"))
      (by decide) rfl rfl rfl,
   PollUntilComplete_poll_error (exampleEnv (always "500 Internal Server Error" 500 "oops"))
      testClient "test-run-id" 10000000 [] tickOnly [tickOnly] emptyWorld emptyWorld
      { sent := [getTaskRequest testClient ⟨none⟩ "test-run-id"] }
      (.errorString "API error: 500 Internal Server Error — oops")
      (by decide) rfl rfl rfl,
   PollUntilComplete_poll_error (exampleEnv (always "200 OK" 200 "not json"))
      testClient "test-run-id" 10000000 [] tickOnly [tickOnly] emptyWorld emptyWorld
      { sent := [getTaskRequest testClient ⟨none⟩ "test-run-id"] }
      (Errorf_w "decode response: " (.errorString "invalid character"))
      (by decide) rfl rfl rfl⟩

/-- C5. When the loop is still pending after the scheduling points `pre` and the next
tick's GetTask succeeds with a status that is neither "completed" nor "failed", the
call does not return at that tick (it is pending if the schedule ends there), it goes
on with the rest of the schedule from the world that poll left, and at the next
scheduling point that takes the ticker case it sends a further GetTask request. -/
theorem PollUntilComplete_stays_pending {Any Time : Type} (env : Env Any Time)
    (c : Client) (runID : String) (interval : Int) (pre : List Instant) (i : Instant)
    (w w1 w2 : World) (task : ParallelTaskResult Any Time)
    (hpos : 0 < interval)
    (hpre : pollLoop env c runID pre w = (.pending, w1))
    (hsel : select i = .tick)
    (hget : GetTask env c ⟨i.ctxErr⟩ runID w1 = (.ok task, w2))
    (hstatus : task.Status ≠ "completed" ∧ task.Status ≠ "failed") :
    PollUntilComplete env c runID interval (pre ++ [i]) w = (.pending, w2) ∧
    (∀ rest, PollUntilComplete env c runID interval (pre ++ i :: rest) w =
      pollLoop env c runID rest w2) ∧
    (∀ j rest, select j = .tick →
      env.urlError (c.baseURL ++ "/tasks/runs/" ++ runID) = none →
      (w2.sent ++ [getTaskRequest c ⟨j.ctxErr⟩ runID]) <+:
        (PollUntilComplete env c runID interval (pre ++ i :: j :: rest) w).2.sent) := by
  have hnt : ¬ (task.Status = "completed" ∨ task.Status = "failed") := by
    rintro (h | h)
    · exact hstatus.1 h
    · exact hstatus.2 h
  have hcont : ∀ rest, PollUntilComplete env c runID interval (pre ++ i :: rest) w =
      pollLoop env c runID rest w2 := by
    intro rest
    rw [PollUntilComplete_pos env c runID interval _ w hpos,
      pollLoop_append env c runID pre (i :: rest) w w1 hpre,
      pollLoop_tick env c runID i rest w1 hsel, hget]
    simp only [if_neg hnt]
  refine ⟨by rw [hcont []]; rfl, hcont, ?_⟩
  intro j rest hj hurl
  rw [hcont (j :: rest), pollLoop_tick env c runID j rest w2 hj]
  have hg : (GetTask env c ⟨j.ctxErr⟩ runID w2).2.sent =
      w2.sent ++ [getTaskRequest c ⟨j.ctxErr⟩ runID] := by
    rw [GetTask_eq, hurl]
    rfl
  rcases hgt : GetTask env c ⟨j.ctxErr⟩ runID w2 with ⟨r, w3⟩
  rw [hgt] at hg
  simp only [] at hg
  rw [← hg]
  cases r with
  | error err => exact List.prefix_refl _
  | ok t =>
    simp only []
    by_cases ht : t.Status = "completed" ∨ t.Status = "failed"
    · rw [if_pos ht]
    · rw [if_neg ht]
      exact pollLoop_sent_prefix env c runID rest w3

/-- C5, worked example: a poll answered "Completed" (capital C) ends nothing; the call
is pending after that tick and a second request goes out at the next tick. -/
theorem PollUntilComplete_stays_pending_witness :
    PollUntilComplete (exampleEnv (answerAfter 1 "Completed" "cancelled")) testClient
        "test-run-id" 10000000 ([] ++ [tickOnly]) emptyWorld =
      (.pending, { sent := [getTaskRequest testClient ⟨none⟩ "test-run-id"] }) ∧
    PollUntilComplete (exampleEnv (answerAfter 1 "Completed" "cancelled")) testClient
        "test-run-id" 10000000 ([] ++ tickOnly :: [tickOnly]) emptyWorld =
      (.pending,
        { sent := List.replicate 2 (getTaskRequest testClient ⟨none⟩ "test-run-id") }) :=
  ⟨(PollUntilComplete_stays_pending (exampleEnv (answerAfter 1 "Completed" "cancelled"))
      testClient "test-run-id" 10000000 [] tickOnly emptyWorld emptyWorld
      { sent := [getTaskRequest testClient ⟨none⟩ "test-run-id"] }
      (taskWith "" "Completed") (by decide) rfl rfl rfl
      ⟨by decide, by decide⟩).1,
   ((PollUntilComplete_stays_pending (exampleEnv (answerAfter 1 "Completed" "cancelled"))
      testClient "test-run-id" 10000000 [] tickOnly emptyWorld emptyWorld
      { sent := [getTaskRequest testClient ⟨none⟩ "test-run-id"] }
      (taskWith "" "Completed") (by decide) rfl rfl rfl
      ⟨by decide, by decide⟩).2.1 [tickOnly]).trans rfl⟩

/-- C6. For each of Search, Extract, RunTask, GetTask and Chat: when the payload
marshals, the URL parses and the HTTP client answers the request the operation builds
with a response whose status code is outside 200..299, the operation returns a nil
result and the error whose message is "API error: ", the status line, " — " and the
raw body text, whatever the body is. -/
theorem api_error_on_non_2xx {Any Time : Type} (env : Env Any Time) (c : Client)
    (ctx : Context) (w : World) (res : Response)
    (hcode : ¬ (200 ≤ res.StatusCode ∧ res.StatusCode < 300)) :
    (∀ req payload, env.marshalSearch req = .ok payload →
      env.urlError (c.baseURL ++ "/search") = none →
      env.roundTrip w.sent.length (keyedPost c ctx (c.baseURL ++ "/search") payload) =
        .ok res →
      (Search env c ctx req w).1 =
        .error (.errorString ("API error: " ++ res.Status ++ " — " ++ res.Body.data))) ∧
    (∀ req payload, env.marshalExtract req = .ok payload →
      env.urlError (c.baseURL ++ "/extract") = none →
      env.roundTrip w.sent.length (keyedPost c ctx (c.baseURL ++ "/extract") payload) =
        .ok res →
      (Extract env c ctx req w).1 =
        .error (.errorString ("API error: " ++ res.Status ++ " — " ++ res.Body.data))) ∧
    (∀ req payload, env.marshalTask req = .ok payload →
      env.urlError (c.baseURL ++ "/tasks/runs") = none →
      env.roundTrip w.sent.length (keyedPost c ctx (c.baseURL ++ "/tasks/runs") payload) =
        .ok res →
      (RunTask env c ctx req w).1 =
        .error (.errorString ("API error: " ++ res.Status ++ " — " ++ res.Body.data))) ∧
    (∀ runID, env.urlError (c.baseURL ++ "/tasks/runs/" ++ runID) = none →
      env.roundTrip w.sent.length (getTaskRequest c ctx runID) = .ok res →
      (GetTask env c ctx runID w).1 =
        .error (.errorString ("API error: " ++ res.Status ++ " — " ++ res.Body.data))) ∧
    (∀ req payload, env.marshalChat req = .ok payload →
      env.urlError (c.baseURL ++ "/chat/completions") = none →
      env.roundTrip w.sent.length (chatRequest c ctx payload) = .ok res →
      (Chat env c ctx req w).1 =
        .error (.errorString ("API error: " ++ res.Status ++ " — " ++ res.Body.data))) := by
  have hne : res.StatusCode ≠ StatusOK := by
    intro h
    apply hcode
    rw [h]
    decide
  refine ⟨?_, ?_, ?_, ?_, ?_⟩
  · intro req payload hm hu hres
    rw [Search_built env c ctx req w payload hm hu]
    exact exchange_api_error env _ _ w res hres hne
  · intro req payload hm hu hres
    rw [Extract_built env c ctx req w payload hm hu]
    exact exchange_api_error env _ _ w res hres hne
  · intro req payload hm hu hres
    rw [RunTask_built env c ctx req w payload hm hu]
    exact exchange_api_error env _ _ w res hres hne
  · intro runID hu hres
    rw [GetTask_built env c ctx runID w hu]
    exact exchange_api_error env _ _ w res hres hne
  · intro req payload hm hu hres
    rw [Chat_built env c ctx req w payload hm hu]
    exact exchange_api_error env _ _ w res hres hne

/-- C6, worked example: status 401 with body "invalid api key" makes each of the five
operations return exactly the error "API error: 401 Unauthorized — invalid api key". -/
theorem api_error_on_non_2xx_witness :
    (Search (exampleEnv (always "401 Unauthorized" 401 "invalid api key"))
        testClient Background zeroSearchRequest emptyWorld).1 =
      .error (.errorString "API error: 401 Unauthorized — invalid api key") ∧
    (Extract (exampleEnv (always "401 Unauthorized" 401 "invalid api key"))
        testClient Background testExtractRequest emptyWorld).1 =
      .error (.errorString "API error: 401 Unauthorized — invalid api key") ∧
    (RunTask (exampleEnv (always "401 Unauthorized" 401 "invalid api key"))
        testClient Background testTaskRequest emptyWorld).1 =
      .error (.errorString "API error: 401 Unauthorized — invalid api key") ∧
    (GetTask (exampleEnv (always "401 Unauthorized" 401 "invalid api key"))
        testClient Background "test-run-id" emptyWorld).1 =
      .error (.errorString "API error: 401 Unauthorized — invalid api key") ∧
    (Chat (exampleEnv (always "401 Unauthorized" 401 "invalid api key"))
        testClient Background testChatRequest emptyWorld).1 =
      .error (.errorString "API error: 401 Unauthorized — invalid api key") :=
  ⟨(api_error_on_non_2xx (exampleEnv (always "401 Unauthorized" 401 "invalid api key"))
      testClient Background emptyWorld (respond "401 Unauthorized" 401 "invalid api key")
      (by decide)).1 zeroSearchRequest "search-payload" rfl rfl rfl,
   (api_error_on_non_2xx (exampleEnv (always "401 Unauthorized" 401 "invalid api key"))
      testClient Background emptyWorld (respond "401 Unauthorized" 401 "invalid api key")
      (by decide)).2.1 testExtractRequest "extract-payload" rfl rfl rfl,
   (api_error_on_non_2xx (exampleEnv (always "401 Unauthorized" 401 "invalid api key"))
      testClient Background emptyWorld (respond "401 Unauthorized" 401 "invalid api key")
      (by decide)).2.2.1 testTaskRequest "task-payload" rfl rfl rfl,
   (api_error_on_non_2xx (exampleEnv (always "401 Unauthorized" 401 "invalid api key"))
      testClient Background emptyWorld (respond "401 Unauthorized" 401 "invalid api key")
      (by decide)).2.2.2.1 "test-run-id" rfl rfl,
   (api_error_on_non_2xx (exampleEnv (always "401 Unauthorized" 401 "invalid api key"))
      testClient Background emptyWorld (respond "401 Unauthorized" 401 "invalid api key")
      (by decide)).2.2.2.2 testChatRequest "chat-payload" rfl rfl rfl⟩

/-- C7, counterexample. A response with the 2xx status 201 and a body the decoder
accepts makes Search return the API error, not the decoded response. -/
theorem Search_201_is_api_error :
    (exampleEnv (always "201 Created" 201 (jsonField "search_id" "X"))).decodeSearch
        (respond "201 Created" 201 (jsonField "search_id" "X")).Body =
      .ok { SearchID := "X", Results := [] } ∧
    (200 ≤ (respond "201 Created" 201 (jsonField "search_id" "X")).StatusCode ∧
      (respond "201 Created" 201 (jsonField "search_id" "X")).StatusCode < 300) ∧
    (Search (exampleEnv (always "201 Created" 201 (jsonField "search_id" "X"))) testClient
        Background zeroSearchRequest emptyWorld).1 =
      .error (.errorString ("API error: 201 Created — " ++ jsonField "search_id" "X")) ∧
    (Search (exampleEnv (always "201 Created" 201 (jsonField "search_id" "X"))) testClient
        Background zeroSearchRequest emptyWorld).1 ≠
      .ok { SearchID := "X", Results := [] } :=
  ⟨rfl, by decide, rfl, (fun h => by cases h)⟩

/-- C7, amended. For each of Search, Extract, RunTask, GetTask and Chat, with decoders
that are those of `encoding/json`: when the payload marshals, the URL parses, the HTTP
client answers the request the operation builds with a response whose status code is
exactly 200 and whose body is read to its end, and the body is JSON that decodes at
the response type to the value `v`, the operation returns a nil error and `v`; and when
the body carries a string under the tag of the identifying field (search_id,
extract_id, run_id inside output for RunTask, run_id, id), the identifying field of
the result (SearchID, ExtractID, Output.RunID, RunID, ID) is that string. -/
theorem decoded_response_on_200 {Any Time : Type} (lib : Library Any Time)
    (env : Env Any Time) (c : Client) (ctx : Context) (w : World)
    (hlib : UsesEncodingJSON lib env) :
    (∀ req payload res v, env.marshalSearch req = .ok payload →
      env.urlError (c.baseURL ++ "/search") = none →
      env.roundTrip w.sent.length (keyedPost c ctx (c.baseURL ++ "/search") payload) = .ok res →
      res.StatusCode = 200 → res.Body.err = none →
      Decode decodeSearchResponse (utf8 res.Body.data) = some v →
      (Search env c ctx req w).1 = .ok v ∧
      ∀ x, carried ["search_id"] (utf8 res.Body.data) = some x →
        (Search env c ctx req w).1.map (fun o => o.SearchID) = .ok (textOf x)) ∧
    (∀ req payload res v, env.marshalExtract req = .ok payload →
      env.urlError (c.baseURL ++ "/extract") = none →
      env.roundTrip w.sent.length (keyedPost c ctx (c.baseURL ++ "/extract") payload) = .ok res →
      res.StatusCode = 200 → res.Body.err = none →
      Decode decodeExtractResponse (utf8 res.Body.data) = some v →
      (Extract env c ctx req w).1 = .ok v ∧
      ∀ x, carried ["extract_id"] (utf8 res.Body.data) = some x →
        (Extract env c ctx req w).1.map (fun o => o.ExtractID) = .ok (textOf x)) ∧
    (∀ req payload res v, env.marshalTask req = .ok payload →
      env.urlError (c.baseURL ++ "/tasks/runs") = none →
      env.roundTrip w.sent.length (keyedPost c ctx (c.baseURL ++ "/tasks/runs") payload) = .ok res →
      res.StatusCode = 200 → res.Body.err = none →
      Decode (decodeTaskResponse lib) (utf8 res.Body.data) = some v →
      (RunTask env c ctx req w).1 = .ok v ∧
      ∀ x, carried ["output", "run_id"] (utf8 res.Body.data) = some x →
        (RunTask env c ctx req w).1.map (fun o => o.Output.RunID) = .ok (textOf x)) ∧
    (∀ runID res v,
      env.urlError (c.baseURL ++ "/tasks/runs/" ++ runID) = none →
      env.roundTrip w.sent.length (getTaskRequest c ctx runID) = .ok res →
      res.StatusCode = 200 → res.Body.err = none →
      Decode (decodeTaskResult lib) (utf8 res.Body.data) = some v →
      (GetTask env c ctx runID w).1 = .ok v ∧
      ∀ x, carried ["run_id"] (utf8 res.Body.data) = some x →
        (GetTask env c ctx runID w).1.map (fun o => o.RunID) = .ok (textOf x)) ∧
    (∀ req payload res v, env.marshalChat req = .ok payload →
      env.urlError (c.baseURL ++ "/chat/completions") = none →
      env.roundTrip w.sent.length (chatRequest c ctx payload) = .ok res →
      res.StatusCode = 200 → res.Body.err = none →
      Decode (decodeChatResponse lib) (utf8 res.Body.data) = some v →
      (Chat env c ctx req w).1 = .ok v ∧
      ∀ x, carried ["id"] (utf8 res.Body.data) = some x →
        (Chat env c ctx req w).1.map (fun o => o.ID) = .ok (textOf x)) := by
  obtain ⟨hsearch, hextract, htask, hresult, hchat⟩ := hlib
  refine ⟨?_, ?_, ?_, ?_, ?_⟩
  · intro req payload res v hm hu hres hcode herr hd
    have hok : (Search env c ctx req w).1 = .ok v := by
      rw [Search_built env c ctx req w payload hm hu]
      exact exchange_ok env _ _ w res v hres hcode (hsearch res.Body v herr hd)
    refine ⟨hok, ?_⟩
    intro x hx
    rw [hok, ← Decode_carried (fun o => o.SearchID)
      (fun ms raw h1 h2 => decodeSearchResponse_id h1 h2) hd hx]
    rfl
  · intro req payload res v hm hu hres hcode herr hd
    have hok : (Extract env c ctx req w).1 = .ok v := by
      rw [Extract_built env c ctx req w payload hm hu]
      exact exchange_ok env _ _ w res v hres hcode (hextract res.Body v herr hd)
    refine ⟨hok, ?_⟩
    intro x hx
    rw [hok, ← Decode_carried (fun o => o.ExtractID)
      (fun ms raw h1 h2 => decodeExtractResponse_id h1 h2) hd hx]
    rfl
  · intro req payload res v hm hu hres hcode herr hd
    have hok : (RunTask env c ctx req w).1 = .ok v := by
      rw [RunTask_built env c ctx req w payload hm hu]
      exact exchange_ok env _ _ w res v hres hcode (htask res.Body v herr hd)
    refine ⟨hok, ?_⟩
    intro x hx
    rw [hok, ← Decode_carried_output hd hx]
    rfl
  · intro runID res v hu hres hcode herr hd
    have hok : (GetTask env c ctx runID w).1 = .ok v := by
      rw [GetTask_built env c ctx runID w hu]
      exact exchange_ok env _ _ w res v hres hcode (hresult res.Body v herr hd)
    refine ⟨hok, ?_⟩
    intro x hx
    rw [hok, ← Decode_carried (fun o => o.RunID)
      (fun ms raw h1 h2 => decodeTaskResult_id h1 h2) hd hx]
    rfl
  · intro req payload res v hm hu hres hcode herr hd
    have hok : (Chat env c ctx req w).1 = .ok v := by
      rw [Chat_built env c ctx req w payload hm hu]
      exact exchange_ok env _ _ w res v hres hcode (hchat res.Body v herr hd)
    refine ⟨hok, ?_⟩
    intro x hx
    rw [hok, ← Decode_carried (fun o => o.ID)
      (fun ms raw h1 h2 => decodeChatResponse_id h1 h2) hd hx]
    rfl

set_option maxRecDepth 100000

/-- C7 amended, worked example: answered with status 200 and the bodies of the
repository's mock servers, each of the five operations returns a nil error and the
decoded response, whose identifying field is the one the body carries
("test-search-id", "test-extract-id", "test-run-id", "test-run-id", "test-chat-id"). -/
theorem decoded_response_on_200_witness :
    ((Search (jsonEnv (always "200 OK" 200 searchBody)) testClient Background
        zeroSearchRequest emptyWorld).1 =
        .ok { SearchID := "test-search-id",
              Results := [{ URL := "https://example.com", Title := "Test Title",
                            Excerpts := [] }] } ∧
      (Search (jsonEnv (always "200 OK" 200 searchBody)) testClient Background
        zeroSearchRequest emptyWorld).1.map (fun o => o.SearchID) = .ok "test-search-id") ∧
    ((Extract (jsonEnv (always "200 OK" 200 extractBody)) testClient Background
        testExtractRequest emptyWorld).1 =
        .ok { ExtractID := "test-extract-id",
              Results := [{ URL := "https://example.com", Title := "Test Extract Title",
                            Excerpts := [], FullContent := "" }],
              Errors := [] } ∧
      (Extract (jsonEnv (always "200 OK" 200 extractBody)) testClient Background
        testExtractRequest emptyWorld).1.map (fun o => o.ExtractID) =
        .ok "test-extract-id") ∧
    ((RunTask (jsonEnv (always "200 OK" 200 runTaskBody)) testClient Background
        testTaskRequest emptyWorld).1 =
        .ok { Output :=
              { Content := zeroContent, Basis := [], RunID := "test-run-id",
                Status := "queued", CreatedAt := (), CompletedAt := (), Processor := "",
                Warnings := (), Error := (), TaskGroup := () } } ∧
      (RunTask (jsonEnv (always "200 OK" 200 runTaskBody)) testClient Background
        testTaskRequest emptyWorld).1.map (fun o => o.Output.RunID) = .ok "test-run-id") ∧
    ((GetTask (jsonEnv (always "200 OK" 200 getTaskBody)) testClient Background
        "test-run-id" emptyWorld).1 = .ok (taskWith "test-run-id" "completed") ∧
      (GetTask (jsonEnv (always "200 OK" 200 getTaskBody)) testClient Background
        "test-run-id" emptyWorld).1.map (fun o => o.RunID) = .ok "test-run-id") ∧
    ((Chat (jsonEnv (always "200 OK" 200 chatBody)) testClient Background testChatRequest
        emptyWorld).1 =
        .ok { ID := "test-chat-id", Object := "", Model := "", Created := 0,
              Choices := [{ Index := 0,
                            Message := { Role := "assistant", Content := "Hello!" },
                            FinishReason := "" }],
              Usage := [] } ∧
      (Chat (jsonEnv (always "200 OK" 200 chatBody)) testClient Background testChatRequest
        emptyWorld).1.map (fun o => o.ID) = .ok "test-chat-id") :=
  ⟨(fun h => ⟨h.1, h.2 (ascii "test-search-id") rfl⟩)
      ((decoded_response_on_200 unitLibrary (jsonEnv (always "200 OK" 200 searchBody))
        testClient Background emptyWorld (jsonEnv_uses _)).1 zeroSearchRequest
        "search-payload" (respond "200 OK" 200 searchBody) _ rfl rfl rfl rfl rfl rfl),
   (fun h => ⟨h.1, h.2 (ascii "test-extract-id") rfl⟩)
      ((decoded_response_on_200 unitLibrary (jsonEnv (always "200 OK" 200 extractBody))
        testClient Background emptyWorld (jsonEnv_uses _)).2.1 testExtractRequest
        "extract-payload" (respond "200 OK" 200 extractBody) _ rfl rfl rfl rfl rfl rfl),
   (fun h => ⟨h.1, h.2 (ascii "test-run-id") rfl⟩)
      ((decoded_response_on_200 unitLibrary (jsonEnv (always "200 OK" 200 runTaskBody))
        testClient Background emptyWorld (jsonEnv_uses _)).2.2.1 testTaskRequest
        "task-payload" (respond "200 OK" 200 runTaskBody) _ rfl rfl rfl rfl rfl rfl),
   (fun h => ⟨h.1, h.2 (ascii "test-run-id") rfl⟩)
      ((decoded_response_on_200 unitLibrary (jsonEnv (always "200 OK" 200 getTaskBody))
        testClient Background emptyWorld (jsonEnv_uses _)).2.2.2.1 "test-run-id"
        (respond "200 OK" 200 getTaskBody) _ rfl rfl rfl rfl rfl),
   (fun h => ⟨h.1, h.2 (ascii "test-chat-id") rfl⟩)
      ((decoded_response_on_200 unitLibrary (jsonEnv (always "200 OK" 200 chatBody))
        testClient Background emptyWorld (jsonEnv_uses _)).2.2.2.2 testChatRequest
        "chat-payload" (respond "200 OK" 200 chatBody) _ rfl rfl rfl rfl rfl rfl)⟩

/-- C8. Whenever the payload marshals and the URL parses, Search, Extract and RunTask
each hand the HTTP client one request, which carries exactly the credential under
x-api-key, exactly the beta tag under parallel-beta, no Authorization value and
Content-Type application/json; GetTask hands it one request with the same x-api-key and
parallel-beta, no Authorization and no Content-Type; Chat hands it one request with
Authorization "Bearer " followed by the credential, Content-Type application/json, and
neither x-api-key nor parallel-beta. -/
theorem request_headers {Any Time : Type} (env : Env Any Time) (c : Client)
    (ctx : Context) (w : World) :
    (∀ req payload, env.marshalSearch req = .ok payload →
      env.urlError (c.baseURL ++ "/search") = none →
      ∃ r, (Search env c ctx req w).2.sent = w.sent ++ [r] ∧
        r.Header.Values "x-api-key" = [c.apiKey] ∧
        r.Header.Values "parallel-beta" = [c.betaTag] ∧
        r.Header.Values "Authorization" = [] ∧
        r.Header.Values "Content-Type" = ["application/json"]) ∧
    (∀ req payload, env.marshalExtract req = .ok payload →
      env.urlError (c.baseURL ++ "/extract") = none →
      ∃ r, (Extract env c ctx req w).2.sent = w.sent ++ [r] ∧
        r.Header.Values "x-api-key" = [c.apiKey] ∧
        r.Header.Values "parallel-beta" = [c.betaTag] ∧
        r.Header.Values "Authorization" = [] ∧
        r.Header.Values "Content-Type" = ["application/json"]) ∧
    (∀ req payload, env.marshalTask req = .ok payload →
      env.urlError (c.baseURL ++ "/tasks/runs") = none →
      ∃ r, (RunTask env c ctx req w).2.sent = w.sent ++ [r] ∧
        r.Header.Values "x-api-key" = [c.apiKey] ∧
        r.Header.Values "parallel-beta" = [c.betaTag] ∧
        r.Header.Values "Authorization" = [] ∧
        r.Header.Values "Content-Type" = ["application/json"]) ∧
    (∀ runID, env.urlError (c.baseURL ++ "/tasks/runs/" ++ runID) = none →
      ∃ r, (GetTask env c ctx runID w).2.sent = w.sent ++ [r] ∧
        r.Header.Values "x-api-key" = [c.apiKey] ∧
        r.Header.Values "parallel-beta" = [c.betaTag] ∧
        r.Header.Values "Authorization" = [] ∧
        r.Header.Values "Content-Type" = []) ∧
    (∀ req payload, env.marshalChat req = .ok payload →
      env.urlError (c.baseURL ++ "/chat/completions") = none →
      ∃ r, (Chat env c ctx req w).2.sent = w.sent ++ [r] ∧
        r.Header.Values "Authorization" = ["Bearer " ++ c.apiKey] ∧
        r.Header.Values "x-api-key" = [] ∧
        r.Header.Values "parallel-beta" = [] ∧
        r.Header.Values "Content-Type" = ["application/json"]) := by
  refine ⟨?_, ?_, ?_, ?_, ?_⟩
  · intro req payload hm hu
    rw [Search_built env c ctx req w payload hm hu]
    exact ⟨_, rfl, keyedPost_headers c ctx _ payload⟩
  · intro req payload hm hu
    rw [Extract_built env c ctx req w payload hm hu]
    exact ⟨_, rfl, keyedPost_headers c ctx _ payload⟩
  · intro req payload hm hu
    rw [RunTask_built env c ctx req w payload hm hu]
    exact ⟨_, rfl, keyedPost_headers c ctx _ payload⟩
  · intro runID hu
    rw [GetTask_built env c ctx runID w hu]
    exact ⟨_, rfl, getTaskRequest_headers c ctx runID⟩
  · intro req payload hm hu
    rw [Chat_built env c ctx req w payload hm hu]
    exact ⟨_, rfl, chatRequest_headers c ctx payload⟩

/-- C8, worked example: for the client of the tests each of the five operations sends
one request; those of Search, Extract, RunTask and GetTask have x-api-key
"test-api-key", the one of GetTask has no Content-Type, and the one of Chat has
Authorization "Bearer test-api-key" and no x-api-key. -/
theorem request_headers_witness :
    (∃ r, (Search (exampleEnv (always "200 OK" 200 (jsonField "search_id" "X"))) testClient
        Background zeroSearchRequest emptyWorld).2.sent = emptyWorld.sent ++ [r] ∧
      r.Header.Values "x-api-key" = ["test-api-key"]) ∧
    (∃ r, (Extract (exampleEnv (always "200 OK" 200 (jsonField "extract_id" "X"))) testClient
        Background testExtractRequest emptyWorld).2.sent = emptyWorld.sent ++ [r] ∧
      r.Header.Values "x-api-key" = ["test-api-key"]) ∧
    (∃ r, (RunTask (exampleEnv (always "200 OK" 200 "not json")) testClient
        Background testTaskRequest emptyWorld).2.sent = emptyWorld.sent ++ [r] ∧
      r.Header.Values "x-api-key" = ["test-api-key"]) ∧
    (∃ r, (GetTask (exampleEnv (always "200 OK" 200 (jsonField "status" "running")))
        testClient Background "test-run-id" emptyWorld).2.sent = emptyWorld.sent ++ [r] ∧
      r.Header.Values "x-api-key" = ["test-api-key"] ∧
      r.Header.Values "Content-Type" = []) ∧
    (∃ r, (Chat (exampleEnv (always "200 OK" 200 (jsonField "id" "X"))) testClient
        Background testChatRequest emptyWorld).2.sent = emptyWorld.sent ++ [r] ∧
      r.Header.Values "Authorization" = ["Bearer test-api-key"] ∧
      r.Header.Values "x-api-key" = []) :=
  ⟨((request_headers (exampleEnv (always "200 OK" 200 (jsonField "search_id" "X")))
      testClient Background emptyWorld).1 zeroSearchRequest "search-payload" rfl rfl).imp
      (fun _ h => ⟨h.1, h.2.1⟩),
   ((request_headers (exampleEnv (always "200 OK" 200 (jsonField "extract_id" "X")))
      testClient Background emptyWorld).2.1 testExtractRequest "extract-payload" rfl rfl).imp
      (fun _ h => ⟨h.1, h.2.1⟩),
   ((request_headers (exampleEnv (always "200 OK" 200 "not json"))
      testClient Background emptyWorld).2.2.1 testTaskRequest "task-payload" rfl rfl).imp
      (fun _ h => ⟨h.1, h.2.1⟩),
   ((request_headers (exampleEnv (always "200 OK" 200 (jsonField "status" "running")))
      testClient Background emptyWorld).2.2.2.1 "test-run-id" rfl).imp
      (fun _ h => ⟨h.1, h.2.1, h.2.2.2.2⟩),
   ((request_headers (exampleEnv (always "200 OK" 200 (jsonField "id" "X")))
      testClient Background emptyWorld).2.2.2.2 testChatRequest "chat-payload" rfl rfl).imp
      (fun _ h => ⟨h.1, h.2.1, h.2.2.1⟩)⟩

/-- C9, counterexample. For the run identifier "x?y=1" GetTask sends a GET whose URL
string ends in "/tasks/runs/x?y=1", but the path of that URL is "/v1beta/tasks/runs/x":
what follows the question mark is the query, and the path does not end in
"/tasks/runs/" followed by the run identifier. -/
theorem GetTask_path_cut_at_query :
    (GetTask (exampleEnv (always "200 OK" 200 (jsonField "status" "completed"))) testClient
        Background "x?y=1" emptyWorld).2.sent =
      [getTaskRequest testClient Background "x?y=1"] ∧
    (getTaskRequest testClient Background "x?y=1").URL =
      "https://api.parallel.ai/v1beta/tasks/runs/x?y=1" ∧
    URLPath (getTaskRequest testClient Background "x?y=1").URL =
      some "/v1beta/tasks/runs/x" ∧
    ¬ ("/tasks/runs/" ++ "x?y=1").data <:+ "/v1beta/tasks/runs/x".data := by
  decide

/-- C9, amended. Whenever the payload marshals and the URL parses, Search hands the
HTTP client one request, a POST to the base URL followed by "/search", Extract a POST
to "/extract", RunTask a POST to "/tasks/runs", Chat a POST to "/chat/completions", and
GetTask, whenever the URL parses, one GET without body to the base URL followed by
"/tasks/runs/" and the run identifier. When the base URL is a scheme, "://", an
authority without "/", "?", "#" and "%", and a prefix that is empty or starts with a
slash, and the prefix, apart from its slashes, and the run identifier consist of
unreserved characters (letters, digits, "-", "_", ".", "~"), the path of that URL is
the prefix followed by "/tasks/runs/" and the run identifier, so it ends in
"/tasks/runs/" followed by the run identifier. -/
theorem request_endpoints {Any Time : Type} (env : Env Any Time) (c : Client)
    (ctx : Context) (w : World) :
    (∀ req payload, env.marshalSearch req = .ok payload →
      env.urlError (c.baseURL ++ "/search") = none →
      ∃ r, (Search env c ctx req w).2.sent = w.sent ++ [r] ∧
        r.Method = "POST" ∧ r.URL = c.baseURL ++ "/search") ∧
    (∀ req payload, env.marshalExtract req = .ok payload →
      env.urlError (c.baseURL ++ "/extract") = none →
      ∃ r, (Extract env c ctx req w).2.sent = w.sent ++ [r] ∧
        r.Method = "POST" ∧ r.URL = c.baseURL ++ "/extract") ∧
    (∀ req payload, env.marshalTask req = .ok payload →
      env.urlError (c.baseURL ++ "/tasks/runs") = none →
      ∃ r, (RunTask env c ctx req w).2.sent = w.sent ++ [r] ∧
        r.Method = "POST" ∧ r.URL = c.baseURL ++ "/tasks/runs") ∧
    (∀ req payload, env.marshalChat req = .ok payload →
      env.urlError (c.baseURL ++ "/chat/completions") = none →
      ∃ r, (Chat env c ctx req w).2.sent = w.sent ++ [r] ∧
        r.Method = "POST" ∧ r.URL = c.baseURL ++ "/chat/completions") ∧
    (∀ runID, env.urlError (c.baseURL ++ "/tasks/runs/" ++ runID) = none →
      ∃ r, (GetTask env c ctx runID w).2.sent = w.sent ++ [r] ∧
        r.Method = "GET" ∧ r.Body = none ∧
        r.URL = c.baseURL ++ "/tasks/runs/" ++ runID ∧
        ∀ scheme auth pre : List Char,
          c.baseURL.data = scheme ++ ':' :: '/' :: '/' :: (auth ++ pre) →
          validScheme scheme = true →
          (∀ x ∈ auth, plainChar x = true ∧ x ≠ '/') →
          (∀ x ∈ pre, unreservedChar x = true ∨ x = '/') →
          (pre = [] ∨ pre.head? = some '/') →
          (∀ x ∈ runID.data, unreservedChar x = true) →
          URLPath r.URL = some (⟨pre⟩ ++ "/tasks/runs/" ++ runID) ∧
          ("/tasks/runs/" ++ runID).data <:+
            ((⟨pre⟩ : String) ++ "/tasks/runs/" ++ runID).data) := by
  refine ⟨?_, ?_, ?_, ?_, ?_⟩
  · intro req payload hm hu
    rw [Search_built env c ctx req w payload hm hu]
    exact ⟨_, rfl, rfl, rfl⟩
  · intro req payload hm hu
    rw [Extract_built env c ctx req w payload hm hu]
    exact ⟨_, rfl, rfl, rfl⟩
  · intro req payload hm hu
    rw [RunTask_built env c ctx req w payload hm hu]
    exact ⟨_, rfl, rfl, rfl⟩
  · intro req payload hm hu
    rw [Chat_built env c ctx req w payload hm hu]
    exact ⟨_, rfl, rfl, rfl⟩
  · intro runID hu
    rw [GetTask_built env c ctx runID w hu]
    refine ⟨getTaskRequest c ctx runID, rfl, rfl, rfl, rfl, ?_⟩
    intro scheme auth pre hbase hscheme hauth hpre0 hslash hid0
    have hpre : ∀ x ∈ pre, plainChar x = true := by
      intro x hx
      rcases hpre0 x hx with h | rfl
      · exact plainChar_of_unreserved x h
      · rfl
    have hid : ∀ x ∈ runID.data, plainChar x = true :=
      fun x hx => plainChar_of_unreserved x (hid0 x hx)
    have hlit : ∀ x ∈ "/tasks/runs/".data, plainChar x = true := by decide
    have htail : ∀ x ∈ "/tasks/runs/".data ++ runID.data, plainChar x = true := by
      intro x hx
      rcases List.mem_append.mp hx with hx | hx
      · exact hlit x hx
      · exact hid x hx
    have hpath : ∀ x ∈ pre ++ ("/tasks/runs/".data ++ runID.data), plainChar x = true := by
      intro x hx
      rcases List.mem_append.mp hx with hx | hx
      · exact hpre x hx
      · exact htail x hx
    have hhead : (pre ++ ("/tasks/runs/".data ++ runID.data)).head? = some '/' := by
      rcases hslash with rfl | h
      · rfl
      · cases pre with
        | nil => simp at h
        | cons p ps => simpa using h
    have hurl : (getTaskRequest c ctx runID).URL =
        ⟨scheme ++ ':' :: '/' :: '/' :: (auth ++ (pre ++ ("/tasks/runs/".data ++ runID.data)))⟩ := by
      apply String.ext
      show (c.baseURL ++ "/tasks/runs/" ++ runID).data = _
      simp only [String.data_append, hbase, List.append_assoc, List.cons_append]
    have hres : (⟨pre ++ ("/tasks/runs/".data ++ runID.data)⟩ : String) =
        ⟨pre⟩ ++ "/tasks/runs/" ++ runID := by
      apply String.ext
      simp only [String.data_append, List.append_assoc]
    constructor
    · rw [hurl, URLPath_plain scheme auth _ hscheme hauth hpath hhead, hres]
    · simp only [String.data_append, List.append_assoc]
      exact List.suffix_append _ _

/-- C9 amended, worked example (the repository's tests): for the base URL
"https://api.parallel.ai/v1beta" GetTask("test-run-id") sends one GET without body whose
path is "/v1beta/tasks/runs/test-run-id", and Search, Extract, RunTask and Chat each
send one POST to the base URL followed by "/search", "/extract", "/tasks/runs" and
"/chat/completions". -/
theorem request_endpoints_witness :
    (∃ r, (GetTask (exampleEnv (always "200 OK" 200 (jsonField "status" "completed")))
        testClient Background "test-run-id" emptyWorld).2.sent = emptyWorld.sent ++ [r] ∧
      r.Method = "GET" ∧ r.Body = none ∧
      URLPath r.URL = some "/v1beta/tasks/runs/test-run-id") ∧
    (∃ r, (Search (exampleEnv (always "200 OK" 200 (jsonField "search_id" "X"))) testClient
        Background zeroSearchRequest emptyWorld).2.sent = emptyWorld.sent ++ [r] ∧
      r.Method = "POST" ∧ r.URL = "https://api.parallel.ai/v1beta/search") ∧
    (∃ r, (Extract (exampleEnv (always "200 OK" 200 (jsonField "extract_id" "X")))
        testClient Background testExtractRequest emptyWorld).2.sent =
        emptyWorld.sent ++ [r] ∧
      r.Method = "POST" ∧ r.URL = "https://api.parallel.ai/v1beta/extract") ∧
    (∃ r, (RunTask (exampleEnv (always "200 OK" 200 (jsonField "run_id" "X"))) testClient
        Background testTaskRequest emptyWorld).2.sent = emptyWorld.sent ++ [r] ∧
      r.Method = "POST" ∧ r.URL = "https://api.parallel.ai/v1beta/tasks/runs") ∧
    (∃ r, (Chat (exampleEnv (always "200 OK" 200 (jsonField "id" "X"))) testClient
        Background testChatRequest emptyWorld).2.sent = emptyWorld.sent ++ [r] ∧
      r.Method = "POST" ∧ r.URL = "https://api.parallel.ai/v1beta/chat/completions") :=
  ⟨((request_endpoints (exampleEnv (always "200 OK" 200 (jsonField "status" "completed")))
      testClient Background emptyWorld).2.2.2.2 "test-run-id" rfl).imp
      (fun _ h => ⟨h.1, h.2.1, h.2.2.1,
        (h.2.2.2.2 "https".data "api.parallel.ai".data "/v1beta".data rfl (by decide)
          (by decide) (by decide) (Or.inr rfl) (by decide)).1⟩),
   ((request_endpoints (exampleEnv (always "200 OK" 200 (jsonField "search_id" "X")))
      testClient Background emptyWorld).1 zeroSearchRequest "search-payload" rfl rfl).imp
      (fun _ h => ⟨h.1, h.2.1, h.2.2⟩),
   ((request_endpoints (exampleEnv (always "200 OK" 200 (jsonField "extract_id" "X")))
      testClient Background emptyWorld).2.1 testExtractRequest "extract-payload" rfl
      rfl).imp (fun _ h => ⟨h.1, h.2.1, h.2.2⟩),
   ((request_endpoints (exampleEnv (always "200 OK" 200 (jsonField "run_id" "X")))
      testClient Background emptyWorld).2.2.1 testTaskRequest "task-payload" rfl rfl).imp
      (fun _ h => ⟨h.1, h.2.1, h.2.2⟩),
   ((request_endpoints (exampleEnv (always "200 OK" 200 (jsonField "id" "X")))
      testClient Background emptyWorld).2.2.2.1 testChatRequest "chat-payload" rfl rfl).imp
      (fun _ h => ⟨h.1, h.2.1, h.2.2⟩)⟩

/-- C10, counterexample. A response with the 2xx status 202 whose body the decoder
rejects makes Chat return an API error, not a decode failure. -/
theorem Chat_202_malformed_is_api_error :
    (exampleEnv (always "202 Accepted" 202 "not json")).decodeChat
        (respond "202 Accepted" 202 "not json").Body =
      .error (.errorString "invalid character") ∧
    (Chat (exampleEnv (always "202 Accepted" 202 "not json")) testClient Background
        testChatRequest emptyWorld).1 =
      .error (.errorString "API error: 202 Accepted — not json") ∧
    IsAPIError (.errorString "API error: 202 Accepted — not json") = true ∧
    IsDecodeFailure (.errorString "API error: 202 Accepted — not json") = false :=
  ⟨rfl, rfl, by decide, by decide⟩

/-- C10, amended. For each of the five operations, whenever the payload marshals and
the URL parses: when the HTTP client gives no response for the request the operation
builds, the result is nil with the error "send request: " wrapping the transport
error; when the response's status code is not 200 it is nil with the API error; when
the status code is 200 and the body cannot be decoded it is nil with the error
"decode response: " wrapping the decoder's error. The three kinds are told apart by
their message prefix and no error belongs to two of them. -/
theorem failure_kinds_distinct {Any Time : Type} (env : Env Any Time) (c : Client)
    (ctx : Context) (w : World) :
    (∀ req payload, env.marshalSearch req = .ok payload →
      env.urlError (c.baseURL ++ "/search") = none →
      SurfacesFailureKinds env env.decodeSearch w
        (keyedPost c ctx (c.baseURL ++ "/search") payload) (Search env c ctx req w).1) ∧
    (∀ req payload, env.marshalExtract req = .ok payload →
      env.urlError (c.baseURL ++ "/extract") = none →
      SurfacesFailureKinds env env.decodeExtract w
        (keyedPost c ctx (c.baseURL ++ "/extract") payload) (Extract env c ctx req w).1) ∧
    (∀ req payload, env.marshalTask req = .ok payload →
      env.urlError (c.baseURL ++ "/tasks/runs") = none →
      SurfacesFailureKinds env env.decodeTaskResponse w
        (keyedPost c ctx (c.baseURL ++ "/tasks/runs") payload) (RunTask env c ctx req w).1) ∧
    (∀ runID, env.urlError (c.baseURL ++ "/tasks/runs/" ++ runID) = none →
      SurfacesFailureKinds env env.decodeTaskResult w (getTaskRequest c ctx runID)
        (GetTask env c ctx runID w).1) ∧
    (∀ req payload, env.marshalChat req = .ok payload →
      env.urlError (c.baseURL ++ "/chat/completions") = none →
      SurfacesFailureKinds env env.decodeChat w (chatRequest c ctx payload)
        (Chat env c ctx req w).1) ∧
    (∀ e, IsTransportFailure (Errorf_w "send request: " e) = true) ∧
    (∀ status body,
      IsAPIError (.errorString ("API error: " ++ status ++ " — " ++ body)) = true) ∧
    (∀ e, IsDecodeFailure (Errorf_w "decode response: " e) = true) ∧
    (∀ err : GoError,
      ¬ (IsTransportFailure err = true ∧ IsAPIError err = true) ∧
      ¬ (IsTransportFailure err = true ∧ IsDecodeFailure err = true) ∧
      ¬ (IsAPIError err = true ∧ IsDecodeFailure err = true)) := by
  refine ⟨?_, ?_, ?_, ?_, ?_, ?_, ?_, ?_, ?_⟩
  · intro req payload hm hu
    rw [Search_built env c ctx req w payload hm hu]
    exact exchange_surfaces env _ _ w
  · intro req payload hm hu
    rw [Extract_built env c ctx req w payload hm hu]
    exact exchange_surfaces env _ _ w
  · intro req payload hm hu
    rw [RunTask_built env c ctx req w payload hm hu]
    exact exchange_surfaces env _ _ w
  · intro runID hu
    rw [GetTask_built env c ctx runID w hu]
    exact exchange_surfaces env _ _ w
  · intro req payload hm hu
    rw [Chat_built env c ctx req w payload hm hu]
    exact exchange_surfaces env _ _ w
  · intro e
    exact HasPrefix_append _ _
  · intro status body
    show HasPrefix ("API error: " ++ status ++ " — " ++ body) "API error: " = true
    rw [String.append_assoc, String.append_assoc]
    exact HasPrefix_append _ _
  · intro e
    exact HasPrefix_append _ _
  · intro err
    refine ⟨?_, ?_, ?_⟩
    · rintro ⟨h1, h2⟩
      have a := HasPrefix_head err.Error "send request: " 's' "end request: ".data rfl h1
      have b := HasPrefix_head err.Error "API error: " 'A' "PI error: ".data rfl h2
      rw [a] at b
      exact absurd b (by decide)
    · rintro ⟨h1, h2⟩
      have a := HasPrefix_head err.Error "send request: " 's' "end request: ".data rfl h1
      have b := HasPrefix_head err.Error "decode response: " 'd' "ecode response: ".data
        rfl h2
      rw [a] at b
      exact absurd b (by decide)
    · rintro ⟨h1, h2⟩
      have a := HasPrefix_head err.Error "API error: " 'A' "PI error: ".data rfl h1
      have b := HasPrefix_head err.Error "decode response: " 'd' "ecode response: ".data
        rfl h2
      rw [a] at b
      exact absurd b (by decide)

/-- C10 amended, worked example: for each of the five operations a refused connection
gives the error "send request: connection refused", a 500 response the API error, and
a 200 response with the body "not json" the error "decode response: invalid
character". -/
theorem failure_kinds_distinct_witness :
    (Search (exampleEnv (fun _ _ => .error (.errorString "connection refused"))) testClient
        Background zeroSearchRequest emptyWorld).1 =
      .error (Errorf_w "send request: " (.errorString "connection refused")) ∧
    (Search (exampleEnv (always "500 Internal Server Error" 500 "oops")) testClient
        Background zeroSearchRequest emptyWorld).1 =
      .error (.errorString "API error: 500 Internal Server Error — oops") ∧
    (Search (exampleEnv (always "200 OK" 200 "not json")) testClient
        Background zeroSearchRequest emptyWorld).1 =
      .error (Errorf_w "decode response: " (.errorString "invalid character")) ∧
    (Extract (exampleEnv (fun _ _ => .error (.errorString "connection refused"))) testClient
        Background testExtractRequest emptyWorld).1 =
      .error (Errorf_w "send request: " (.errorString "connection refused")) ∧
    (Extract (exampleEnv (always "500 Internal Server Error" 500 "oops")) testClient
        Background testExtractRequest emptyWorld).1 =
      .error (.errorString "API error: 500 Internal Server Error — oops") ∧
    (Extract (exampleEnv (always "200 OK" 200 "not json")) testClient
        Background testExtractRequest emptyWorld).1 =
      .error (Errorf_w "decode response: " (.errorString "invalid character")) ∧
    (RunTask (exampleEnv (fun _ _ => .error (.errorString "connection refused"))) testClient
        Background testTaskRequest emptyWorld).1 =
      .error (Errorf_w "send request: " (.errorString "connection refused")) ∧
    (RunTask (exampleEnv (always "500 Internal Server Error" 500 "oops")) testClient
        Background testTaskRequest emptyWorld).1 =
      .error (.errorString "API error: 500 Internal Server Error — oops") ∧
    (RunTask (exampleEnv (always "200 OK" 200 "not json")) testClient
        Background testTaskRequest emptyWorld).1 =
      .error (Errorf_w "decode response: " (.errorString "invalid character")) ∧
    (GetTask (exampleEnv (fun _ _ => .error (.errorString "connection refused"))) testClient
        Background "test-run-id" emptyWorld).1 =
      .error (Errorf_w "send request: " (.errorString "connection refused")) ∧
    (GetTask (exampleEnv (always "500 Internal Server Error" 500 "oops")) testClient
        Background "test-run-id" emptyWorld).1 =
      .error (.errorString "API error: 500 Internal Server Error — oops") ∧
    (GetTask (exampleEnv (always "200 OK" 200 "not json")) testClient
        Background "test-run-id" emptyWorld).1 =
      .error (Errorf_w "decode response: " (.errorString "invalid character")) ∧
    (Chat (exampleEnv (fun _ _ => .error (.errorString "connection refused"))) testClient
        Background testChatRequest emptyWorld).1 =
      .error (Errorf_w "send request: " (.errorString "connection refused")) ∧
    (Chat (exampleEnv (always "500 Internal Server Error" 500 "oops")) testClient
        Background testChatRequest emptyWorld).1 =
      .error (.errorString "API error: 500 Internal Server Error — oops") ∧
    (Chat (exampleEnv (always "200 OK" 200 "not json")) testClient
        Background testChatRequest emptyWorld).1 =
      .error (Errorf_w "decode response: " (.errorString "invalid character")) :=
  ⟨((failure_kinds_distinct (exampleEnv (fun _ _ => .error (.errorString "connection refused")))
      testClient Background emptyWorld).1 zeroSearchRequest "search-payload" rfl rfl).1 (.errorString "connection refused") rfl,
   ((failure_kinds_distinct (exampleEnv (always "500 Internal Server Error" 500 "oops"))
      testClient Background emptyWorld).1 zeroSearchRequest "search-payload" rfl rfl).2.1 (respond "500 Internal Server Error" 500 "oops") rfl (by decide),
   ((failure_kinds_distinct (exampleEnv (always "200 OK" 200 "not json"))
      testClient Background emptyWorld).1 zeroSearchRequest "search-payload" rfl rfl).2.2 (respond "200 OK" 200 "not json") (.errorString "invalid character") rfl rfl rfl,
   ((failure_kinds_distinct (exampleEnv (fun _ _ => .error (.errorString "connection refused")))
      testClient Background emptyWorld).2.1 testExtractRequest "extract-payload" rfl rfl).1 (.errorString "connection refused") rfl,
   ((failure_kinds_distinct (exampleEnv (always "500 Internal Server Error" 500 "oops"))
      testClient Background emptyWorld).2.1 testExtractRequest "extract-payload" rfl rfl).2.1 (respond "500 Internal Server Error" 500 "oops") rfl (by decide),
   ((failure_kinds_distinct (exampleEnv (always "200 OK" 200 "not json"))
      testClient Background emptyWorld).2.1 testExtractRequest "extract-payload" rfl rfl).2.2 (respond "200 OK" 200 "not json") (.errorString "invalid character") rfl rfl rfl,
   ((failure_kinds_distinct (exampleEnv (fun _ _ => .error (.errorString "connection refused")))
      testClient Background emptyWorld).2.2.1 testTaskRequest "task-payload" rfl rfl).1 (.errorString "connection refused") rfl,
   ((failure_kinds_distinct (exampleEnv (always "500 Internal Server Error" 500 "oops"))
      testClient Background emptyWorld).2.2.1 testTaskRequest "task-payload" rfl rfl).2.1 (respond "500 Internal Server Error" 500 "oops") rfl (by decide),
   ((failure_kinds_distinct (exampleEnv (always "200 OK" 200 "not json"))
      testClient Background emptyWorld).2.2.1 testTaskRequest "task-payload" rfl rfl).2.2 (respond "200 OK" 200 "not json") (.errorString "invalid character") rfl rfl rfl,
   ((failure_kinds_distinct (exampleEnv (fun _ _ => .error (.errorString "connection refused")))
      testClient Background emptyWorld).2.2.2.1 "test-run-id" rfl).1 (.errorString "connection refused") rfl,
   ((failure_kinds_distinct (exampleEnv (always "500 Internal Server Error" 500 "oops"))
      testClient Background emptyWorld).2.2.2.1 "test-run-id" rfl).2.1 (respond "500 Internal Server Error" 500 "oops") rfl (by decide),
   ((failure_kinds_distinct (exampleEnv (always "200 OK" 200 "not json"))
      testClient Background emptyWorld).2.2.2.1 "test-run-id" rfl).2.2 (respond "200 OK" 200 "not json") (.errorString "invalid character") rfl rfl rfl,
   ((failure_kinds_distinct (exampleEnv (fun _ _ => .error (.errorString "connection refused")))
      testClient Background emptyWorld).2.2.2.2.1 testChatRequest "chat-payload" rfl rfl).1 (.errorString "connection refused") rfl,
   ((failure_kinds_distinct (exampleEnv (always "500 Internal Server Error" 500 "oops"))
      testClient Background emptyWorld).2.2.2.2.1 testChatRequest "chat-payload" rfl rfl).2.1 (respond "500 Internal Server Error" 500 "oops") rfl (by decide),
   ((failure_kinds_distinct (exampleEnv (always "200 OK" 200 "not json"))
      testClient Background emptyWorld).2.2.2.2.1 testChatRequest "chat-payload" rfl rfl).2.2 (respond "200 OK" 200 "not json") (.errorString "invalid character") rfl rfl rfl⟩

/-- C11, counterexample. A content cut in the middle of a two-byte character, the
bytes of "caf" followed by 0xC3, is not valid UTF-8: `json.Marshal` writes the escape
of U+FFFD for the stray byte, the decoded content ends in U+FFFD (0xEF 0xBF 0xBD), and
the message that comes back is not the one encoded. -/
theorem chat_message_invalid_utf8_changed :
    marshalChatMessage { Role := ascii "user", Content := [99, 97, 102, 0xC3] } =
      [123, 34] ++ ascii "role" ++ [34, 58, 34] ++ ascii "user" ++ [34, 44, 34] ++
        ascii "content" ++ [34, 58, 34] ++ ascii "caf" ++ [92] ++ ascii "ufffd" ++
        [34, 125] ∧
    decodeChatMessage
        (marshalChatMessage { Role := ascii "user", Content := [99, 97, 102, 0xC3] }) =
      some { Role := ascii "user", Content := [99, 97, 102, 0xEF, 0xBF, 0xBD] } ∧
    decodeChatMessage
        (marshalChatMessage { Role := ascii "user", Content := [99, 97, 102, 0xC3] }) ≠
      some { Role := ascii "user", Content := [99, 97, 102, 0xC3] } := by
  decide

/-- C11, amended. For every chat message whose role and content are valid UTF-8,
decoding what `json.Marshal` writes for it gives back a message with the same role and
the same content, byte for byte; this covers every message whose two strings are
texts. -/
theorem chat_message_round_trip :
    (∀ m : ChatMessageBytes, ValidString m.Role = true → ValidString m.Content = true →
      decodeChatMessage (marshalChatMessage m) = some m) ∧
    (∀ m : ParallelChatMessage,
      decodeChatMessage (marshalChatMessage m.bytes) = some m.bytes) :=
  ⟨decodeChatMessage_marshalChatMessage,
   fun m => decodeChatMessage_marshalChatMessage m.bytes (ValidString_utf8 m.Role)
     (ValidString_utf8 m.Content)⟩

/-- C11 amended, worked example: the message of the tests, and one whose content holds
a quote, a backslash, a line feed, `<`, a two-byte and a four-byte character, come back
unchanged. -/
theorem chat_message_round_trip_witness :
    decodeChatMessage (marshalChatMessage { Role := ascii "user", Content := ascii "Hi" }) =
      some { Role := ascii "user", Content := ascii "Hi" } ∧
    decodeChatMessage (marshalChatMessage
        { Role := ascii "assistant",
          Content := [34, 92, 10, 60, 0xC3, 0xA9, 0xF0, 0x9F, 0x98, 0x80] }) =
      some { Role := ascii "assistant",
             Content := [34, 92, 10, 60, 0xC3, 0xA9, 0xF0, 0x9F, 0x98, 0x80] } :=
  ⟨chat_message_round_trip.1 { Role := ascii "user", Content := ascii "Hi" }
      (by decide) (by decide),
   chat_message_round_trip.1
      { Role := ascii "assistant",
        Content := [34, 92, 10, 60, 0xC3, 0xA9, 0xF0, 0x9F, 0x98, 0x80] }
      (by decide) (by decide)⟩

/-- C12, counterexample. A first poll answered "failed" makes PollUntilComplete return
with a nil error a task whose status is "failed", not "completed". -/
theorem PollUntilComplete_nil_error_with_failed :
    PollUntilComplete (exampleEnv (always "200 OK" 200 (jsonField "status" "failed")))
        testClient "test-run-id" 10000000 [tickOnly] emptyWorld =
      (.returned (.ok (taskWith "" "failed")),
        { sent := [getTaskRequest testClient ⟨none⟩ "test-run-id"] }) ∧
    (taskWith "" "failed").Status ≠ "completed" :=
  ⟨rfl, by decide⟩

/-- C12, amended. Whenever PollUntilComplete returns a task with a nil error, the status
of that task is "completed" or "failed". -/
theorem PollUntilComplete_nil_error_status {Any Time : Type} (env : Env Any Time)
    (c : Client) (runID : String) (interval : Int) (sched : List Instant) (w w1 : World)
    (task : ParallelTaskResult Any Time)
    (hret : PollUntilComplete env c runID interval sched w = (.returned (.ok task), w1)) :
    task.Status = "completed" ∨ task.Status = "failed" := by
  have hloop : pollLoop env c runID sched w = (.returned (.ok task), w1) := by
    unfold PollUntilComplete at hret
    split at hret
    · simp at hret
    · exact hret
  exact pollLoop_ok_status env c runID sched w w1 task hloop

/-- C12 amended, worked example: the task returned with a nil error after two "running"
answers has one of the two terminal statuses. -/
theorem PollUntilComplete_nil_error_status_witness :
    (taskWith "" "completed").Status = "completed" ∨
      (taskWith "" "completed").Status = "failed" :=
  PollUntilComplete_nil_error_status (exampleEnv (answerAfter 2 "running" "completed"))
    testClient "test-run-id" 10000000 [tickOnly, tickOnly, tickOnly] emptyWorld
    { sent := List.replicate 3 (getTaskRequest testClient ⟨none⟩ "test-run-id") }
    (taskWith "" "completed") rfl

/-- C13. For every API key `k`, `NewClient k` has credential `k`, base URL
"https://api.parallel.ai/v1beta", beta tag "search-extract-2025-10-10" and an HTTP
client timeout of 30 seconds (30000000000 nanoseconds). -/
theorem NewClient_defaults (k : String) :
    (NewClient k).apiKey = k ∧
    (NewClient k).baseURL = "https://api.parallel.ai/v1beta" ∧
    (NewClient k).betaTag = "search-extract-2025-10-10" ∧
    (NewClient k).client.Timeout = 30 * Second ∧
    (NewClient k).client.Timeout = 30000000000 :=
  ⟨rfl, rfl, rfl, rfl, by show (30 : Int) * Second = 30000000000; decide⟩

/-- C14. For every interval greater than zero PollUntilComplete does not panic and is
its polling loop; for every interval less than or equal to zero it panics, whatever the
schedule says about the context and the ticker, it returns nothing, and the log of
requests is left as it was: no GetTask call is made. -/
theorem PollUntilComplete_interval {Any Time : Type} (env : Env Any Time) (c : Client)
    (runID : String) (interval : Int) (sched : List Instant) (w : World) :
    (0 < interval →
      PollUntilComplete env c runID interval sched w = pollLoop env c runID sched w ∧
      (PollUntilComplete env c runID interval sched w).1 ≠ .panicked) ∧
    (interval ≤ 0 →
      PollUntilComplete env c runID interval sched w = (.panicked, w) ∧
      (∀ r, (PollUntilComplete env c runID interval sched w).1 ≠ .returned r)) := by
  constructor
  · intro hpos
    rw [PollUntilComplete_pos env c runID interval sched w hpos]
    exact ⟨rfl, pollLoop_not_panicked env c runID sched w⟩
  · intro hle
    have h : PollUntilComplete env c runID interval sched w = (.panicked, w) := by
      simp [PollUntilComplete, hle]
    rw [h]
    exact ⟨rfl, fun r hr => by cases hr⟩

/-- C14, worked example: with interval 0 the call panics although the context is
already cancelled, and with a negative interval although a tick is pending; with the
interval of the tests it runs the loop and returns. -/
theorem PollUntilComplete_interval_witness :
    PollUntilComplete (exampleEnv cancelAware) testClient "test-run-id" 0
        [cancelledDonePicked] emptyWorld = (.panicked, emptyWorld) ∧
    PollUntilComplete (exampleEnv cancelAware) testClient "test-run-id" (-5)
        [tickOnly] emptyWorld = (.panicked, emptyWorld) ∧
    PollUntilComplete (exampleEnv cancelAware) testClient "test-run-id" 10000000
        [cancelledDonePicked] emptyWorld =
      pollLoop (exampleEnv cancelAware) testClient "test-run-id" [cancelledDonePicked]
        emptyWorld :=
  ⟨((PollUntilComplete_interval (exampleEnv cancelAware) testClient "test-run-id" 0
      [cancelledDonePicked] emptyWorld).2 (by decide)).1,
   ((PollUntilComplete_interval (exampleEnv cancelAware) testClient "test-run-id" (-5)
      [tickOnly] emptyWorld).2 (by decide)).1,
   ((PollUntilComplete_interval (exampleEnv cancelAware) testClient "test-run-id" 10000000
      [cancelledDonePicked] emptyWorld).1 (by decide)).1⟩

end Parallel
